import Mathlib

/-!
# Dawn of Stellar: battle demo (`src/web/demo.js`)

A shallow embedding of the combat engine of the demo: the `Character` class, the
module-level battle state and the functions that act on it.

Modelling conventions.

* A JavaScript number is a rational. The products, quotients and sums of the
  damage formulas, of the random multiplier, of `speed` and of the gauge update
  are rounded to the nearest double after every operation, a tie going to the
  even significand, as IEEE 754 arithmetic does; a decimal literal that is not a
  double (`0.9`, `0.2`) stands for the double nearest to it. The exponent range
  is unbounded: overflow and underflow are not represented.
* The sums and differences on `hp`, `mp` and `brv` are exact, as they are in
  doubles on the integers below `2^53` that the battle produces. The subtraction
  of 1000 from `atb` is exact, as it is in doubles for a gauge within
  `[1000, 2000]`, where `canAct()` holds, and for the second subtraction that
  the auto branch of `gameLoop` performs on the result.
* The draw of `enemyAI` is compared with the rational `0.4`: no double lies
  between `0.4` and the double nearest to it, so a draw that is a double is
  below one exactly when it is below the other.
* A division whose divisor is zero yields a non-finite number in JavaScript
  (`Infinity`, `-Infinity` or `NaN`). Such values are outside the model: an
  operation that would divide by zero returns `none`.
* `Math.random()` is an explicit argument, one per draw.
* `Math.floor` of a rational is an integer; in a log message it is printed in
  decimal.
* The two combatants are distinct objects, as `player` and `enemy` are in the
  source; a method is a function from the receiver and the target to their new
  values.
* The DOM is represented only by the list of entries appended to the combat log
  and by the number of pending `setTimeout` callbacks; `updateUI` writes nothing
  else than DOM nodes.
-/

namespace DawnOfStellar

/-! ## Double precision -/

/-- The integer nearest to `q`, a tie going to the even one. -/
def roundHalfEven (q : ℚ) : ℤ :=
  if q - ⌊q⌋ < 1 / 2 then ⌊q⌋
  else if 1 / 2 < q - ⌊q⌋ then ⌊q⌋ + 1
  else if ⌊q⌋ % 2 = 0 then ⌊q⌋ else ⌊q⌋ + 1

/-- The double nearest to `q`, a tie going to the even significand: `q` is
scaled by the power of two that brings it into `[2^52, 2^53)`, rounded to an
integer and scaled back. -/
def toDouble (q : ℚ) : ℚ :=
  if q = 0 then 0
  else roundHalfEven (q / 2 ^ (Int.log 2 |q| - 52)) * 2 ^ (Int.log 2 |q| - 52)

/-- The sum of two doubles, as `+` computes it. -/
def fadd (a b : ℚ) : ℚ := toDouble (a + b)

/-- The product of two doubles, as `*` computes it. -/
def fmul (a b : ℚ) : ℚ := toDouble (a * b)

/-- The quotient of two doubles, as `/` computes it. -/
def fdiv (a b : ℚ) : ℚ := toDouble (a / b)

/-! ## Combatant -/

/-- Fields of the class `Character`. -/
structure Character where
  name : String
  hp : ℚ
  maxHp : ℚ
  mp : ℚ
  maxMp : ℚ
  brv : ℚ
  maxBrv : ℚ
  attack : ℚ
  defense : ℚ
  atb : ℚ
  speed : ℚ
  isBroken : Bool
  deriving DecidableEq

/-- The constructor; `rnd` is the value drawn by `Math.random()`. -/
def Character.new (name : String) (hp mp brv maxBrv attack defense : ℚ) (rnd : ℚ) :
    Character :=
  { name := name
    hp := hp
    maxHp := hp
    mp := mp
    maxMp := mp
    brv := brv
    maxBrv := maxBrv
    attack := attack
    defense := defense
    atb := 0
    speed := fadd 50 (fmul rnd 20)
    isBroken := false }

/-- Method `updateATB`. -/
def Character.updateATB (self : Character) : Character :=
  if self.atb < 2000 then
    let self := { self with atb := fadd self.atb self.speed }
    if self.atb > 2000 then { self with atb := 2000 } else self
  else self

/-- Method `canAct`. -/
def Character.canAct (self : Character) : Bool :=
  decide (self.atb ≥ 1000) && decide (self.hp > 0)

/-- Method `consumeATB`. -/
def Character.consumeATB (self : Character) : Character :=
  { self with atb := self.atb - 1000 }

/-- One call of `log(message, type)`: the entry appended to `#combat-log`. -/
structure LogEntry where
  message : String
  type : String
  deriving DecidableEq

/-- Text of the BREAK entry. -/
def breakMessage (targetName : String) : String :=
  "💥 BREAK! " ++ targetName ++ "이(가) 무력화되었습니다!"

/-- The object returned by `brvAttack`. -/
structure BrvResult where
  brvDamage : ℤ
  breakBonus : ℚ
  deriving DecidableEq

/-- Effect of one `brvAttack`: the receiver and the target afterwards, the
returned object and the log entries emitted during the call. -/
structure BrvOutcome where
  self : Character
  target : Character
  result : BrvResult
  logs : List LogEntry
  deriving DecidableEq

/-- The multiplier `0.9 + Math.random() * 0.2`. -/
def damageRoll (rnd : ℚ) : ℚ := fadd (toDouble 0.9) (fmul rnd (toDouble 0.2))

/-- The transfer of `brvDamage` from `target` to `self`, the clamp of the
receiver at `maxBrv` and the BREAK check: lines 36 to 50 of `brvAttack`. -/
def brvTransfer (self target : Character) (brvDamage : ℤ) : BrvOutcome :=
  let target := { target with brv := target.brv - brvDamage }
  let self := { self with brv := self.brv + brvDamage }
  let self := if self.brv > self.maxBrv then { self with brv := self.maxBrv } else self
  if target.brv ≤ 0 then
    { self := self
      target := { target with isBroken := true, brv := 0 }
      result := { brvDamage := brvDamage, breakBonus := 1.5 }
      logs := [⟨breakMessage target.name, "break"⟩] }
  else
    { self := self
      target := target
      result := { brvDamage := brvDamage, breakBonus := 1.0 }
      logs := [] }

/-- Method `brvAttack`; `rnd` is the value drawn by `Math.random()`. -/
def Character.brvAttack (self target : Character) (rnd : ℚ) : Option BrvOutcome :=
  if target.defense = 0 then none
  else
    let brvDamage : ℤ :=
      ⌊fmul (fmul (fmul (fdiv self.attack target.defense) 2.0) 75) (damageRoll rnd)⌋
    some (brvTransfer self target brvDamage)

/-- Effect of one `hpAttack`: the receiver and the target afterwards and the
returned damage. -/
structure HpOutcome where
  self : Character
  target : Character
  hpDamage : ℤ
  deriving DecidableEq

/-- Method `hpAttack`. -/
def Character.hpAttack (self target : Character) : Option HpOutcome :=
  if fadd target.defense 1 = 0 then none
  else
    let hpDamage : ℤ :=
      ⌊fmul (fmul (fmul self.brv 0.25) (fdiv self.attack (fadd target.defense 1)))
        (if target.isBroken then 1.5 else 1.0)⌋
    let target := { target with hp := target.hp - hpDamage }
    let target := if target.hp < 0 then { target with hp := 0 } else target
    some
      { self := { self with brv := 100 }
        target := { target with isBroken := false }
        hpDamage := hpDamage }

/-! ## Battle controller -/

/-- The module-level state: the two combatants, whether `gameInterval` holds a
timer handle, `autoMode`, the entries of `#combat-log` in the order of their
emission and the number of callbacks registered with `setTimeout`. -/
structure Game where
  player : Character
  enemy : Character
  gameInterval : Bool
  autoMode : Bool
  combatLog : List LogEntry
  timeouts : ℕ
  deriving DecidableEq

/-- Function `updateUI`: it reads the state and writes DOM nodes only. -/
def updateUI (g : Game) : Game := g

/-- Function `log`. -/
def log (g : Game) (message : String) (type : String) : Game :=
  { g with combatLog := g.combatLog ++ [⟨message, type⟩] }

/-- Appends the entries emitted inside a method call to the combat log. -/
def logAll (g : Game) (entries : List LogEntry) : Game :=
  { g with combatLog := g.combatLog ++ entries }

/-- Function `stopGame`. -/
def stopGame (g : Game) : Game :=
  if g.gameInterval then { g with gameInterval := false } else g

/-- Text of the defeat entry. -/
def defeatMessage : String := "💀 패배! 전사가 쓰러졌습니다."

/-- Text of the victory entry. -/
def victoryMessage : String := "🎉 승리! 고블린을 처치했습니다!"

/-- Function `checkGameOver`: the returned boolean and the state afterwards. -/
def checkGameOver (g : Game) : Bool × Game :=
  if g.player.hp ≤ 0 then
    let g := log g defeatMessage "damage"
    let g := stopGame g
    (true, { g with timeouts := g.timeouts + 1 })
  else if g.enemy.hp ≤ 0 then
    let g := log g victoryMessage "heal"
    let g := stopGame g
    (true, { g with timeouts := g.timeouts + 1 })
  else (false, g)

/-- Function `playerBrvAttack`; `rnd` is the draw made inside `brvAttack`. -/
def playerBrvAttack (rnd : ℚ) (g : Game) : Option Game :=
  match g.player.brvAttack g.enemy rnd with
  | none => none
  | some out =>
    let g := logAll { g with player := out.self, enemy := out.target } out.logs
    let g := log g
      ("⚔️ " ++ g.player.name ++ "의 BRV 공격! " ++ g.enemy.name ++ "의 BRV " ++
        toString out.result.brvDamage ++ " 감소, " ++ g.player.name ++ "의 BRV " ++
        toString out.result.brvDamage ++ " 증가") "damage"
    let g := { g with player := g.player.consumeATB }
    let g := updateUI g
    some (checkGameOver g).2

/-- Function `playerHpAttack`. -/
def playerHpAttack (g : Game) : Option Game :=
  match g.player.hpAttack g.enemy with
  | none => none
  | some out =>
    let g := { g with player := out.self, enemy := out.target }
    let g := log g
      ("💥 " ++ g.player.name ++ "의 HP 공격! " ++ g.enemy.name ++ "에게 " ++
        toString out.hpDamage ++ " 데미지!") "damage"
    let g := { g with player := g.player.consumeATB }
    let g := updateUI g
    some (checkGameOver g).2

/-- Function `playerSkillAttack`; `rnd` is the draw made for the damage. -/
def playerSkillAttack (rnd : ℚ) (g : Game) : Option Game :=
  if g.player.mp < 15 then some g
  else
    let g := { g with player := { g.player with mp := g.player.mp - 15 } }
    if g.enemy.defense = 0 then none
    else
      let brvDamage : ℤ :=
        ⌊fmul (fmul (fmul (fdiv g.player.attack g.enemy.defense) 2.5) 75) (damageRoll rnd)⌋
      let g := { g with enemy := { g.enemy with brv := g.enemy.brv - brvDamage } }
      let g := { g with player := { g.player with brv := g.player.brv + brvDamage } }
      let g :=
        if g.player.brv > g.player.maxBrv then
          { g with player := { g.player with brv := g.player.maxBrv } }
        else g
      let g :=
        if g.enemy.brv ≤ 0 then
          let g := { g with enemy := { g.enemy with isBroken := true } }
          let g := { g with enemy := { g.enemy with brv := 0 } }
          log g (breakMessage g.enemy.name) "break"
        else g
      let g := log g
        ("🔥 " ++ g.player.name ++ "의 강타! " ++ g.enemy.name ++ "의 BRV " ++
          toString brvDamage ++ " 감소!") "damage"
      let g := { g with player := g.player.consumeATB }
      let g := updateUI g
      some (checkGameOver g).2

/-- Function `enemyAI`; `action` is the draw that selects the branch and `rnd`
the draw made inside `brvAttack` when that branch is taken. -/
def enemyAI (action rnd : ℚ) (g : Game) : Option Game :=
  if action < 0.4 ∨ g.enemy.brv < 300 then
    match g.enemy.brvAttack g.player rnd with
    | none => none
    | some out =>
      let g := logAll { g with enemy := out.self, player := out.target } out.logs
      let g := log g
        ("👹 " ++ g.enemy.name ++ "의 BRV 공격! " ++ g.player.name ++ "의 BRV " ++
          toString out.result.brvDamage ++ " 감소") "damage"
      some (checkGameOver g).2
  else
    match g.enemy.hpAttack g.player with
    | none => none
    | some out =>
      let g := { g with enemy := out.self, player := out.target }
      let g := log g
        ("👹 " ++ g.enemy.name ++ "의 HP 공격! " ++ g.player.name ++ "에게 " ++
          toString out.hpDamage ++ " 데미지!") "damage"
      some (checkGameOver g).2

/-- The enemy part of `gameLoop`: `if (enemy.canAct() && !checkGameOver())`. -/
def enemyTurn (action rnd : ℚ) (g : Game) : Option Game :=
  if g.enemy.canAct then
    let r := checkGameOver g
    if !r.1 then
      match enemyAI action rnd r.2 with
      | none => none
      | some g => some { g with enemy := g.enemy.consumeATB }
    else some r.2
  else some g

/-- The auto-mode part of `gameLoop`:
`if (autoMode && player.canAct() && !checkGameOver())`. -/
def autoTurn (rnd : ℚ) (g : Game) : Option Game :=
  if g.autoMode && g.player.canAct then
    let r := checkGameOver g
    if !r.1 then
      match playerBrvAttack rnd r.2 with
      | none => none
      | some g => some { g with player := g.player.consumeATB }
    else some r.2
  else some g

/-- Function `gameLoop`, one tick; `action` and `rndEnemy` are the draws of the
enemy turn and `rndPlayer` the draw of the auto-mode player attack. -/
def gameLoop (action rndEnemy rndPlayer : ℚ) (g : Game) : Option Game :=
  let g := { g with player := g.player.updateATB }
  let g := { g with enemy := g.enemy.updateATB }
  match enemyTurn action rndEnemy g with
  | none => none
  | some g =>
    match autoTurn rndPlayer g with
    | none => none
    | some g => some (updateUI g)

/-- Function `startGame`. -/
def startGame (g : Game) : Game :=
  if !g.gameInterval then log { g with gameInterval := true } "⏯️ 게임 시작!" "normal"
  else g

/-- Function `toggleAuto`. -/
def toggleAuto (g : Game) : Game :=
  let g := { g with autoMode := !g.autoMode }
  if g.autoMode then log g "🤖 자동 전투 모드 활성화" "normal"
  else log g "👤 수동 전투 모드" "normal"

/-- The state once the script has been loaded: the two `new Character(...)`,
then `startGame()` and `updateUI()`; `rndPlayer` and `rndEnemy` are the draws
of the two constructors. -/
def initialGame (rndPlayer rndEnemy : ℚ) : Game :=
  updateUI (startGame
    { player := Character.new "전사" 210 32 1000 1500 60 60 rndPlayer
      enemy := Character.new "고블린" 150 20 800 1000 40 30 rndEnemy
      gameInterval := false
      autoMode := false
      combatLog := []
      timeouts := 0 })

/-! ## Scenarios of the specification -/

/-- The player as created by the script, the draw of its speed being 0. -/
def scenarioPlayer : Character := Character.new "전사" 210 32 1000 1500 60 60 0

/-- The enemy as created by the script, the draw of its speed being 0. -/
def scenarioEnemy : Character := Character.new "고블린" 150 20 800 1000 40 30 0

/-- The battle after Scenario A: the player holds 1300 Bravery, the enemy 500. -/
def scenarioGame : Game :=
  { player := { scenarioPlayer with brv := 1300 }
    enemy := { scenarioEnemy with brv := 500 }
    gameInterval := true
    autoMode := false
    combatLog := []
    timeouts := 0 }

/-- Scenario C: the battle at its start, except that the enemy holds 250 Bravery. -/
def scenarioCGame : Game :=
  { player := scenarioPlayer
    enemy := { scenarioEnemy with brv := 250 }
    gameInterval := true
    autoMode := false
    combatLog := []
    timeouts := 0 }

/-- The battle after Scenario B: the enemy has no hit points left and the player
holds the 100 Bravery that `hpAttack` leaves; the player's gauge is full
again. -/
def victoryGame : Game :=
  { player := { scenarioPlayer with brv := 100, atb := 1000 }
    enemy := { scenarioEnemy with hp := 0, brv := 500 }
    gameInterval := false
    autoMode := false
    combatLog := []
    timeouts := 1 }

/-- The battle after Scenario A, the player having let the gauge fill to its cap
of 2000 before acting. -/
def bankedGame : Game :=
  { player := { scenarioPlayer with brv := 1300, atb := 2000 }
    enemy := { scenarioEnemy with brv := 500 }
    gameInterval := true
    autoMode := false
    combatLog := []
    timeouts := 0 }

/-- A lost battle: the player has no hit points left, the enemy holds the 100
Bravery that `hpAttack` leaves. -/
def defeatGame : Game :=
  { player := { scenarioPlayer with hp := 0 }
    enemy := { scenarioEnemy with brv := 100 }
    gameInterval := false
    autoMode := false
    combatLog := []
    timeouts := 1 }

/-- The battle at its start, except that the player has 2 mana left (the 32 of
the start less two skill attacks). -/
def lowMpGame : Game :=
  { player := { scenarioPlayer with mp := 2 }
    enemy := scenarioEnemy
    gameInterval := true
    autoMode := false
    combatLog := []
    timeouts := 0 }

/-- A battle in auto mode one tick before the player's turn: the player's
gauge is at 960 and fills by 60 a tick, the enemy's is at 800 and fills by
50. -/
def autoReadyGame : Game :=
  { player := { scenarioPlayer with atb := 960, speed := 60 }
    enemy := { scenarioEnemy with atb := 800 }
    gameInterval := true
    autoMode := true
    combatLog := []
    timeouts := 0 }

/-- The state after `n` calls of `gameLoop`, each with the same three draws. -/
def ticks (action rndEnemy rndPlayer : ℚ) : ℕ → Game → Option Game
  | 0, g => some g
  | n + 1, g => (gameLoop action rndEnemy rndPlayer g).bind (ticks action rndEnemy rndPlayer n)

/-- The battle as the script leaves it, the speed draws being 1/2 for the player
(speed 60) and 0 for the enemy (speed 50), after one click on the auto
button. -/
def autoBattle : Game := toggleAuto (initialGame (1 / 2) 0)

/-- The battle `autoBattle` after `k` ticks in which nobody acts: the gauges are
at `60 * k` and `50 * k`. -/
def idleBattle (k : ℕ) : Game :=
  { autoBattle with
    player := { autoBattle.player with atb := 60 * k }
    enemy := { autoBattle.enemy with atb := 50 * k } }

/-! ## Runs of a battle -/

/-- The bounds of the data model on the resources of one combatant. -/
def Character.inBounds (c : Character) : Prop :=
  0 ≤ c.hp ∧ c.hp ≤ c.maxHp ∧ 0 ≤ c.mp ∧ c.mp ≤ c.maxMp ∧ 0 ≤ c.brv ∧ c.brv ≤ c.maxBrv

instance (c : Character) : Decidable c.inBounds := by
  unfold Character.inBounds
  infer_instance

/-- A combatant whose stats keep the formulas well defined: positive `attack`
and `defense`, a `maxBrv` not below the 100 that `hpAttack` leaves, and
resources within their bounds. -/
def Character.Sound (c : Character) : Prop :=
  0 < c.attack ∧ 0 < c.defense ∧ 100 ≤ c.maxBrv ∧ c.inBounds

instance (c : Character) : Decidable c.Sound := by
  unfold Character.Sound
  infer_instance

/-- A value that `Math.random()` can return. -/
def isDraw (r : ℚ) : Prop := 0 ≤ r ∧ r < 1

instance (r : ℚ) : Decidable (isDraw r) := by
  unfold isDraw
  infer_instance

/-- The states of a battle: the state once the script is loaded, and every state
that a tick of `gameLoop`, a call of one of the three player actions or a click
on the auto button leads to from such a state, every draw being in `[0, 1)`. -/
inductive Reachable : Game → Prop
  | init (rndPlayer rndEnemy : ℚ) (hp : isDraw rndPlayer) (he : isDraw rndEnemy) :
      Reachable (initialGame rndPlayer rndEnemy)
  | tick {g g' : Game} (action rndEnemy rndPlayer : ℚ) (ha : isDraw action)
      (he : isDraw rndEnemy) (hp : isDraw rndPlayer) (hg : Reachable g)
      (h : gameLoop action rndEnemy rndPlayer g = some g') : Reachable g'
  | playerBrv {g g' : Game} (rnd : ℚ) (hr : isDraw rnd) (hg : Reachable g)
      (h : playerBrvAttack rnd g = some g') : Reachable g'
  | playerHp {g g' : Game} (hg : Reachable g) (h : playerHpAttack g = some g') : Reachable g'
  | playerSkill {g g' : Game} (rnd : ℚ) (hr : isDraw rnd) (hg : Reachable g)
      (h : playerSkillAttack rnd g = some g') : Reachable g'
  | toggle {g : Game} (hg : Reachable g) : Reachable (toggleAuto g)

/-- Both combatants of a battle are sound. -/
def Game.Sound (g : Game) : Prop := g.player.Sound ∧ g.enemy.Sound

instance (g : Game) : Decidable g.Sound := by
  unfold Game.Sound
  infer_instance

/-- The branch taken by a call of `enemyAI`. -/
inductive EnemyMove where
  | brvAttack
  | hpAttack
  deriving DecidableEq

/-- What the enemy does in the tick that `gameLoop` runs from `g` with the draw
`action`: nothing when, the gauges once advanced, `enemy.canAct()` is false or
`checkGameOver()` is true, and otherwise the branch that `enemyAI` takes. -/
def enemyMove (action : ℚ) (g : Game) : Option EnemyMove :=
  let g := { g with player := g.player.updateATB, enemy := g.enemy.updateATB }
  if g.enemy.canAct && !(checkGameOver g).1 then
    if action < 0.4 ∨ g.enemy.brv < 300 then some EnemyMove.brvAttack
    else some EnemyMove.hpAttack
  else none

/-- The runs of a battle, as `Reachable`, each state coming with the branch of
the latest enemy turn of the run, if there was one. -/
inductive Run : Game → Option EnemyMove → Prop
  | init (rndPlayer rndEnemy : ℚ) (hp : isDraw rndPlayer) (he : isDraw rndEnemy) :
      Run (initialGame rndPlayer rndEnemy) none
  | tick {g g' : Game} {last : Option EnemyMove} (action rndEnemy rndPlayer : ℚ)
      (ha : isDraw action) (he : isDraw rndEnemy) (hp : isDraw rndPlayer) (hg : Run g last)
      (h : gameLoop action rndEnemy rndPlayer g = some g') :
      Run g' ((enemyMove action g).orElse fun _ => last)
  | playerBrv {g g' : Game} {last : Option EnemyMove} (rnd : ℚ) (hr : isDraw rnd)
      (hg : Run g last) (h : playerBrvAttack rnd g = some g') : Run g' last
  | playerHp {g g' : Game} {last : Option EnemyMove} (hg : Run g last)
      (h : playerHpAttack g = some g') : Run g' last
  | playerSkill {g g' : Game} {last : Option EnemyMove} (rnd : ℚ) (hr : isDraw rnd)
      (hg : Run g last) (h : playerSkillAttack rnd g = some g') : Run g' last
  | toggle {g : Game} {last : Option EnemyMove} (hg : Run g last) : Run (toggleAuto g) last

/-- The battle as the script leaves it, the speed draws being 0 for the player
(speed 50) and 1/2 for the enemy (speed 60), after `k` ticks in which nobody
acts: the gauges are at `50 * k` and `60 * k`. -/
def enemyFirstBattle (k : ℕ) : Game :=
  { initialGame 0 (1 / 2) with
    player := { (initialGame 0 (1 / 2)).player with atb := 50 * k }
    enemy := { (initialGame 0 (1 / 2)).enemy with atb := 60 * k } }

/-- A gauge within `[0, 2000]` that fills at a speed not below 0. -/
def Character.gaugeOk (c : Character) : Prop := 0 ≤ c.atb ∧ c.atb ≤ 2000 ∧ 0 ≤ c.speed

instance (c : Character) : Decidable c.gaugeOk := by
  unfold Character.gaugeOk
  infer_instance

/-- The states of a battle played by hand: from the state once the script is
loaded, by ticks of `gameLoop` and by player actions invoked only while
`player.canAct()` is true, the auto button never being clicked. -/
inductive ManualReachable : Game → Prop
  | init (rndPlayer rndEnemy : ℚ) (hp : isDraw rndPlayer) (he : isDraw rndEnemy) :
      ManualReachable (initialGame rndPlayer rndEnemy)
  | tick {g g' : Game} (action rndEnemy rndPlayer : ℚ) (hg : ManualReachable g)
      (h : gameLoop action rndEnemy rndPlayer g = some g') : ManualReachable g'
  | playerBrv {g g' : Game} (rnd : ℚ) (hg : ManualReachable g)
      (hc : g.player.canAct = true) (h : playerBrvAttack rnd g = some g') :
      ManualReachable g'
  | playerHp {g g' : Game} (hg : ManualReachable g) (hc : g.player.canAct = true)
      (h : playerHpAttack g = some g') : ManualReachable g'
  | playerSkill {g g' : Game} (rnd : ℚ) (hg : ManualReachable g)
      (hc : g.player.canAct = true) (h : playerSkillAttack rnd g = some g') :
      ManualReachable g'

/-! ## Rounding to a double -/

theorem roundHalfEven_sub_le (q : ℚ) : |(roundHalfEven q : ℚ) - q| ≤ 1 / 2 := by
  have h1 := Int.floor_le q
  have h2 := Int.lt_floor_add_one q
  unfold roundHalfEven
  split_ifs with ha hb hc
  · rw [abs_le]; constructor <;> linarith
  · rw [abs_le]; push_cast; constructor <;> linarith
  · rw [abs_le]; constructor <;> linarith
  · rw [abs_le]; push_cast; constructor <;> linarith

theorem roundHalfEven_eq_of_near (q : ℚ) (m : ℤ) (h : |q - m| < 1 / 2) :
    roundHalfEven q = m := by
  have hr := roundHalfEven_sub_le q
  rw [abs_lt] at h
  rw [abs_le] at hr
  have h1 : ((roundHalfEven q : ℤ) : ℚ) - m < 1 := by linarith [hr.2, h.2]
  have h2 : (-1 : ℚ) < ((roundHalfEven q : ℤ) : ℚ) - m := by linarith [hr.1, h.1]
  have h3 : roundHalfEven q - m < 1 := by exact_mod_cast h1
  have h4 : -1 < roundHalfEven q - m := by exact_mod_cast h2
  omega

theorem roundHalfEven_intCast (n : ℤ) : roundHalfEven (n : ℚ) = n :=
  roundHalfEven_eq_of_near _ n (by simp)

theorem roundHalfEven_nonneg (q : ℚ) (h : 0 ≤ q) : 0 ≤ roundHalfEven q := by
  have hf : 0 ≤ ⌊q⌋ := Int.floor_nonneg.mpr h
  unfold roundHalfEven
  split_ifs <;> omega

theorem roundHalfEven_neg_of_le (q : ℚ) (h : q ≤ -1) : roundHalfEven q < 0 := by
  have hr := roundHalfEven_sub_le q
  rw [abs_le] at hr
  have h1 : ((roundHalfEven q : ℤ) : ℚ) < 0 := by linarith [hr.2]
  exact_mod_cast h1

theorem roundHalfEven_pos_of_le (q : ℚ) (h : 1 ≤ q) : 0 < roundHalfEven q := by
  have hr := roundHalfEven_sub_le q
  rw [abs_le] at hr
  have h1 : (0 : ℚ) < ((roundHalfEven q : ℤ) : ℚ) := by linarith [hr.1]
  exact_mod_cast h1

theorem two_zpow_pos (e : ℤ) : (0 : ℚ) < 2 ^ e := zpow_pos (by norm_num) e

/-- The scale of `q`: `2 ^ log₂|q| ≤ |q| < 2 ^ (log₂|q| + 1)`. -/
theorem zpow_log_le_abs (q : ℚ) (h : q ≠ 0) :
    (2 : ℚ) ^ Int.log 2 |q| ≤ |q| ∧ |q| < (2 : ℚ) ^ (Int.log 2 |q| + 1) := by
  have hpos : 0 < |q| := abs_pos.mpr h
  exact ⟨by exact_mod_cast Int.zpow_log_le_self (by norm_num) hpos,
    by exact_mod_cast Int.lt_zpow_succ_log_self (by norm_num) |q|⟩

theorem toDouble_zero : toDouble 0 = 0 := by
  unfold toDouble
  rw [if_pos rfl]

theorem toDouble_nonneg (q : ℚ) (h : 0 ≤ q) : 0 ≤ toDouble q := by
  unfold toDouble
  split_ifs with h0
  · exact le_refl _
  · have hu := two_zpow_pos (Int.log 2 |q| - 52)
    have h1 : 0 ≤ roundHalfEven (q / 2 ^ (Int.log 2 |q| - 52)) :=
      roundHalfEven_nonneg _ (div_nonneg h (le_of_lt hu))
    exact mul_nonneg (by exact_mod_cast h1) (le_of_lt hu)

/-- The relative error of one rounding is at most `2^-53`. -/
theorem toDouble_sub_le (q : ℚ) : |toDouble q - q| ≤ |q| / 2 ^ 53 := by
  unfold toDouble
  split_ifs with h0
  · rw [h0]; simp
  · have hu := two_zpow_pos (Int.log 2 |q| - 52)
    have hr := roundHalfEven_sub_le (q / 2 ^ (Int.log 2 |q| - 52))
    have hq : q = q / 2 ^ (Int.log 2 |q| - 52) * 2 ^ (Int.log 2 |q| - 52) := by
      field_simp
    have heq : (roundHalfEven (q / 2 ^ (Int.log 2 |q| - 52)) : ℚ) * 2 ^ (Int.log 2 |q| - 52) - q =
        ((roundHalfEven (q / 2 ^ (Int.log 2 |q| - 52)) : ℚ) - q / 2 ^ (Int.log 2 |q| - 52)) *
          2 ^ (Int.log 2 |q| - 52) := by
      rw [sub_mul]
      congr 1
    rw [heq, abs_mul, abs_of_pos hu]
    have hscale : (2 : ℚ) ^ (Int.log 2 |q| - 52) = 2 ^ Int.log 2 |q| / 2 ^ 52 := by
      rw [zpow_sub₀ (by norm_num : (2 : ℚ) ≠ 0)]
      norm_num
    have hlog := (zpow_log_le_abs q h0).1
    calc |(roundHalfEven (q / 2 ^ (Int.log 2 |q| - 52)) : ℚ) - q / 2 ^ (Int.log 2 |q| - 52)| *
          2 ^ (Int.log 2 |q| - 52)
        ≤ 1 / 2 * 2 ^ (Int.log 2 |q| - 52) := mul_le_mul_of_nonneg_right hr (le_of_lt hu)
      _ = 2 ^ Int.log 2 |q| / 2 ^ 53 := by rw [hscale]; ring
      _ ≤ |q| / 2 ^ 53 := div_le_div_of_nonneg_right hlog (by positivity)

theorem toDouble_eq_zero_iff (q : ℚ) : toDouble q = 0 ↔ q = 0 := by
  constructor
  · intro h
    by_contra h0
    have herr := toDouble_sub_le q
    rw [h, zero_sub, abs_neg] at herr
    have hpos : 0 < |q| := abs_pos.mpr h0
    have : |q| / 2 ^ 53 < |q| := by
      rw [div_lt_iff₀ (by positivity)]
      nlinarith
    linarith
  · intro h
    rw [h, toDouble_zero]

/-- Evaluation of one rounding: `q` lies in the binade of `2 ^ e` and within
half a unit in the last place of `m * 2 ^ (e - 52)`. -/
theorem toDouble_eq_of (q : ℚ) (e m : ℤ) (h1 : (2 : ℚ) ^ e ≤ |q|) (h2 : |q| < (2 : ℚ) ^ (e + 1))
    (hm : |q / 2 ^ (e - 52) - m| < 1 / 2) : toDouble q = m * 2 ^ (e - 52) := by
  have h0 : q ≠ 0 := by
    intro h
    rw [h, abs_zero] at h1
    exact absurd h1 (not_le.mpr (two_zpow_pos e))
  have hpos : 0 < |q| := abs_pos.mpr h0
  have hlog : Int.log 2 |q| = e := by
    apply le_antisymm
    · have := (Int.lt_zpow_iff_log_lt (by norm_num : 1 < 2) hpos).mp (by exact_mod_cast h2)
      omega
    · exact (Int.zpow_le_iff_le_log (by norm_num : 1 < 2) hpos).mp (by exact_mod_cast h1)
  unfold toDouble
  rw [if_neg h0, hlog, roundHalfEven_eq_of_near _ m hm]

/-- A natural number below `2^53` is a double. -/
theorem toDouble_natCast (n : ℕ) (h : n < 2 ^ 53) : toDouble (n : ℚ) = n := by
  rcases Nat.eq_zero_or_pos n with h0 | hpos
  · subst h0
    simp [toDouble_zero]
  · have he1 : 2 ^ Nat.log 2 n ≤ n := Nat.pow_log_le_self 2 (ne_of_gt hpos)
    have he2 : n < 2 ^ (Nat.log 2 n + 1) := Nat.lt_pow_succ_log_self (by norm_num) n
    have he : Nat.log 2 n ≤ 52 := by
      by_contra hc
      have : 2 ^ 53 ≤ 2 ^ Nat.log 2 n := Nat.pow_le_pow_right (by norm_num) (by omega)
      omega
    have hn : |(n : ℚ)| = n := abs_of_nonneg (Nat.cast_nonneg n)
    have hscale : (2 : ℚ) ^ ((Nat.log 2 n : ℤ) - 52) * 2 ^ (52 - Nat.log 2 n) = 1 := by
      rw [← zpow_natCast, ← zpow_add₀ (by norm_num : (2 : ℚ) ≠ 0)]
      have : ((Nat.log 2 n : ℤ) - 52) + ((52 - Nat.log 2 n : ℕ) : ℤ) = 0 := by omega
      rw [this, zpow_zero]
    have hu := two_zpow_pos ((Nat.log 2 n : ℤ) - 52)
    have hdiv : (n : ℚ) / 2 ^ ((Nat.log 2 n : ℤ) - 52) = (n : ℚ) * 2 ^ (52 - Nat.log 2 n) := by
      rw [div_eq_iff (ne_of_gt hu), mul_assoc, mul_comm _ ((2 : ℚ) ^ ((Nat.log 2 n : ℤ) - 52)),
        hscale, mul_one]
    have := toDouble_eq_of (n : ℚ) (Nat.log 2 n) ((n * 2 ^ (52 - Nat.log 2 n) : ℕ) : ℤ)
      (by rw [hn, zpow_natCast]; exact_mod_cast he1)
      (by rw [hn]; exact_mod_cast he2)
      (by rw [hdiv]; push_cast; simp)
    rw [this]
    push_cast
    rw [mul_assoc, mul_comm ((2 : ℚ) ^ (52 - Nat.log 2 n)), hscale, mul_one]

theorem fadd_natCast (a b : ℕ) (h : a + b < 2 ^ 53) : fadd (a : ℚ) (b : ℚ) = (a + b : ℕ) := by
  unfold fadd
  rw [← Nat.cast_add, toDouble_natCast _ h]

theorem toDouble_09 : toDouble 0.9 = 8106479329266893 / 2 ^ 53 := by
  have := toDouble_eq_of 0.9 (-1) 8106479329266893 (by norm_num [abs_of_pos])
    (by norm_num [abs_of_pos]) (by norm_num [abs_lt])
  rw [this]
  norm_num

theorem toDouble_02 : toDouble 0.2 = 3602879701896397 / 2 ^ 54 := by
  have := toDouble_eq_of 0.2 (-3) 7205759403792794 (by norm_num [abs_of_pos])
    (by norm_num [abs_of_pos]) (by norm_num [abs_lt])
  rw [this]
  norm_num

theorem toDouble_of_eq_nat (q : ℚ) (n : ℕ) (h : q = n) (hn : n < 2 ^ 53) : toDouble q = n := by
  rw [h, toDouble_natCast n hn]

/-- One rounding of a positive number keeps it between bounds widened by the
relative error `2^-53`. -/
theorem toDouble_mem (q lo hi : ℚ) (h0 : 0 ≤ lo) (h1 : lo ≤ q) (h2 : q ≤ hi) :
    lo - hi / 2 ^ 53 ≤ toDouble q ∧ toDouble q ≤ hi + hi / 2 ^ 53 := by
  have herr := toDouble_sub_le q
  rw [abs_of_nonneg (le_trans h0 h1), abs_le] at herr
  have hq : q / 2 ^ 53 ≤ hi / 2 ^ 53 := div_le_div_of_nonneg_right h2 (by positivity)
  constructor <;> linarith [herr.1, herr.2]

/-- With the draw 1/2 the multiplier is exactly 1: `0.9 + 0.5 * 0.2` is
`1 + 2^-55` before the last rounding. -/
theorem damageRoll_half : damageRoll (1 / 2) = 1 := by
  unfold damageRoll fadd fmul
  rw [toDouble_09, toDouble_02]
  have h1 : toDouble (1 / 2 * (3602879701896397 / 2 ^ 54)) = 3602879701896397 / 2 ^ 55 := by
    have := toDouble_eq_of (1 / 2 * (3602879701896397 / 2 ^ 54)) (-4) 7205759403792794
      (by norm_num [abs_of_pos]) (by norm_num [abs_of_pos]) (by norm_num [abs_lt])
    rw [this]
    norm_num
  rw [h1]
  have := toDouble_eq_of (8106479329266893 / 2 ^ 53 + 3602879701896397 / 2 ^ 55) 0
    4503599627370496 (by norm_num [abs_of_pos]) (by norm_num [abs_of_pos])
    (by norm_num [abs_lt])
  rw [this]
  norm_num

/-- The Bravery damage of attack 60 on defense 30 with the draw 1/2. -/
theorem brvDamage_60_30 (atk dfn : ℚ) (ha : atk = 60) (hd : dfn = 30) :
    ⌊fmul (fmul (fmul (fdiv atk dfn) 2.0) 75) (damageRoll (1 / 2))⌋ = 300 := by
  subst ha hd
  rw [damageRoll_half]
  unfold fmul fdiv
  rw [toDouble_of_eq_nat (60 / 30) 2 (by norm_num) (by norm_num)]
  rw [toDouble_of_eq_nat (((2 : ℕ) : ℚ) * 2.0) 4 (by norm_num) (by norm_num)]
  rw [toDouble_of_eq_nat (((4 : ℕ) : ℚ) * 75) 300 (by norm_num) (by norm_num)]
  rw [toDouble_of_eq_nat (((300 : ℕ) : ℚ) * 1) 300 (by norm_num) (by norm_num)]
  norm_num

/-- The damage of the skill attack of attack 60 on defense 30 with the draw
1/2. -/
theorem skillDamage_60_30 (atk dfn : ℚ) (ha : atk = 60) (hd : dfn = 30) :
    ⌊fmul (fmul (fmul (fdiv atk dfn) 2.5) 75) (damageRoll (1 / 2))⌋ = 375 := by
  subst ha hd
  rw [damageRoll_half]
  unfold fmul fdiv
  rw [toDouble_of_eq_nat (60 / 30) 2 (by norm_num) (by norm_num)]
  rw [toDouble_of_eq_nat (((2 : ℕ) : ℚ) * 2.5) 5 (by norm_num) (by norm_num)]
  rw [toDouble_of_eq_nat (((5 : ℕ) : ℚ) * 75) 375 (by norm_num) (by norm_num)]
  rw [toDouble_of_eq_nat (((375 : ℕ) : ℚ) * 1) 375 (by norm_num) (by norm_num)]
  norm_num


/-- The HP damage of Scenario B: `1300 * 0.25 = 325`, the quotient `60 / 31` and the
product are rounded to doubles, and the floor of the result is 629. -/
theorem hpDamage_1300 (brv atk dfn : ℚ) (hb : brv = 1300) (ha : atk = 60) (hd : dfn = 30) :
    ⌊fmul (fmul (fmul brv 0.25) (fdiv atk (fadd dfn 1))) 1.0⌋ = 629 := by
  subst hb ha hd
  have h1 : toDouble (1300 * 0.25) = 325 := by
    have := toDouble_eq_of (1300 * 0.25) (8) 5717460464435200
      (by norm_num [abs_of_pos]) (by norm_num [abs_of_pos]) (by norm_num [abs_lt])
    rw [this]
    norm_num
  have h2 : toDouble (30 + 1) = 31 := by
    have := toDouble_eq_of (30 + 1) (4) 8725724278030336
      (by norm_num [abs_of_pos]) (by norm_num [abs_of_pos]) (by norm_num [abs_lt])
    rw [this]
    norm_num
  have h3 : toDouble (60 / 31) = (1089580555008991 / 562949953421312) := by
    have := toDouble_eq_of (60 / 31) (0) 8716644440071928
      (by norm_num [abs_of_pos]) (by norm_num [abs_of_pos]) (by norm_num [abs_lt])
    rw [this]
    norm_num
  have h4 : toDouble (325 * (1089580555008991 / 562949953421312)) = (691628281988129 / 1099511627776) := by
    have := toDouble_eq_of (325 * (1089580555008991 / 562949953421312)) (9) 5533026255905032
      (by norm_num [abs_of_pos]) (by norm_num [abs_of_pos]) (by norm_num [abs_lt])
    rw [this]
    norm_num
  have h5 : toDouble ((691628281988129 / 1099511627776) * 1.0) = (691628281988129 / 1099511627776) := by
    have := toDouble_eq_of ((691628281988129 / 1099511627776) * 1.0) (9) 5533026255905032
      (by norm_num [abs_of_pos]) (by norm_num [abs_of_pos]) (by norm_num [abs_lt])
    rw [this]
    norm_num
  unfold fmul fdiv fadd
  rw [h1, h2, h3, h4, h5, Int.floor_eq_iff]
  constructor <;> norm_num

/-- The HP damage of the player at the start of the battle, Bravery 1000 on defense
30: the floor of the rounded product is 483. -/
theorem hpDamage_1000 (brv atk dfn : ℚ) (hb : brv = 1000) (ha : atk = 60) (hd : dfn = 30) :
    ⌊fmul (fmul (fmul brv 0.25) (fdiv atk (fadd dfn 1))) 1.0⌋ = 483 := by
  subst hb ha hd
  have h1 : toDouble (1000 * 0.25) = 250 := by
    have := toDouble_eq_of (1000 * 0.25) (7) 8796093022208000
      (by norm_num [abs_of_pos]) (by norm_num [abs_of_pos]) (by norm_num [abs_lt])
    rw [this]
    norm_num
  have h2 : toDouble (30 + 1) = 31 := by
    have := toDouble_eq_of (30 + 1) (4) 8725724278030336
      (by norm_num [abs_of_pos]) (by norm_num [abs_of_pos]) (by norm_num [abs_lt])
    rw [this]
    norm_num
  have h3 : toDouble (60 / 31) = (1089580555008991 / 562949953421312) := by
    have := toDouble_eq_of (60 / 31) (0) 8716644440071928
      (by norm_num [abs_of_pos]) (by norm_num [abs_of_pos]) (by norm_num [abs_lt])
    rw [this]
    norm_num
  have h4 : toDouble (250 * (1089580555008991 / 562949953421312)) = (4256174043003871 / 8796093022208) := by
    have := toDouble_eq_of (250 * (1089580555008991 / 562949953421312)) (8) 8512348086007742
      (by norm_num [abs_of_pos]) (by norm_num [abs_of_pos]) (by norm_num [abs_lt])
    rw [this]
    norm_num
  have h5 : toDouble ((4256174043003871 / 8796093022208) * 1.0) = (4256174043003871 / 8796093022208) := by
    have := toDouble_eq_of ((4256174043003871 / 8796093022208) * 1.0) (8) 8512348086007742
      (by norm_num [abs_of_pos]) (by norm_num [abs_of_pos]) (by norm_num [abs_lt])
    rw [this]
    norm_num
  unfold fmul fdiv fadd
  rw [h1, h2, h3, h4, h5, Int.floor_eq_iff]
  constructor <;> norm_num

/-- An HP damage that the rounding decides: with Bravery 183, attack 40 and defense
60 the exact product is 30, the rounded quotient `40 / 61` brings the double
product just below 30, and the damage is 29. -/
theorem hpDamage_183 (brv atk dfn : ℚ) (hb : brv = 183) (ha : atk = 40) (hd : dfn = 60) :
    ⌊fmul (fmul (fmul brv 0.25) (fdiv atk (fadd dfn 1))) 1.0⌋ = 29 := by
  subst hb ha hd
  have h1 : toDouble (183 * 0.25) = (183 / 4) := by
    have := toDouble_eq_of (183 * 0.25) (5) 6438740092256256
      (by norm_num [abs_of_pos]) (by norm_num [abs_of_pos]) (by norm_num [abs_lt])
    rw [this]
    norm_num
  have h2 : toDouble (60 + 1) = 61 := by
    have := toDouble_eq_of (60 + 1) (5) 8584986789675008
      (by norm_num [abs_of_pos]) (by norm_num [abs_of_pos]) (by norm_num [abs_lt])
    rw [this]
    norm_num
  have h3 : toDouble (40 / 61) = (5906360167043273 / 9007199254740992) := by
    have := toDouble_eq_of (40 / 61) (-1) 5906360167043273
      (by norm_num [abs_of_pos]) (by norm_num [abs_of_pos]) (by norm_num [abs_lt])
    rw [this]
    norm_num
  have h4 : toDouble ((183 / 4) * (5906360167043273 / 9007199254740992)) = (8444249301319679 / 281474976710656) := by
    have := toDouble_eq_of ((183 / 4) * (5906360167043273 / 9007199254740992)) (4) 8444249301319679
      (by norm_num [abs_of_pos]) (by norm_num [abs_of_pos]) (by norm_num [abs_lt])
    rw [this]
    norm_num
  have h5 : toDouble ((8444249301319679 / 281474976710656) * 1.0) = (8444249301319679 / 281474976710656) := by
    have := toDouble_eq_of ((8444249301319679 / 281474976710656) * 1.0) (4) 8444249301319679
      (by norm_num [abs_of_pos]) (by norm_num [abs_of_pos]) (by norm_num [abs_lt])
    rw [this]
    norm_num
  unfold fmul fdiv fadd
  rw [h1, h2, h3, h4, h5, Int.floor_eq_iff]
  constructor <;> norm_num

/-- The same with Bravery 610: the exact product is 100 and the damage is 99. -/
theorem hpDamage_610 (brv atk dfn : ℚ) (hb : brv = 610) (ha : atk = 40) (hd : dfn = 60) :
    ⌊fmul (fmul (fmul brv 0.25) (fdiv atk (fadd dfn 1))) 1.0⌋ = 99 := by
  subst hb ha hd
  have h1 : toDouble (610 * 0.25) = (305 / 2) := by
    have := toDouble_eq_of (610 * 0.25) (7) 5365616743546880
      (by norm_num [abs_of_pos]) (by norm_num [abs_of_pos]) (by norm_num [abs_lt])
    rw [this]
    norm_num
  have h2 : toDouble (60 + 1) = 61 := by
    have := toDouble_eq_of (60 + 1) (5) 8584986789675008
      (by norm_num [abs_of_pos]) (by norm_num [abs_of_pos]) (by norm_num [abs_lt])
    rw [this]
    norm_num
  have h3 : toDouble (40 / 61) = (5906360167043273 / 9007199254740992) := by
    have := toDouble_eq_of (40 / 61) (-1) 5906360167043273
      (by norm_num [abs_of_pos]) (by norm_num [abs_of_pos]) (by norm_num [abs_lt])
    rw [this]
    norm_num
  have h4 : toDouble ((305 / 2) * (5906360167043273 / 9007199254740992)) = (7036874417766399 / 70368744177664) := by
    have := toDouble_eq_of ((305 / 2) * (5906360167043273 / 9007199254740992)) (6) 7036874417766399
      (by norm_num [abs_of_pos]) (by norm_num [abs_of_pos]) (by norm_num [abs_lt])
    rw [this]
    norm_num
  have h5 : toDouble ((7036874417766399 / 70368744177664) * 1.0) = (7036874417766399 / 70368744177664) := by
    have := toDouble_eq_of ((7036874417766399 / 70368744177664) * 1.0) (6) 7036874417766399
      (by norm_num [abs_of_pos]) (by norm_num [abs_of_pos]) (by norm_num [abs_lt])
    rw [this]
    norm_num
  unfold fmul fdiv fadd
  rw [h1, h2, h3, h4, h5, Int.floor_eq_iff]
  constructor <;> norm_num

/-- A Bravery damage that the rounding decides: with attack 60, defense 30 and the
draw `75059993789507 / 2^52` the double product is 271 and its floor 271, while
the floor of the exact product is 270. -/
theorem brvDamage_rounded (atk dfn : ℚ) (ha : atk = 60) (hd : dfn = 30) :
    ⌊fmul (fmul (fmul (fdiv atk dfn) 2.0) 75) (damageRoll (75059993789507 / 4503599627370496))⌋ = 271 ∧
      ⌊atk / dfn * 2.0 * 75 * (0.9 + 0.2 * (75059993789507 / 4503599627370496))⌋ = 270 := by
  subst ha hd
  have h1 : toDouble (60 / 30) = 2 := by
    have := toDouble_eq_of (60 / 30) (1) 4503599627370496
      (by norm_num [abs_of_pos]) (by norm_num [abs_of_pos]) (by norm_num [abs_lt])
    rw [this]
    norm_num
  have h2 : toDouble (2 * 2.0) = 4 := by
    have := toDouble_eq_of (2 * 2.0) (2) 4503599627370496
      (by norm_num [abs_of_pos]) (by norm_num [abs_of_pos]) (by norm_num [abs_lt])
    rw [this]
    norm_num
  have h3 : toDouble (4 * 75) = 300 := by
    have := toDouble_eq_of (4 * 75) (8) 5277655813324800
      (by norm_num [abs_of_pos]) (by norm_num [abs_of_pos]) (by norm_num [abs_lt])
    rw [this]
    norm_num
  have h09 : toDouble (0.9) = (8106479329266893 / 9007199254740992) := by
    have := toDouble_eq_of (0.9) (-1) 8106479329266893
      (by norm_num [abs_of_pos]) (by norm_num [abs_of_pos]) (by norm_num [abs_lt])
    rw [this]
    norm_num
  have h02 : toDouble (0.2) = (3602879701896397 / 18014398509481984) := by
    have := toDouble_eq_of (0.2) (-3) 7205759403792794
      (by norm_num [abs_of_pos]) (by norm_num [abs_of_pos]) (by norm_num [abs_lt])
    rw [this]
    norm_num
  have h4 : toDouble ((75059993789507 / 4503599627370496) * (3602879701896397 / 18014398509481984)) = (7686143364045517 / 2305843009213693952) := by
    have := toDouble_eq_of ((75059993789507 / 4503599627370496) * (3602879701896397 / 18014398509481984)) (-9) 7686143364045517
      (by norm_num [abs_of_pos]) (by norm_num [abs_of_pos]) (by norm_num [abs_lt])
    rw [this]
    norm_num
  have h5 : toDouble ((8106479329266893 / 9007199254740992) + (7686143364045517 / 2305843009213693952)) = (1017062915847837 / 1125899906842624) := by
    have := toDouble_eq_of ((8106479329266893 / 9007199254740992) + (7686143364045517 / 2305843009213693952)) (-1) 8136503326782696
      (by norm_num [abs_of_pos]) (by norm_num [abs_of_pos]) (by norm_num [abs_lt])
    rw [this]
    norm_num
  have h6 : toDouble (300 * (1017062915847837 / 1125899906842624)) = 271 := by
    have := toDouble_eq_of (300 * (1017062915847837 / 1125899906842624)) (8) 4767482418036736
      (by norm_num [abs_of_pos]) (by norm_num [abs_of_pos]) (by norm_num [abs_lt])
    rw [this]
    norm_num
  constructor
  · unfold damageRoll fmul fdiv fadd
    rw [h1, h2, h3, h09, h02, h4, h5, h6, Int.floor_eq_iff]
    constructor <;> norm_num
  · rw [Int.floor_eq_iff]
    constructor <;> norm_num

/-- A skill damage that the rounding decides: with attack 60, defense 30 and the
draw `0.006666666666666662` the floor of the double product is 338, while the
floor of the exact product is 337. -/
theorem skillDamage_rounded (atk dfn : ℚ) (ha : atk = 60) (hd : dfn = 30) :
    ⌊fmul (fmul (fmul (fdiv atk dfn) 2.5) 75) (damageRoll (7686143364045641 / 1152921504606846976))⌋ = 338 ∧
      ⌊atk / dfn * 2.5 * 75 * (0.9 + 0.2 * (7686143364045641 / 1152921504606846976))⌋ = 337 := by
  subst ha hd
  have h1 : toDouble (60 / 30) = 2 := by
    have := toDouble_eq_of (60 / 30) (1) 4503599627370496
      (by norm_num [abs_of_pos]) (by norm_num [abs_of_pos]) (by norm_num [abs_lt])
    rw [this]
    norm_num
  have h2 : toDouble (2 * 2.5) = 5 := by
    have := toDouble_eq_of (2 * 2.5) (2) 5629499534213120
      (by norm_num [abs_of_pos]) (by norm_num [abs_of_pos]) (by norm_num [abs_lt])
    rw [this]
    norm_num
  have h3 : toDouble (5 * 75) = 375 := by
    have := toDouble_eq_of (5 * 75) (8) 6597069766656000
      (by norm_num [abs_of_pos]) (by norm_num [abs_of_pos]) (by norm_num [abs_lt])
    rw [this]
    norm_num
  have h09 : toDouble (0.9) = (8106479329266893 / 9007199254740992) := by
    have := toDouble_eq_of (0.9) (-1) 8106479329266893
      (by norm_num [abs_of_pos]) (by norm_num [abs_of_pos]) (by norm_num [abs_lt])
    rw [this]
    norm_num
  have h02 : toDouble (0.2) = (3602879701896397 / 18014398509481984) := by
    have := toDouble_eq_of (0.2) (-3) 7205759403792794
      (by norm_num [abs_of_pos]) (by norm_num [abs_of_pos]) (by norm_num [abs_lt])
    rw [this]
    norm_num
  have h4 : toDouble ((7686143364045641 / 1152921504606846976) * (3602879701896397 / 18014398509481984)) = (6148914691236513 / 4611686018427387904) := by
    have := toDouble_eq_of ((7686143364045641 / 1152921504606846976) * (3602879701896397 / 18014398509481984)) (-10) 6148914691236513
      (by norm_num [abs_of_pos]) (by norm_num [abs_of_pos]) (by norm_num [abs_lt])
    rw [this]
    norm_num
  have h5 : toDouble ((8106479329266893 / 9007199254740992) + (6148914691236513 / 4611686018427387904)) = (4059244464136607 / 4503599627370496) := by
    have := toDouble_eq_of ((8106479329266893 / 9007199254740992) + (6148914691236513 / 4611686018427387904)) (-1) 8118488928273214
      (by norm_num [abs_of_pos]) (by norm_num [abs_of_pos]) (by norm_num [abs_lt])
    rw [this]
    norm_num
  have h6 : toDouble (375 * (4059244464136607 / 4503599627370496)) = 338 := by
    have := toDouble_eq_of (375 * (4059244464136607 / 4503599627370496)) (8) 5946158883012608
      (by norm_num [abs_of_pos]) (by norm_num [abs_of_pos]) (by norm_num [abs_lt])
    rw [this]
    norm_num
  constructor
  · unfold damageRoll fmul fdiv fadd
    rw [h1, h2, h3, h09, h02, h4, h5, h6, Int.floor_eq_iff]
    constructor <;> norm_num
  · rw [Int.floor_eq_iff]
    constructor <;> norm_num

/-! ## Bravery attack -/

theorem brvTransfer_target_brv (a t : Character) (d : ℤ) :
    (brvTransfer a t d).target.brv = max 0 (t.brv - d) := by
  unfold brvTransfer
  by_cases h : t.brv - (d : ℚ) ≤ 0
  · simp [h]
  · simp [h, le_of_lt (not_le.mp h)]

theorem brvTransfer_self_brv (a t : Character) (d : ℤ) :
    (brvTransfer a t d).self.brv = min a.maxBrv (a.brv + d) := by
  unfold brvTransfer
  by_cases h : a.brv + (d : ℚ) > a.maxBrv <;> by_cases h2 : t.brv - (d : ℚ) ≤ 0
  · simp [h, h2, le_of_lt h]
  · simp [h, h2, le_of_lt h]
  · simp [h, h2, not_lt.mp h]
  · simp [h, h2, not_lt.mp h]

theorem brvTransfer_damage (a t : Character) (d : ℤ) :
    (brvTransfer a t d).result.brvDamage = d := by
  unfold brvTransfer
  by_cases h : t.brv - (d : ℚ) ≤ 0 <;> simp [h]

theorem brvAttack_eq (a t : Character) (rnd : ℚ) (hd : t.defense ≠ 0) :
    a.brvAttack t rnd =
      some (brvTransfer a t
        ⌊fmul (fmul (fmul (fdiv a.attack t.defense) 2.0) 75) (damageRoll rnd)⌋) := by
  simp only [Character.brvAttack, if_neg hd]

/-- Claim C1. For every attacker, every target with `defense > 0` and every draw
`rnd`, `brvAttack` returns `brvDamage = floor((attack / defense) * 2.0 * 75 * U)`
with `U = 0.9 + 0.2 * rnd`, the quotient, the products and the sum being those of
double arithmetic, each rounded to the nearest double, as the code computes
them; it leaves the target with `max 0 (brv - brvDamage)` Bravery and the
attacker with `min maxBrv (brv + brvDamage)`. The damage is the same against any
target of the same defense, whether the BREAK branch (and so `breakBonus = 1.5`)
is taken or not. -/
theorem brvAttack_spec (a t : Character) (rnd : ℚ) (hd : 0 < t.defense) :
    ∃ out, a.brvAttack t rnd = some out ∧
      out.result.brvDamage =
        ⌊fmul (fmul (fmul (fdiv a.attack t.defense) 2.0) 75)
          (fadd (toDouble 0.9) (fmul rnd (toDouble 0.2)))⌋ ∧
      out.target.brv = max 0 (t.brv - out.result.brvDamage) ∧
      out.self.brv = min a.maxBrv (a.brv + out.result.brvDamage) ∧
      ∀ t2 out2, t2.defense = t.defense → a.brvAttack t2 rnd = some out2 →
        out2.result.brvDamage = out.result.brvDamage := by
  have hd0 : t.defense ≠ 0 := ne_of_gt hd
  refine ⟨_, brvAttack_eq a t rnd hd0, ?_, ?_, ?_, ?_⟩
  · rw [brvTransfer_damage, damageRoll]
  · rw [brvTransfer_target_brv, brvTransfer_damage]
  · rw [brvTransfer_self_brv, brvTransfer_damage]
  · intro t2 out2 h2 hout
    have hd2 : t2.defense ≠ 0 := h2 ▸ hd0
    rw [brvAttack_eq a t2 rnd hd2, Option.some.injEq] at hout
    rw [← hout, brvTransfer_damage, brvTransfer_damage, h2]

/-- Scenario A: with `rnd = 1/2`, that is `U = 1`, the player takes 300 Bravery:
the enemy goes from 800 to 500 and the player from 1000 to 1300. With the draw
`75059993789507 / 2^52` the double product is 271 and so is the damage, where
exact arithmetic would give 270. -/
theorem brvAttack_spec_witness :
    (∃ out, scenarioPlayer.brvAttack scenarioEnemy (1 / 2) = some out ∧
      out.result.brvDamage = 300 ∧ out.target.brv = 500 ∧ out.self.brv = 1300) ∧
    (∃ out, scenarioPlayer.brvAttack scenarioEnemy (75059993789507 / 4503599627370496) =
        some out ∧
      out.result.brvDamage = 271 ∧ out.target.brv = 529 ∧ out.self.brv = 1271) := by
  constructor
  · obtain ⟨out, h, hdmg, ht, hs, _⟩ :=
      brvAttack_spec scenarioPlayer scenarioEnemy (1 / 2)
        (by norm_num [scenarioEnemy, Character.new])
    have h300 : out.result.brvDamage = 300 := by
      rw [hdmg]
      exact brvDamage_60_30 _ _ rfl rfl
    refine ⟨out, h, h300, ?_, ?_⟩
    · rw [ht, h300]; norm_num [scenarioEnemy, Character.new]
    · rw [hs, h300]; norm_num [scenarioPlayer, Character.new]
  · obtain ⟨out, h, hdmg, ht, hs, _⟩ :=
      brvAttack_spec scenarioPlayer scenarioEnemy (75059993789507 / 4503599627370496)
        (by norm_num [scenarioEnemy, Character.new])
    have h271 : out.result.brvDamage = 271 := by
      rw [hdmg]
      exact (brvDamage_rounded _ _ rfl rfl).1
    refine ⟨out, h, h271, ?_, ?_⟩
    · rw [ht, h271]; norm_num [scenarioEnemy, Character.new]
    · rw [hs, h271]; norm_num [scenarioPlayer, Character.new]
/-! ## HP attack -/

theorem fadd_ne_zero (a b : ℚ) (h : a + b ≠ 0) : fadd a b ≠ 0 :=
  fun h0 => h ((toDouble_eq_zero_iff _).mp h0)

theorem hpAttack_eq (a t : Character) (hd : t.defense + 1 ≠ 0) :
    a.hpAttack t =
      some
        { self := { a with brv := 100 }
          target :=
            { t with
              hp := max 0 (t.hp -
                (⌊fmul (fmul (fmul a.brv 0.25) (fdiv a.attack (fadd t.defense 1)))
                  (if t.isBroken then 1.5 else 1.0)⌋ : ℤ))
              isBroken := false }
          hpDamage := ⌊fmul (fmul (fmul a.brv 0.25) (fdiv a.attack (fadd t.defense 1)))
            (if t.isBroken then 1.5 else 1.0)⌋ } := by
  unfold Character.hpAttack
  rw [if_neg (fadd_ne_zero _ _ hd)]
  by_cases h : t.hp -
      ((⌊fmul (fmul (fmul a.brv 0.25) (fdiv a.attack (fadd t.defense 1)))
        (if t.isBroken then 1.5 else 1.0)⌋ : ℤ) : ℚ) < 0
  · simp only [h, if_true, max_eq_left (le_of_lt h)]
  · simp only [h, if_false, max_eq_right (not_lt.mp h)]

/-- Claim C2. For every attacker and every target with `defense ≥ 0`, `hpAttack`
returns `hpDamage = floor(brv * 0.25 * (attack / (defense + 1)) * m)`, where `m`
is 1.5 when the target was broken before the call and 1.0 otherwise, the sum,
the quotient and the products being those of double arithmetic, each rounded to
the nearest double, as the code computes them; it leaves the target with
`max 0 (hp - hpDamage)` hit points. -/
theorem hpAttack_spec (a t : Character) (hd : 0 ≤ t.defense) :
    ∃ out, a.hpAttack t = some out ∧
      out.hpDamage = ⌊fmul (fmul (fmul a.brv 0.25) (fdiv a.attack (fadd t.defense 1)))
        (if t.isBroken = true then 1.5 else 1.0)⌋ ∧
      out.target.hp = max 0 (t.hp - out.hpDamage) := by
  have hd1 : t.defense + 1 ≠ 0 := by linarith
  exact ⟨_, hpAttack_eq a t hd1, rfl, rfl⟩

/-- The HP damage of Bravery 1000 and attack 64 on defense 31, target broken:
every intermediate value is a double, `1000 * 0.25 * (64 / 32) * 1.5 = 750`. -/
theorem hpDamage_750 (brv atk dfn : ℚ) (hb : brv = 1000) (ha : atk = 64) (hd : dfn = 31) :
    ⌊fmul (fmul (fmul brv 0.25) (fdiv atk (fadd dfn 1))) 1.5⌋ = 750 := by
  subst hb ha hd
  unfold fmul fdiv fadd
  rw [toDouble_of_eq_nat (1000 * 0.25) 250 (by norm_num) (by norm_num)]
  rw [toDouble_of_eq_nat (31 + 1) 32 (by norm_num) (by norm_num)]
  rw [toDouble_of_eq_nat (64 / ((32 : ℕ) : ℚ)) 2 (by norm_num) (by norm_num)]
  rw [toDouble_of_eq_nat (((250 : ℕ) : ℚ) * ((2 : ℕ) : ℚ)) 500 (by norm_num) (by norm_num)]
  rw [toDouble_of_eq_nat (((500 : ℕ) : ℚ) * 1.5) 750 (by norm_num) (by norm_num)]
  norm_num

/-- An HP attack on a broken target: `floor(1000 * 0.25 * (64 / 32) * 1.5) = 750`,
the target goes from 1000 to 250 hit points. An HP attack that the rounding
decides: with Bravery 183 and attack 40 on defense 60 the exact product is 30,
the double product is just below it, the damage is 29 and the target goes from
150 to 121 hit points. -/
theorem hpAttack_spec_witness :
    (∃ out, ({ scenarioPlayer with attack := 64 } : Character).hpAttack
        { scenarioEnemy with hp := 1000, defense := 31, isBroken := true } = some out ∧
      out.hpDamage = 750 ∧ out.target.hp = 250) ∧
    (∃ out, ({ scenarioPlayer with brv := 183, attack := 40 } : Character).hpAttack
        { scenarioEnemy with defense := 60 } = some out ∧
      out.hpDamage = 29 ∧ out.target.hp = 121) := by
  constructor
  · obtain ⟨out, h, hdmg, ht⟩ :=
      hpAttack_spec { scenarioPlayer with attack := 64 }
        { scenarioEnemy with hp := 1000, defense := 31, isBroken := true }
        (by norm_num [scenarioEnemy, Character.new])
    have h750 : out.hpDamage = 750 := by
      rw [hdmg]
      exact hpDamage_750 _ _ _ rfl rfl rfl
    refine ⟨out, h, h750, ?_⟩
    rw [ht, h750]; norm_num [scenarioEnemy, Character.new]
  · obtain ⟨out, h, hdmg, ht⟩ :=
      hpAttack_spec { scenarioPlayer with brv := 183, attack := 40 }
        { scenarioEnemy with defense := 60 }
        (by norm_num [scenarioEnemy, Character.new])
    have h29 : out.hpDamage = 29 := by
      rw [hdmg]
      exact hpDamage_183 _ _ _ rfl rfl rfl
    refine ⟨out, h, h29, ?_⟩
    rw [ht, h29]; norm_num [scenarioEnemy, Character.new]

/-- Claim C3, as stated, fails: in Scenario B (attacker `brv = 1300`,
`attack = 60`; target `defense = 30`, not broken) `hpAttack` returns 629, the
floor of the double nearest to `19500 / 31`, and not 628. -/
theorem scenarioB_damage_is_not_628 :
    ∃ out, ({ scenarioPlayer with brv := 1300 } : Character).hpAttack scenarioEnemy = some out ∧
      out.hpDamage = 629 ∧ out.hpDamage ≠ 628 := by
  have hd : scenarioEnemy.defense + 1 ≠ 0 := by norm_num [scenarioEnemy, Character.new]
  have h629 : ⌊fmul (fmul (fmul ({ scenarioPlayer with brv := 1300 } : Character).brv 0.25)
      (fdiv ({ scenarioPlayer with brv := 1300 } : Character).attack
        (fadd scenarioEnemy.defense 1))) (if scenarioEnemy.isBroken = true then 1.5 else 1.0)⌋ =
      629 := hpDamage_1300 _ _ _ rfl rfl rfl
  refine ⟨_, hpAttack_eq _ _ hd, h629, ?_⟩
  show ⌊fmul (fmul (fmul ({ scenarioPlayer with brv := 1300 } : Character).brv 0.25)
      (fdiv ({ scenarioPlayer with brv := 1300 } : Character).attack
        (fadd scenarioEnemy.defense 1))) (if scenarioEnemy.isBroken = true then 1.5 else 1.0)⌋ ≠
      628
  rw [h629]
  decide

theorem stopGame_eq (g : Game) : stopGame g = { g with gameInterval := false } := by
  rcases g with ⟨p, e, gi, am, cl, tm⟩
  cases gi <;> simp [stopGame]

/-- Claim C3, amended. When the player has `brv = 1300`, `attack = 60` and is
alive, and the enemy has `defense = 30`, `hp = 150` and is not broken,
`hpAttack` returns 629 and the enemy's hit points go from 150 to 0;
`playerHpAttack` then logs the attack and the victory, clears `gameInterval`,
and `checkGameOver` returns true in the resulting state. -/
theorem scenarioB_victory (g : Game) (hbrv : g.player.brv = 1300) (hatk : g.player.attack = 60)
    (hdef : g.enemy.defense = 30) (hhp : g.enemy.hp = 150) (hbrk : g.enemy.isBroken = false)
    (halive : 0 < g.player.hp) :
    (∃ out, g.player.hpAttack g.enemy = some out ∧ out.hpDamage = 629 ∧ out.target.hp = 0) ∧
    ∃ g', playerHpAttack g = some g' ∧ g'.enemy.hp = 0 ∧ g'.player.hp = g.player.hp ∧
      g'.combatLog = g.combatLog ++
        [⟨"💥 " ++ g.player.name ++ "의 HP 공격! " ++ g.enemy.name ++ "에게 " ++
            toString (629 : ℤ) ++ " 데미지!", "damage"⟩,
          ⟨victoryMessage, "heal"⟩] ∧
      g'.gameInterval = false ∧ (checkGameOver g').1 = true := by
  have hd : g.enemy.defense + 1 ≠ 0 := by rw [hdef]; norm_num
  have hfl : (⌊fmul (fmul (fmul g.player.brv 0.25)
      (fdiv g.player.attack (fadd g.enemy.defense 1)))
      (if g.enemy.isBroken = true then 1.5 else 1.0)⌋ : ℤ) = 629 := by
    rw [hbrk, if_neg (by decide)]
    exact hpDamage_1300 _ _ _ hbrv hatk hdef
  have hout := hpAttack_eq g.player g.enemy hd
  rw [hfl, hhp] at hout
  have hmax : max (0 : ℚ) (150 - ((629 : ℤ) : ℚ)) = 0 := by norm_num
  rw [hmax] at hout
  refine ⟨⟨_, hout, rfl, rfl⟩, ?_⟩
  have hnp : ¬ g.player.hp ≤ 0 := not_le.mpr halive
  simp [playerHpAttack, hout, checkGameOver, log, stopGame_eq, updateUI, Character.consumeATB, hnp]

/-- Scenario B on the battle left by Scenario A. -/
theorem scenarioB_victory_witness :
    ∃ g', playerHpAttack scenarioGame = some g' ∧ g'.enemy.hp = 0 ∧
      g'.gameInterval = false ∧ (checkGameOver g').1 = true := by
  obtain ⟨_, g', h, hhp, _, _, hgi, hover⟩ :=
    scenarioB_victory scenarioGame rfl rfl rfl rfl rfl
      (by norm_num [scenarioGame, scenarioPlayer, Character.new])
  exact ⟨g', h, hhp, hgi, hover⟩

/-- Claim C4. After `hpAttack`, for every attacker and every target (whose
`defense` is not -1, where the quotient is not a finite number), broken or not:
the target's `hp ≥ 0`, the attacker's `brv = 100` and the target's `isBroken` is
false. -/
theorem hpAttack_post (a t : Character) (hd : t.defense ≠ -1) :
    ∃ out, a.hpAttack t = some out ∧
      0 ≤ out.target.hp ∧ out.self.brv = 100 ∧ out.target.isBroken = false := by
  have hd1 : t.defense + 1 ≠ 0 := fun h => hd (by linarith)
  exact ⟨_, hpAttack_eq a t hd1, le_max_left _ _, rfl, rfl⟩

/-- The postcondition of `hpAttack` on a broken enemy. -/
theorem hpAttack_post_witness :
    ∃ out, scenarioPlayer.hpAttack { scenarioEnemy with isBroken := true } = some out ∧
      0 ≤ out.target.hp ∧ out.self.brv = 100 ∧ out.target.isBroken = false :=
  hpAttack_post scenarioPlayer { scenarioEnemy with isBroken := true }
    (by norm_num [scenarioEnemy, Character.new])

theorem brvTransfer_self_maxBrv (a t : Character) (d : ℤ) :
    (brvTransfer a t d).self.maxBrv = a.maxBrv := by
  unfold brvTransfer
  by_cases h : a.brv + (d : ℚ) > a.maxBrv <;> by_cases h2 : t.brv - (d : ℚ) ≤ 0 <;>
    simp [h, h2]

/-- Claim C5. After `brvAttack`, for every attacker, every target (whose `defense`
is not 0, where the quotient is not a finite number) and every draw: the
attacker's `brv ≤ maxBrv`, `maxBrv` being unchanged, and the target's
`brv ≥ 0`. -/
theorem brvAttack_bounds (a t : Character) (rnd : ℚ) (hd : t.defense ≠ 0) :
    ∃ out, a.brvAttack t rnd = some out ∧
      out.self.brv ≤ out.self.maxBrv ∧ out.self.maxBrv = a.maxBrv ∧ 0 ≤ out.target.brv := by
  refine ⟨_, brvAttack_eq a t rnd hd, ?_, brvTransfer_self_maxBrv _ _ _, ?_⟩
  · rw [brvTransfer_self_brv, brvTransfer_self_maxBrv]
    exact min_le_left _ _
  · rw [brvTransfer_target_brv]
    exact le_max_left _ _

/-- A Bravery attack in which both clamps apply: the player holds 1400 of 1500
and the enemy 100. -/
theorem brvAttack_bounds_witness :
    ∃ out, ({ scenarioPlayer with brv := 1400 } : Character).brvAttack
        { scenarioEnemy with brv := 100 } (1 / 2) = some out ∧
      out.self.brv ≤ out.self.maxBrv ∧ out.self.maxBrv = 1500 ∧ 0 ≤ out.target.brv :=
  brvAttack_bounds { scenarioPlayer with brv := 1400 } { scenarioEnemy with brv := 100 } (1 / 2)
    (by norm_num [scenarioEnemy, Character.new])

/-! ## Effect of the controller functions on the combatants -/

theorem checkGameOver_player (g : Game) : (checkGameOver g).2.player = g.player := by
  unfold checkGameOver
  split_ifs <;> simp [log, stopGame_eq]

theorem checkGameOver_enemy (g : Game) : (checkGameOver g).2.enemy = g.enemy := by
  unfold checkGameOver
  split_ifs <;> simp [log, stopGame_eq]

theorem checkGameOver_autoMode (g : Game) : (checkGameOver g).2.autoMode = g.autoMode := by
  unfold checkGameOver
  split_ifs <;> simp [log, stopGame_eq]

theorem checkGameOver_fst (g : Game) :
    (checkGameOver g).1 = true ↔ g.player.hp ≤ 0 ∨ g.enemy.hp ≤ 0 := by
  unfold checkGameOver
  split_ifs with h1 h2 <;> simp [*]

theorem playerBrvAttack_of_brvAttack {g : Game} {rnd : ℚ} {out : BrvOutcome}
    (h : g.player.brvAttack g.enemy rnd = some out) :
    ∃ g', playerBrvAttack rnd g = some g' ∧ g'.player = out.self.consumeATB ∧
      g'.enemy = out.target ∧ g'.autoMode = g.autoMode := by
  refine ⟨_, by unfold playerBrvAttack; rw [h], ?_, ?_, ?_⟩
  · rw [checkGameOver_player]; rfl
  · rw [checkGameOver_enemy]; rfl
  · rw [checkGameOver_autoMode]; rfl

theorem playerBrvAttack_inv {g g' : Game} {rnd : ℚ} (h : playerBrvAttack rnd g = some g') :
    ∃ out, g.player.brvAttack g.enemy rnd = some out ∧ g'.player = out.self.consumeATB ∧
      g'.enemy = out.target ∧ g'.autoMode = g.autoMode := by
  cases hb : g.player.brvAttack g.enemy rnd with
  | none => simp [playerBrvAttack, hb] at h
  | some out =>
    obtain ⟨g2, h2, hp, he, ha⟩ := playerBrvAttack_of_brvAttack hb
    rw [h2, Option.some.injEq] at h
    subst h
    exact ⟨out, rfl, hp, he, ha⟩

theorem playerHpAttack_of_hpAttack {g : Game} {out : HpOutcome}
    (h : g.player.hpAttack g.enemy = some out) :
    ∃ g', playerHpAttack g = some g' ∧ g'.player = out.self.consumeATB ∧
      g'.enemy = out.target ∧ g'.autoMode = g.autoMode := by
  refine ⟨_, by unfold playerHpAttack; rw [h], ?_, ?_, ?_⟩
  · rw [checkGameOver_player]; rfl
  · rw [checkGameOver_enemy]; rfl
  · rw [checkGameOver_autoMode]; rfl

theorem playerHpAttack_inv {g g' : Game} (h : playerHpAttack g = some g') :
    ∃ out, g.player.hpAttack g.enemy = some out ∧ g'.player = out.self.consumeATB ∧
      g'.enemy = out.target ∧ g'.autoMode = g.autoMode := by
  cases hb : g.player.hpAttack g.enemy with
  | none => simp [playerHpAttack, hb] at h
  | some out =>
    obtain ⟨g2, h2, hp, he, ha⟩ := playerHpAttack_of_hpAttack hb
    rw [h2, Option.some.injEq] at h
    subst h
    exact ⟨out, rfl, hp, he, ha⟩

theorem enemyAI_of_brvAttack {g : Game} {action rnd : ℚ} {out : BrvOutcome}
    (hc : action < 0.4 ∨ g.enemy.brv < 300)
    (h : g.enemy.brvAttack g.player rnd = some out) :
    ∃ g', enemyAI action rnd g = some g' ∧ g'.enemy = out.self ∧ g'.player = out.target ∧
      g'.autoMode = g.autoMode := by
  refine ⟨_, by unfold enemyAI; rw [if_pos hc, h], ?_, ?_, ?_⟩
  · rw [checkGameOver_enemy]; rfl
  · rw [checkGameOver_player]; rfl
  · rw [checkGameOver_autoMode]; rfl

theorem enemyAI_of_hpAttack {g : Game} {action rnd : ℚ} {out : HpOutcome}
    (hc : ¬ (action < 0.4 ∨ g.enemy.brv < 300))
    (h : g.enemy.hpAttack g.player = some out) :
    ∃ g', enemyAI action rnd g = some g' ∧ g'.enemy = out.self ∧ g'.player = out.target ∧
      g'.autoMode = g.autoMode := by
  refine ⟨_, by unfold enemyAI; rw [if_neg hc, h], ?_, ?_, ?_⟩
  · rw [checkGameOver_enemy]; rfl
  · rw [checkGameOver_player]; rfl
  · rw [checkGameOver_autoMode]; rfl

theorem enemyAI_inv {g g' : Game} {action rnd : ℚ} (h : enemyAI action rnd g = some g') :
    ((action < 0.4 ∨ g.enemy.brv < 300) ∧
      ∃ out, g.enemy.brvAttack g.player rnd = some out ∧ g'.enemy = out.self ∧
        g'.player = out.target ∧ g'.autoMode = g.autoMode) ∨
    (¬ (action < 0.4 ∨ g.enemy.brv < 300) ∧
      ∃ out, g.enemy.hpAttack g.player = some out ∧ g'.enemy = out.self ∧
        g'.player = out.target ∧ g'.autoMode = g.autoMode) := by
  by_cases hc : action < 0.4 ∨ g.enemy.brv < 300
  · left
    refine ⟨hc, ?_⟩
    cases hb : g.enemy.brvAttack g.player rnd with
    | none => simp [enemyAI, hc, hb] at h
    | some out =>
      obtain ⟨g2, h2, he, hp, ha⟩ := enemyAI_of_brvAttack hc hb
      rw [h2, Option.some.injEq] at h
      subst h
      exact ⟨out, rfl, he, hp, ha⟩
  · right
    refine ⟨hc, ?_⟩
    cases hb : g.enemy.hpAttack g.player with
    | none => simp [enemyAI, hc, hb] at h
    | some out =>
      obtain ⟨g2, h2, he, hp, ha⟩ := enemyAI_of_hpAttack hc hb
      rw [h2, Option.some.injEq] at h
      subst h
      exact ⟨out, rfl, he, hp, ha⟩

theorem checkGameOver_log (g : Game) :
    ∃ rest, (checkGameOver g).2.combatLog = g.combatLog ++ rest := by
  unfold checkGameOver
  split_ifs
  · exact ⟨[⟨defeatMessage, "damage"⟩], by simp [log, stopGame_eq]⟩
  · exact ⟨[⟨victoryMessage, "heal"⟩], by simp [log, stopGame_eq]⟩
  · exact ⟨[], by simp⟩

theorem checkGameOver_log_of (g : Game) (l : List LogEntry) (h : g.combatLog = l) :
    ∃ rest, (checkGameOver g).2.combatLog = l ++ rest :=
  h ▸ checkGameOver_log g

theorem playerSkillAttack_lt (g : Game) (rnd : ℚ) (h : g.player.mp < 15) :
    playerSkillAttack rnd g = some g := by
  unfold playerSkillAttack
  rw [if_pos h]

theorem playerSkillAttack_ge (g : Game) (rnd : ℚ) (h : 15 ≤ g.player.mp)
    (hd : g.enemy.defense ≠ 0) :
    ∃ g' d, playerSkillAttack rnd g = some g' ∧
      d = ⌊fmul (fmul (fmul (fdiv g.player.attack g.enemy.defense) 2.5) 75) (damageRoll rnd)⌋ ∧
      g'.player = { g.player with
        mp := g.player.mp - 15
        brv := min g.player.maxBrv (g.player.brv + d)
        atb := g.player.atb - 1000 } ∧
      g'.enemy = (if g.enemy.brv - d ≤ 0 then { g.enemy with brv := 0, isBroken := true }
        else { g.enemy with brv := g.enemy.brv - d }) ∧
      g'.autoMode = g.autoMode ∧
      ∃ rest, g'.combatLog = g.combatLog ++
        (if g.enemy.brv - d ≤ 0 then [⟨breakMessage g.enemy.name, "break"⟩] else []) ++
        [⟨"🔥 " ++ g.player.name ++ "의 강타! " ++ g.enemy.name ++ "의 BRV " ++
          toString d ++ " 감소!", "damage"⟩] ++ rest := by
  have hmp : ¬ g.player.mp < 15 := not_lt.mpr h
  refine ⟨_, _, by unfold playerSkillAttack; rw [if_neg hmp]; simp only []; rw [if_neg hd], rfl,
    ?_, ?_, ?_, ?_⟩
  · rw [checkGameOver_player]
    by_cases h1 : g.player.brv +
        ((⌊fmul (fmul (fmul (fdiv g.player.attack g.enemy.defense) 2.5) 75) (damageRoll rnd)⌋ : ℤ) : ℚ) >
          g.player.maxBrv <;>
      by_cases h2 : g.enemy.brv -
        ((⌊fmul (fmul (fmul (fdiv g.player.attack g.enemy.defense) 2.5) 75) (damageRoll rnd)⌋ : ℤ) : ℚ) ≤ 0 <;>
      simp [h1, h2, log, updateUI, Character.consumeATB, le_of_lt, not_lt.mp]
  · rw [checkGameOver_enemy]
    by_cases h1 : g.player.brv +
        ((⌊fmul (fmul (fmul (fdiv g.player.attack g.enemy.defense) 2.5) 75) (damageRoll rnd)⌋ : ℤ) : ℚ) >
          g.player.maxBrv <;>
      by_cases h2 : g.enemy.brv -
        ((⌊fmul (fmul (fmul (fdiv g.player.attack g.enemy.defense) 2.5) 75) (damageRoll rnd)⌋ : ℤ) : ℚ) ≤ 0 <;>
      simp [h1, h2, log, updateUI, Character.consumeATB]
  · rw [checkGameOver_autoMode]
    by_cases h1 : g.player.brv +
        ((⌊fmul (fmul (fmul (fdiv g.player.attack g.enemy.defense) 2.5) 75) (damageRoll rnd)⌋ : ℤ) : ℚ) >
          g.player.maxBrv <;>
      by_cases h2 : g.enemy.brv -
        ((⌊fmul (fmul (fmul (fdiv g.player.attack g.enemy.defense) 2.5) 75) (damageRoll rnd)⌋ : ℤ) : ℚ) ≤ 0 <;>
      simp [h1, h2, log, updateUI, Character.consumeATB]
  · apply checkGameOver_log_of
    by_cases h1 : g.player.brv +
        ((⌊fmul (fmul (fmul (fdiv g.player.attack g.enemy.defense) 2.5) 75) (damageRoll rnd)⌋ : ℤ) : ℚ) >
          g.player.maxBrv <;>
      by_cases h2 : g.enemy.brv -
        ((⌊fmul (fmul (fmul (fdiv g.player.attack g.enemy.defense) 2.5) 75) (damageRoll rnd)⌋ : ℤ) : ℚ) ≤ 0 <;>
      simp [h1, h2, log, updateUI, Character.consumeATB]

theorem checkGameOver_of_alive (g : Game) (hp : 0 < g.player.hp) (he : 0 < g.enemy.hp) :
    checkGameOver g = (false, g) := by
  unfold checkGameOver
  rw [if_neg (not_le.mpr hp), if_neg (not_le.mpr he)]

theorem checkGameOver_fst_false (g : Game) (h : (checkGameOver g).1 = false) :
    0 < g.player.hp ∧ 0 < g.enemy.hp := by
  have h1 := checkGameOver_fst g
  rw [h] at h1
  simp only [Bool.false_eq_true, false_iff, not_or, not_le] at h1
  exact h1

/-- The enemy part of a tick either leaves both combatants as they were or runs
`enemyAI` once and then `consumeATB` on the enemy. -/
theorem enemyTurn_inv {g g' : Game} {action rnd : ℚ} (h : enemyTurn action rnd g = some g') :
    (g'.player = g.player ∧ g'.enemy = g.enemy ∧ g'.autoMode = g.autoMode ∧
      (g.enemy.canAct = false ∨ g.player.hp ≤ 0 ∨ g.enemy.hp ≤ 0)) ∨
    (g.enemy.canAct = true ∧ 0 < g.player.hp ∧ 0 < g.enemy.hp ∧
      ∃ g1, enemyAI action rnd g = some g1 ∧ g'.player = g1.player ∧
        g'.enemy = g1.enemy.consumeATB ∧ g'.autoMode = g1.autoMode) := by
  unfold enemyTurn at h
  by_cases hc : g.enemy.canAct = true
  · rw [if_pos hc] at h
    cases ho : (checkGameOver g).1 with
    | true =>
      simp only [ho, Bool.not_true, Bool.false_eq_true, if_false, Option.some.injEq] at h
      subst h
      left
      exact ⟨checkGameOver_player g, checkGameOver_enemy g, checkGameOver_autoMode g,
        Or.inr ((checkGameOver_fst g).mp ho)⟩
    | false =>
      obtain ⟨hp, he⟩ := checkGameOver_fst_false g ho
      have hg : checkGameOver g = (false, g) := checkGameOver_of_alive g hp he
      rw [hg] at h
      simp only [Bool.not_false, if_true] at h
      right
      refine ⟨hc, hp, he, ?_⟩
      cases ha : enemyAI action rnd g with
      | none => simp [ha] at h
      | some g1 =>
        simp only [ha, Option.some.injEq] at h
        subst h
        exact ⟨g1, rfl, rfl, rfl, rfl⟩
  · rw [if_neg hc, Option.some.injEq] at h
    subst h
    left
    exact ⟨rfl, rfl, rfl, Or.inl (by simpa using hc)⟩

/-- The auto-mode part of a tick either leaves both combatants as they were or
runs `playerBrvAttack` once and then `consumeATB` on the player. -/
theorem autoTurn_inv {g g' : Game} {rnd : ℚ} (h : autoTurn rnd g = some g') :
    (g'.player = g.player ∧ g'.enemy = g.enemy ∧ g'.autoMode = g.autoMode ∧
      (g.autoMode = false ∨ g.player.canAct = false ∨ g.player.hp ≤ 0 ∨ g.enemy.hp ≤ 0)) ∨
    (g.autoMode = true ∧ g.player.canAct = true ∧ 0 < g.player.hp ∧ 0 < g.enemy.hp ∧
      ∃ g1, playerBrvAttack rnd g = some g1 ∧ g'.player = g1.player.consumeATB ∧
        g'.enemy = g1.enemy ∧ g'.autoMode = g1.autoMode) := by
  unfold autoTurn at h
  by_cases hc : (g.autoMode && g.player.canAct) = true
  · rw [if_pos hc] at h
    rw [Bool.and_eq_true] at hc
    cases ho : (checkGameOver g).1 with
    | true =>
      simp only [ho, Bool.not_true, Bool.false_eq_true, if_false, Option.some.injEq] at h
      subst h
      left
      exact ⟨checkGameOver_player g, checkGameOver_enemy g, checkGameOver_autoMode g,
        Or.inr (Or.inr ((checkGameOver_fst g).mp ho))⟩
    | false =>
      obtain ⟨hp, he⟩ := checkGameOver_fst_false g ho
      have hg : checkGameOver g = (false, g) := checkGameOver_of_alive g hp he
      rw [hg] at h
      simp only [Bool.not_false, if_true] at h
      right
      refine ⟨hc.1, hc.2, hp, he, ?_⟩
      cases ha : playerBrvAttack rnd g with
      | none => simp [ha] at h
      | some g1 =>
        simp only [ha, Option.some.injEq] at h
        subst h
        exact ⟨g1, rfl, rfl, rfl, rfl⟩
  · rw [if_neg hc, Option.some.injEq] at h
    subst h
    left
    refine ⟨rfl, rfl, rfl, ?_⟩
    rw [Bool.and_eq_true, not_and_or] at hc
    rcases hc with hc | hc
    · exact Or.inl (by simpa using hc)
    · exact Or.inr (Or.inl (by simpa using hc))

theorem gameLoop_inv {g g' : Game} {action rndEnemy rndPlayer : ℚ}
    (h : gameLoop action rndEnemy rndPlayer g = some g') :
    ∃ g1, enemyTurn action rndEnemy
        { g with player := g.player.updateATB, enemy := g.enemy.updateATB } = some g1 ∧
      autoTurn rndPlayer g1 = some g' := by
  unfold gameLoop at h
  simp only [] at h
  cases h1 : enemyTurn action rndEnemy
      { g with player := g.player.updateATB, enemy := g.enemy.updateATB } with
  | none => simp [h1] at h
  | some g1 =>
    cases h2 : autoTurn rndPlayer g1 with
    | none => simp [h1, h2] at h
    | some g2 =>
      simp only [h1, h2, updateUI, Option.some.injEq] at h
      subst h
      exact ⟨g1, rfl, h2⟩

/-! ## BREAK -/

theorem brvTransfer_self_isBroken (a t : Character) (d : ℤ) :
    (brvTransfer a t d).self.isBroken = a.isBroken := by
  unfold brvTransfer
  by_cases h : a.brv + (d : ℚ) > a.maxBrv <;> by_cases h2 : t.brv - (d : ℚ) ≤ 0 <;>
    simp [h, h2]

theorem brvTransfer_break (a t : Character) (d : ℤ) (h : t.brv - (d : ℚ) ≤ 0) :
    (brvTransfer a t d).target = { t with brv := 0, isBroken := true } ∧
      (brvTransfer a t d).result.breakBonus = 1.5 ∧
      (brvTransfer a t d).logs = [⟨breakMessage t.name, "break"⟩] := by
  unfold brvTransfer
  simp [h]

theorem brvTransfer_no_break (a t : Character) (d : ℤ) (h : ¬ t.brv - (d : ℚ) ≤ 0) :
    (brvTransfer a t d).target = { t with brv := t.brv - d } ∧
      (brvTransfer a t d).result.breakBonus = 1.0 ∧
      (brvTransfer a t d).logs = [] := by
  unfold brvTransfer
  simp [h]

theorem brvTransfer_target_isBroken_mono (a t : Character) (d : ℤ)
    (h : t.isBroken = true) : (brvTransfer a t d).target.isBroken = true := by
  by_cases hb : t.brv - (d : ℚ) ≤ 0
  · rw [(brvTransfer_break a t d hb).1]
  · rw [(brvTransfer_no_break a t d hb).1]
    exact h

theorem brvAttack_flags {a t : Character} {rnd : ℚ} {out : BrvOutcome}
    (h : a.brvAttack t rnd = some out) :
    out.self.isBroken = a.isBroken ∧ (t.isBroken = true → out.target.isBroken = true) := by
  by_cases hd : t.defense = 0
  · simp [Character.brvAttack, hd] at h
  · rw [brvAttack_eq a t rnd hd, Option.some.injEq] at h
    subst h
    exact ⟨brvTransfer_self_isBroken _ _ _, brvTransfer_target_isBroken_mono _ _ _⟩

theorem hpAttack_flags {a t : Character} {out : HpOutcome} (h : a.hpAttack t = some out) :
    out.self.isBroken = a.isBroken ∧ out.target.isBroken = false := by
  by_cases hd : t.defense + 1 = 0
  · have h0 : fadd t.defense 1 = 0 := by unfold fadd; rw [hd]; exact toDouble_zero
    simp [Character.hpAttack, h0] at h
  · rw [hpAttack_eq a t hd, Option.some.injEq] at h
    subst h
    exact ⟨rfl, rfl⟩

theorem updateATB_eq (c : Character) :
    c.updateATB =
      { c with atb := if c.atb < 2000 then min (fadd c.atb c.speed) 2000 else c.atb } := by
  unfold Character.updateATB
  by_cases h : c.atb < 2000
  · by_cases h2 : fadd c.atb c.speed > 2000
    · simp [h, h2, min_eq_right (le_of_lt h2)]
    · simp [h, h2, min_eq_left (not_lt.mp h2)]
  · simp [h]

theorem updateATB_isBroken (c : Character) : c.updateATB.isBroken = c.isBroken := by
  rw [updateATB_eq]

theorem playerSkillAttack_flags {g g' : Game} {rnd : ℚ}
    (h : playerSkillAttack rnd g = some g') :
    g'.player.isBroken = g.player.isBroken ∧
      (g.enemy.isBroken = true → g'.enemy.isBroken = true) := by
  by_cases hmp : g.player.mp < 15
  · rw [playerSkillAttack_lt g rnd hmp, Option.some.injEq] at h
    subst h
    exact ⟨rfl, id⟩
  · by_cases hd : g.enemy.defense = 0
    · simp [playerSkillAttack, hmp, hd] at h
    · obtain ⟨g2, d, h2, _, hp, he, _, _⟩ := playerSkillAttack_ge g rnd (not_lt.mp hmp) hd
      rw [h2, Option.some.injEq] at h
      subst h
      refine ⟨by rw [hp], fun hb => ?_⟩
      rw [he]
      split_ifs
      · rfl
      · exact hb

theorem enemyAI_flags {g g' : Game} {action rnd : ℚ} (h : enemyAI action rnd g = some g') :
    g'.enemy.isBroken = g.enemy.isBroken ∧
      (g.player.isBroken = true → g'.player.isBroken = false →
        ¬ (action < 0.4 ∨ g.enemy.brv < 300)) := by
  rcases enemyAI_inv h with ⟨hc, out, hout, he, hp, _⟩ | ⟨hc, out, hout, he, hp, _⟩
  · obtain ⟨hs, ht⟩ := brvAttack_flags hout
    refine ⟨by rw [he, hs], fun hb hb' => ?_⟩
    rw [hp, ht hb] at hb'
    exact absurd hb' (by decide)
  · exact ⟨by rw [he, (hpAttack_flags hout).1], fun _ _ => hc⟩

theorem playerBrvAttack_flags {g g' : Game} {rnd : ℚ} (h : playerBrvAttack rnd g = some g') :
    g'.player.isBroken = g.player.isBroken ∧
      (g.enemy.isBroken = true → g'.enemy.isBroken = true) := by
  obtain ⟨out, hout, hp, he, _⟩ := playerBrvAttack_inv h
  obtain ⟨hs, ht⟩ := brvAttack_flags hout
  exact ⟨by rw [hp]; exact hs, fun hb => by rw [he]; exact ht hb⟩

theorem gameLoop_flags {g g' : Game} {action rndEnemy rndPlayer : ℚ}
    (h : gameLoop action rndEnemy rndPlayer g = some g') :
    (g.enemy.isBroken = true → g'.enemy.isBroken = true) ∧
      (g.player.isBroken = true → g'.player.isBroken = false →
        g.enemy.updateATB.canAct = true ∧ ¬ (action < 0.4 ∨ g.enemy.brv < 300)) := by
  obtain ⟨g1, h1, h2⟩ := gameLoop_inv h
  have hauto : g'.player.isBroken = g1.player.isBroken ∧
      (g1.enemy.isBroken = true → g'.enemy.isBroken = true) := by
    rcases autoTurn_inv h2 with ⟨hp, he, _, _⟩ | ⟨_, _, _, _, g2, hg2, hp, he, _⟩
    · exact ⟨by rw [hp], fun hb => by rw [he]; exact hb⟩
    · obtain ⟨hs, ht⟩ := playerBrvAttack_flags hg2
      exact ⟨by rw [hp]; exact hs, fun hb => by rw [he]; exact ht hb⟩
  rcases enemyTurn_inv h1 with ⟨hp, he, _, _⟩ | ⟨hc, _, _, g2, hg2, hp, he, _⟩
  · refine ⟨fun hb => hauto.2 ?_, fun hb hb' => ?_⟩
    · rw [he]; simpa [updateATB_isBroken] using hb
    · rw [hauto.1, hp] at hb'
      simp only [updateATB_isBroken] at hb'
      rw [hb] at hb'
      exact absurd hb' (by decide)
  · obtain ⟨hs, ht⟩ := enemyAI_flags hg2
    simp only [updateATB_isBroken] at hs ht
    refine ⟨fun hb => hauto.2 ?_, fun hb hb' => ⟨hc, ?_⟩⟩
    · rw [he]
      show g2.enemy.isBroken = true
      rw [hs]; exact hb
    · rw [hauto.1, hp] at hb'
      have := ht hb hb'
      simpa [updateATB_eq] using this

/-- Claim C6. For every `brvAttack`: when `target.brv - brvDamage ≤ 0` the
target is left broken with `brv = 0`, `breakBonus` is 1.5 and exactly one entry,
the BREAK entry naming the target, is emitted; otherwise the target's `isBroken` is as it
was, `breakBonus` is 1.0 and nothing is emitted. The receiver's flag is
unchanged. The flag is cleared only by an `hpAttack` on that combatant:
`updateATB`, `consumeATB` and the receiver side of `hpAttack` keep it,
`checkGameOver`, `startGame`, `stopGame` and `toggleAuto` leave the combatants
as they are, `playerBrvAttack` and `playerSkillAttack` never clear a flag,
`playerHpAttack` keeps the player's, `enemyAI` keeps the enemy's and clears the
player's only in its HP branch, and a tick keeps a set enemy flag and clears the
player's only when the enemy acts and takes the HP branch. -/
theorem break_set_and_cleared (a t : Character) (rnd : ℚ) (hd : t.defense ≠ 0) :
    (∃ out, a.brvAttack t rnd = some out ∧
      (t.brv - out.result.brvDamage ≤ 0 →
        out.target.isBroken = true ∧ out.target.brv = 0 ∧ out.result.breakBonus = 1.5 ∧
          out.logs = [⟨breakMessage t.name, "break"⟩]) ∧
      (¬ t.brv - out.result.brvDamage ≤ 0 →
        out.target.isBroken = t.isBroken ∧ out.result.breakBonus = 1.0 ∧ out.logs = []) ∧
      out.self.isBroken = a.isBroken) ∧
    a.updateATB.isBroken = a.isBroken ∧ a.consumeATB.isBroken = a.isBroken ∧
    (∀ out, a.hpAttack t = some out →
      out.self.isBroken = a.isBroken ∧ out.target.isBroken = false) ∧
    (∀ g : Game, (checkGameOver g).2.player = g.player ∧ (checkGameOver g).2.enemy = g.enemy ∧
      (startGame g).player = g.player ∧ (startGame g).enemy = g.enemy ∧
      (stopGame g).player = g.player ∧ (stopGame g).enemy = g.enemy ∧
      (toggleAuto g).player = g.player ∧ (toggleAuto g).enemy = g.enemy) ∧
    (∀ g g' r, playerBrvAttack r g = some g' →
      g'.player.isBroken = g.player.isBroken ∧
        (g.enemy.isBroken = true → g'.enemy.isBroken = true)) ∧
    (∀ g g' r, playerSkillAttack r g = some g' →
      g'.player.isBroken = g.player.isBroken ∧
        (g.enemy.isBroken = true → g'.enemy.isBroken = true)) ∧
    (∀ g g', playerHpAttack g = some g' → g'.player.isBroken = g.player.isBroken) ∧
    (∀ g g' action r, enemyAI action r g = some g' →
      g'.enemy.isBroken = g.enemy.isBroken ∧
        (g.player.isBroken = true → g'.player.isBroken = false →
          ¬ (action < 0.4 ∨ g.enemy.brv < 300))) ∧
    (∀ g g' action r r', gameLoop action r r' g = some g' →
      (g.enemy.isBroken = true → g'.enemy.isBroken = true) ∧
        (g.player.isBroken = true → g'.player.isBroken = false →
          g.enemy.updateATB.canAct = true ∧ ¬ (action < 0.4 ∨ g.enemy.brv < 300))) := by
  refine ⟨⟨_, brvAttack_eq a t rnd hd, ?_, ?_, brvTransfer_self_isBroken _ _ _⟩,
    updateATB_isBroken a, rfl, fun out h => hpAttack_flags h, ?_,
    fun g g' r h => playerBrvAttack_flags h, fun g g' r h => playerSkillAttack_flags h, ?_,
    fun g g' action r h => enemyAI_flags h, fun g g' action r r' h => gameLoop_flags h⟩
  · intro h
    rw [brvTransfer_damage] at h
    obtain ⟨h1, h2, h3⟩ := brvTransfer_break a t _ h
    exact ⟨by rw [h1], by rw [h1], h2, h3⟩
  · intro h
    rw [brvTransfer_damage] at h
    obtain ⟨h1, h2, h3⟩ := brvTransfer_no_break a t _ h
    exact ⟨by rw [h1], h2, h3⟩
  · intro g
    refine ⟨checkGameOver_player g, checkGameOver_enemy g, ?_, ?_, ?_, ?_, ?_, ?_⟩
    · unfold startGame; split_ifs <;> rfl
    · unfold startGame; split_ifs <;> rfl
    · rw [stopGame_eq]
    · rw [stopGame_eq]
    · unfold toggleAuto; simp only []; split_ifs <;> rfl
    · unfold toggleAuto; simp only []; split_ifs <;> rfl
  · intro g g' h
    obtain ⟨out, hout, hp, _, _⟩ := playerHpAttack_inv h
    rw [hp]
    exact (hpAttack_flags hout).1

/-- A Bravery attack of 300 on an enemy holding 300 breaks it. -/
theorem break_set_and_cleared_witness :
    ∃ out, scenarioPlayer.brvAttack { scenarioEnemy with brv := 300 } (1 / 2) = some out ∧
      out.target.isBroken = true ∧ out.target.brv = 0 ∧ out.result.breakBonus = 1.5 ∧
      out.logs = [⟨breakMessage "고블린", "break"⟩] := by
  have hd : ({ scenarioEnemy with brv := 300 } : Character).defense ≠ 0 := by
    norm_num [scenarioEnemy, Character.new]
  obtain ⟨⟨out, h, hbrk, _, _⟩, _⟩ :=
    break_set_and_cleared scenarioPlayer { scenarioEnemy with brv := 300 } (1 / 2) hd
  have hout := h.symm.trans (brvAttack_eq scenarioPlayer _ (1 / 2) hd)
  rw [Option.some.injEq] at hout
  have hdmg : out.result.brvDamage = 300 := by
    rw [hout, brvTransfer_damage]
    exact brvDamage_60_30 _ _ rfl rfl
  exact ⟨out, h, hbrk (by rw [hdmg]; norm_num)⟩

/-! ## Enemy policy -/

theorem brvTransfer_target_hp (a t : Character) (d : ℤ) :
    (brvTransfer a t d).target.hp = t.hp := by
  by_cases hb : t.brv - (d : ℚ) ≤ 0
  · rw [(brvTransfer_break a t d hb).1]
  · rw [(brvTransfer_no_break a t d hb).1]

theorem enemyAI_brv_branch (g : Game) (action rnd : ℚ) (hd : g.player.defense ≠ 0)
    (hc : action < 0.4 ∨ g.enemy.brv < 300) :
    ∃ out g', g.enemy.brvAttack g.player rnd = some out ∧ enemyAI action rnd g = some g' ∧
      g'.enemy = out.self ∧ g'.player = out.target ∧ g'.player.hp = g.player.hp := by
  have hout := brvAttack_eq g.enemy g.player rnd hd
  obtain ⟨g', hg', he, hp, _⟩ := enemyAI_of_brvAttack hc hout
  exact ⟨_, g', hout, hg', he, hp, by rw [hp, brvTransfer_target_hp]⟩

/-- Claim C7. For every state (with `player.defense > 0`) and every draw
`action`: when `action < 0.4` or `enemy.brv < 300`, `enemyAI` leaves the
combatants as `enemy.brvAttack(player)` does, so the player's `hp` is unchanged;
otherwise it leaves them as `enemy.hpAttack(player)` does. With
`enemy.brv = 250` the Bravery attack is performed for every `action`. -/
theorem enemyAI_policy (g : Game) (action rnd : ℚ) (hd : 0 < g.player.defense) :
    ((action < 0.4 ∨ g.enemy.brv < 300) →
      ∃ out g', g.enemy.brvAttack g.player rnd = some out ∧
        enemyAI action rnd g = some g' ∧ g'.enemy = out.self ∧ g'.player = out.target ∧
        g'.player.hp = g.player.hp) ∧
    (¬ (action < 0.4 ∨ g.enemy.brv < 300) →
      ∃ out g', g.enemy.hpAttack g.player = some out ∧
        enemyAI action rnd g = some g' ∧ g'.enemy = out.self ∧ g'.player = out.target) ∧
    (g.enemy.brv = 250 →
      ∃ out g', g.enemy.brvAttack g.player rnd = some out ∧
        enemyAI action rnd g = some g' ∧ g'.enemy = out.self ∧ g'.player = out.target ∧
        g'.player.hp = g.player.hp) := by
  have hd0 : g.player.defense ≠ 0 := ne_of_gt hd
  have hd1 : g.player.defense + 1 ≠ 0 := by linarith
  refine ⟨enemyAI_brv_branch g action rnd hd0, fun hc => ?_, fun h250 => ?_⟩
  · have hout := hpAttack_eq g.enemy g.player hd1
    obtain ⟨g', hg', he, hp, _⟩ := enemyAI_of_hpAttack hc hout
    exact ⟨_, g', hout, hg', he, hp⟩
  · exact enemyAI_brv_branch g action rnd hd0 (Or.inr (by rw [h250]; norm_num))

/-- Scenario C: with `enemy.brv = 250` and the draw 0.9 the enemy performs the
Bravery attack and the player keeps 210 hit points. -/
theorem enemyAI_policy_witness :
    ∃ out g', scenarioCGame.enemy.brvAttack scenarioCGame.player (1 / 2) = some out ∧
      enemyAI 0.9 (1 / 2) scenarioCGame = some g' ∧
      g'.enemy = out.self ∧ g'.player = out.target ∧ g'.player.hp = 210 :=
  (enemyAI_policy scenarioCGame 0.9 (1 / 2)
    (by norm_num [scenarioCGame, scenarioPlayer, Character.new])).2.2 rfl

/-! ## Terminal states -/

theorem playerBrvAttack_eq_of {g : Game} {rnd : ℚ} {out : BrvOutcome}
    (h : g.player.brvAttack g.enemy rnd = some out) :
    playerBrvAttack rnd g = some (checkGameOver
      { player := out.self.consumeATB
        enemy := out.target
        gameInterval := g.gameInterval
        autoMode := g.autoMode
        combatLog := g.combatLog ++ out.logs ++
          [⟨"⚔️ " ++ out.self.name ++ "의 BRV 공격! " ++ out.target.name ++ "의 BRV " ++
            toString out.result.brvDamage ++ " 감소, " ++ out.self.name ++ "의 BRV " ++
            toString out.result.brvDamage ++ " 증가", "damage"⟩]
        timeouts := g.timeouts }).2 := by
  unfold playerBrvAttack
  rw [h]
  simp [log, logAll, updateUI]

theorem playerHpAttack_eq_of {g : Game} {out : HpOutcome}
    (h : g.player.hpAttack g.enemy = some out) :
    playerHpAttack g = some (checkGameOver
      { player := out.self.consumeATB
        enemy := out.target
        gameInterval := g.gameInterval
        autoMode := g.autoMode
        combatLog := g.combatLog ++
          [⟨"💥 " ++ out.self.name ++ "의 HP 공격! " ++ out.target.name ++ "에게 " ++
            toString out.hpDamage ++ " 데미지!", "damage"⟩]
        timeouts := g.timeouts }).2 := by
  unfold playerHpAttack
  rw [h]
  simp [log, updateUI]

theorem enemyTurn_terminal (g : Game) (action rnd : ℚ)
    (h : g.player.hp ≤ 0 ∨ g.enemy.hp ≤ 0) :
    ∃ g', enemyTurn action rnd g = some g' ∧ g'.player = g.player ∧ g'.enemy = g.enemy ∧
      g'.autoMode = g.autoMode := by
  have ho : (checkGameOver g).1 = true := (checkGameOver_fst g).mpr h
  unfold enemyTurn
  by_cases hc : g.enemy.canAct = true
  · rw [if_pos hc]
    simp only [ho, Bool.not_true, Bool.false_eq_true, if_false]
    exact ⟨_, rfl, checkGameOver_player g, checkGameOver_enemy g, checkGameOver_autoMode g⟩
  · rw [if_neg hc]
    exact ⟨g, rfl, rfl, rfl, rfl⟩

theorem autoTurn_terminal (g : Game) (rnd : ℚ) (h : g.player.hp ≤ 0 ∨ g.enemy.hp ≤ 0) :
    ∃ g', autoTurn rnd g = some g' ∧ g'.player = g.player ∧ g'.enemy = g.enemy ∧
      g'.autoMode = g.autoMode := by
  have ho : (checkGameOver g).1 = true := (checkGameOver_fst g).mpr h
  unfold autoTurn
  by_cases hc : (g.autoMode && g.player.canAct) = true
  · rw [if_pos hc]
    simp only [ho, Bool.not_true, Bool.false_eq_true, if_false]
    exact ⟨_, rfl, checkGameOver_player g, checkGameOver_enemy g, checkGameOver_autoMode g⟩
  · rw [if_neg hc]
    exact ⟨g, rfl, rfl, rfl, rfl⟩

theorem gameLoop_of_turns {g g1 g2 : Game} {action rndEnemy rndPlayer : ℚ}
    (h1 : enemyTurn action rndEnemy
      { g with player := g.player.updateATB, enemy := g.enemy.updateATB } = some g1)
    (h2 : autoTurn rndPlayer g1 = some g2) :
    gameLoop action rndEnemy rndPlayer g = some g2 := by
  unfold gameLoop
  simp only [h1, h2, updateUI]

/-- In every state with `player.hp ≤ 0` or `enemy.hp ≤ 0`, a tick of `gameLoop`
performs no action: it returns, both combatants are advanced by `updateATB`
only, and `hp`, `mp`, `brv` and `isBroken` of both are unchanged. When
`player.hp ≤ 0`, `player.canAct()` is false. -/
theorem gameLoop_terminal (g : Game) (action rndEnemy rndPlayer : ℚ)
    (h : g.player.hp ≤ 0 ∨ g.enemy.hp ≤ 0) :
    (∃ g', gameLoop action rndEnemy rndPlayer g = some g' ∧
      g'.player = g.player.updateATB ∧ g'.enemy = g.enemy.updateATB ∧
      g'.player.hp = g.player.hp ∧ g'.player.mp = g.player.mp ∧
      g'.player.brv = g.player.brv ∧ g'.player.isBroken = g.player.isBroken ∧
      g'.enemy.hp = g.enemy.hp ∧ g'.enemy.mp = g.enemy.mp ∧
      g'.enemy.brv = g.enemy.brv ∧ g'.enemy.isBroken = g.enemy.isBroken) ∧
    (g.player.hp ≤ 0 → g.player.canAct = false) := by
  constructor
  · have h0 : ({ g with player := g.player.updateATB, enemy := g.enemy.updateATB } : Game).player.hp
        ≤ 0 ∨
        ({ g with player := g.player.updateATB, enemy := g.enemy.updateATB } : Game).enemy.hp
          ≤ 0 := by
      simpa [updateATB_eq] using h
    obtain ⟨g1, hg1, hp1, he1, _⟩ := enemyTurn_terminal _ action rndEnemy h0
    have h1 : g1.player.hp ≤ 0 ∨ g1.enemy.hp ≤ 0 := by rw [hp1, he1]; exact h0
    obtain ⟨g2, hg2, hp2, he2, _⟩ := autoTurn_terminal g1 rndPlayer h1
    have hp : g2.player = g.player.updateATB := by rw [hp2, hp1]
    have he : g2.enemy = g.enemy.updateATB := by rw [he2, he1]
    refine ⟨g2, gameLoop_of_turns hg1 hg2, hp, he, ?_⟩
    rw [hp, he]
    simp [updateATB_eq]
  · intro hp
    simp [Character.canAct, hp]

/-- A tick on the won battle changes no resource of either combatant. -/
theorem gameLoop_terminal_witness :
    ∃ g', gameLoop 0.9 (1 / 2) (1 / 2) victoryGame = some g' ∧
      g'.player.brv = 100 ∧ g'.enemy.brv = 500 ∧ g'.enemy.hp = 0 ∧ g'.player.mp = 32 := by
  obtain ⟨⟨g', h, _, _, _, hmp, hbrv, _, hhp, _, hebrv, _⟩, _⟩ :=
    gameLoop_terminal victoryGame 0.9 (1 / 2) (1 / 2) (Or.inr (le_of_eq rfl))
  exact ⟨g', h, hbrv, hebrv, hhp, hmp⟩

theorem consumeATB_brv (c : Character) : c.consumeATB.brv = c.brv := rfl

theorem checkGameOver_victory (g : Game) (hp : 0 < g.player.hp) (he : g.enemy.hp ≤ 0) :
    (checkGameOver g).2 =
      { g with
        combatLog := g.combatLog ++ [⟨victoryMessage, "heal"⟩]
        gameInterval := false
        timeouts := g.timeouts + 1 } := by
  unfold checkGameOver
  rw [if_neg (not_le.mpr hp), if_pos he]
  simp [log, stopGame_eq]

/-- A player HP attack that kills: the log receives the attack entry and the
victory entry, and one confirmation is scheduled. -/
theorem playerHpAttack_victory {g : Game} {out : HpOutcome}
    (h : g.player.hpAttack g.enemy = some out) (hp : 0 < out.self.hp)
    (he : out.target.hp ≤ 0) :
    ∃ g', playerHpAttack g = some g' ∧ g'.player = out.self.consumeATB ∧
      g'.enemy = out.target ∧
      g'.combatLog = g.combatLog ++
        [⟨"💥 " ++ out.self.name ++ "의 HP 공격! " ++ out.target.name ++ "에게 " ++
          toString out.hpDamage ++ " 데미지!", "damage"⟩, ⟨victoryMessage, "heal"⟩] ∧
      g'.timeouts = g.timeouts + 1 := by
  refine ⟨_, playerHpAttack_eq_of h, ?_, ?_, ?_, ?_⟩
  · rw [checkGameOver_player]
  · rw [checkGameOver_enemy]
  · rw [checkGameOver_victory _ hp he]
    simp
  · rw [checkGameOver_victory _ hp he]

/-- A player Bravery attack on an enemy without hit points: the log receives
the attack entry and one more victory entry, and one more confirmation is
scheduled. -/
theorem playerBrvAttack_victory {g : Game} {rnd : ℚ} {out : BrvOutcome}
    (h : g.player.brvAttack g.enemy rnd = some out) (hp : 0 < out.self.hp)
    (he : out.target.hp ≤ 0) :
    ∃ g', playerBrvAttack rnd g = some g' ∧ g'.player = out.self.consumeATB ∧
      g'.enemy = out.target ∧
      g'.combatLog = g.combatLog ++ out.logs ++
        [⟨"⚔️ " ++ out.self.name ++ "의 BRV 공격! " ++ out.target.name ++ "의 BRV " ++
          toString out.result.brvDamage ++ " 감소, " ++ out.self.name ++ "의 BRV " ++
          toString out.result.brvDamage ++ " 증가", "damage"⟩, ⟨victoryMessage, "heal"⟩] ∧
      g'.timeouts = g.timeouts + 1 := by
  refine ⟨_, playerBrvAttack_eq_of h, ?_, ?_, ?_, ?_⟩
  · rw [checkGameOver_player]
  · rw [checkGameOver_enemy]
  · rw [checkGameOver_victory _ hp he]
    simp
  · rw [checkGameOver_victory _ hp he]

theorem brvTransfer_self_hp (a t : Character) (d : ℤ) :
    (brvTransfer a t d).self.hp = a.hp := by
  unfold brvTransfer
  by_cases h : a.brv + (d : ℚ) > a.maxBrv <;> by_cases h2 : t.brv - (d : ℚ) ≤ 0 <;>
    simp [h, h2]

theorem brvTransfer_self_name (a t : Character) (d : ℤ) :
    (brvTransfer a t d).self.name = a.name := by
  unfold brvTransfer
  by_cases h : a.brv + (d : ℚ) > a.maxBrv <;> by_cases h2 : t.brv - (d : ℚ) ≤ 0 <;>
    simp [h, h2]

theorem brvTransfer_target_name (a t : Character) (d : ℤ) :
    (brvTransfer a t d).target.name = t.name := by
  by_cases hb : t.brv - (d : ℚ) ≤ 0
  · rw [(brvTransfer_break a t d hb).1]
  · rw [(brvTransfer_no_break a t d hb).1]

/-- Claim C8 fails in the code. The player's controls are enabled whenever
`player.canAct()` is true, and a won battle can leave it true: from the battle
after Scenario A with the gauge at 2000, `playerHpAttack` deals 629, takes the
enemy's hit points from 150 to 0, logs the victory and schedules one
confirmation, and leaves `player.atb = 1000`, `player.hp = 210`, so `canAct()`
is true with `enemy.hp = 0`. A further `playerBrvAttack` in that state moves 300
Bravery from the enemy to the player, logs the victory a second time and
schedules a second confirmation. In the same way, with `enemy.hp = 0`,
`playerSkillAttack` takes 15 mana from the player and 375 Bravery from the
enemy; with `player.hp = 0`, `playerHpAttack` resets the player's Bravery from
1000 to 100 and takes the enemy's hit points from 150 to 0. -/
theorem terminal_state_not_absorbing :
    (∃ g1 g2, playerHpAttack bankedGame = some g1 ∧
      g1.enemy.hp = 0 ∧ g1.player.hp = 210 ∧ g1.player.atb = 1000 ∧
      g1.player.canAct = true ∧
      g1.combatLog = [⟨"💥 전사의 HP 공격! 고블린에게 629 데미지!", "damage"⟩,
        ⟨victoryMessage, "heal"⟩] ∧
      g1.timeouts = 1 ∧
      playerBrvAttack (1 / 2) g1 = some g2 ∧
      g1.player.brv = 100 ∧ g2.player.brv = 400 ∧
      g1.enemy.brv = 500 ∧ g2.enemy.brv = 200 ∧
      g2.combatLog = g1.combatLog ++
        [⟨"⚔️ 전사의 BRV 공격! 고블린의 BRV 300 감소, 전사의 BRV 300 증가", "damage"⟩,
          ⟨victoryMessage, "heal"⟩] ∧
      g2.timeouts = 2) ∧
    victoryGame.enemy.hp = 0 ∧ victoryGame.player.canAct = true ∧
    defeatGame.player.hp = 0 ∧
    (∃ g', playerBrvAttack (1 / 2) victoryGame = some g' ∧
      victoryGame.player.brv = 100 ∧ g'.player.brv = 400 ∧
      victoryGame.enemy.brv = 500 ∧ g'.enemy.brv = 200) ∧
    (∃ g', playerSkillAttack (1 / 2) victoryGame = some g' ∧
      victoryGame.player.mp = 32 ∧ g'.player.mp = 17 ∧
      victoryGame.enemy.brv = 500 ∧ g'.enemy.brv = 125) ∧
    (∃ g', playerHpAttack defeatGame = some g' ∧
      defeatGame.player.brv = 1000 ∧ g'.player.brv = 100 ∧
      defeatGame.enemy.hp = 150 ∧ g'.enemy.hp = 0) := by
  refine ⟨?_, rfl, ?_, rfl, ?_, ?_, ?_⟩
  · have hd1 : bankedGame.enemy.defense + 1 ≠ 0 := by
      norm_num [bankedGame, scenarioEnemy, Character.new]
    have hout1 := hpAttack_eq bankedGame.player bankedGame.enemy hd1
    have hfl1 : ⌊fmul (fmul (fmul bankedGame.player.brv 0.25)
        (fdiv bankedGame.player.attack (fadd bankedGame.enemy.defense 1)))
        (if bankedGame.enemy.isBroken = true then 1.5 else 1.0)⌋ = 629 :=
      hpDamage_1300 _ _ _ rfl rfl rfl
    rw [hfl1] at hout1
    obtain ⟨g1, hg1, hp1, he1, hl1, ht1⟩ := playerHpAttack_victory hout1
      (by norm_num [bankedGame, scenarioPlayer, Character.new])
      (by norm_num [bankedGame, scenarioEnemy, Character.new])
    have hehp : g1.enemy.hp = 0 := by
      rw [he1]
      norm_num [bankedGame, scenarioEnemy, Character.new]
    have hphp : g1.player.hp = 210 := by rw [hp1]; rfl
    have hatb : g1.player.atb = 1000 := by
      rw [hp1]
      norm_num [bankedGame, scenarioPlayer, Character.new, Character.consumeATB]
    have hd2 : g1.enemy.defense ≠ 0 := by
      rw [he1]
      norm_num [bankedGame, scenarioEnemy, Character.new]
    have hout2 := brvAttack_eq g1.player g1.enemy (1 / 2) hd2
    have hfl2 : ⌊fmul (fmul (fmul (fdiv g1.player.attack g1.enemy.defense) 2.0) 75)
        (damageRoll (1 / 2))⌋ = 300 :=
      brvDamage_60_30 _ _ (by rw [hp1]; rfl) (by rw [he1]; rfl)
    rw [hfl2] at hout2
    have hnb : ¬ g1.enemy.brv - ((300 : ℤ) : ℚ) ≤ 0 := by
      rw [he1]
      norm_num [bankedGame, scenarioEnemy, Character.new]
    obtain ⟨g2, hg2, hp2, he2, hl2, ht2⟩ := playerBrvAttack_victory hout2
      (by rw [brvTransfer_self_hp, hphp]; norm_num)
      (by rw [brvTransfer_target_hp, hehp])
    refine ⟨g1, g2, hg1, hehp, hphp, hatb, ?_, ?_, ?_, hg2, ?_, ?_, ?_, ?_, ?_, ?_⟩
    · simp [Character.canAct, hatb, hphp]
    · rw [hl1]; rfl
    · rw [ht1]; rfl
    · rw [hp1]; rfl
    · rw [hp2, consumeATB_brv, brvTransfer_self_brv, hp1]
      norm_num [bankedGame, scenarioPlayer, Character.new, Character.consumeATB]
    · rw [he1]; rfl
    · rw [he2, brvTransfer_target_brv, he1]
      norm_num [bankedGame, scenarioEnemy, Character.new]
    · rw [hl2, (brvTransfer_no_break _ _ _ hnb).2.2, brvTransfer_self_name,
        brvTransfer_target_name, brvTransfer_damage, hp1, he1, List.append_nil]
      rfl
    · rw [ht2, ht1]; rfl
  · simp [victoryGame, scenarioPlayer, Character.new, Character.canAct]
  · have hd : victoryGame.enemy.defense ≠ 0 := by
      norm_num [victoryGame, scenarioEnemy, Character.new]
    obtain ⟨g', hg', hp, he, _⟩ :=
      playerBrvAttack_of_brvAttack (brvAttack_eq victoryGame.player victoryGame.enemy (1 / 2) hd)
    have hfl : ⌊fmul (fmul (fmul (fdiv victoryGame.player.attack victoryGame.enemy.defense)
        2.0) 75) (damageRoll (1 / 2))⌋ = 300 := brvDamage_60_30 _ _ rfl rfl
    rw [hfl] at hp he
    refine ⟨g', hg', rfl, ?_, rfl, ?_⟩
    · rw [hp, consumeATB_brv, brvTransfer_self_brv]
      norm_num [victoryGame, scenarioPlayer, Character.new]
    · rw [he, brvTransfer_target_brv]
      norm_num [victoryGame, scenarioEnemy, Character.new]
  · have hd : victoryGame.enemy.defense ≠ 0 := by
      norm_num [victoryGame, scenarioEnemy, Character.new]
    have hmp : (15 : ℚ) ≤ victoryGame.player.mp := by
      norm_num [victoryGame, scenarioPlayer, Character.new]
    obtain ⟨g', d, hg', hdmg, hp, he, _, _⟩ := playerSkillAttack_ge victoryGame (1 / 2) hmp hd
    have hfl : d = 375 := by
      rw [hdmg]
      exact skillDamage_60_30 _ _ rfl rfl
    subst hfl
    refine ⟨g', hg', rfl, ?_, rfl, ?_⟩
    · rw [hp]
      norm_num [victoryGame, scenarioPlayer, Character.new]
    · rw [he]
      norm_num [victoryGame, scenarioEnemy, Character.new]
  · have hd : defeatGame.enemy.defense + 1 ≠ 0 := by
      norm_num [defeatGame, scenarioEnemy, Character.new]
    obtain ⟨g', hg', hp, he, _⟩ :=
      playerHpAttack_of_hpAttack (hpAttack_eq defeatGame.player defeatGame.enemy hd)
    have hfl : ⌊fmul (fmul (fmul defeatGame.player.brv 0.25)
        (fdiv defeatGame.player.attack (fadd defeatGame.enemy.defense 1)))
        (if defeatGame.enemy.isBroken = true then 1.5 else 1.0)⌋ = 483 :=
      hpDamage_1000 _ _ _ rfl rfl rfl
    rw [hfl] at he
    refine ⟨g', hg', rfl, ?_, rfl, ?_⟩
    · rw [hp]; rfl
    · rw [he]
      norm_num [defeatGame, scenarioEnemy, Character.new]
/-! ## Preconditions of the player actions -/

theorem brvTransfer_self_eq (a t : Character) (d : ℤ) :
    (brvTransfer a t d).self = { a with brv := min a.maxBrv (a.brv + d) } := by
  unfold brvTransfer
  by_cases h : a.brv + (d : ℚ) > a.maxBrv <;> by_cases h2 : t.brv - (d : ℚ) ≤ 0
  · simp [h, h2, le_of_lt h]
  · simp [h, h2, le_of_lt h]
  · simp [h, h2, not_lt.mp h]
  · simp [h, h2, not_lt.mp h]

theorem brvTransfer_target_eq (a t : Character) (d : ℤ) :
    (brvTransfer a t d).target =
      (if t.brv - d ≤ 0 then { t with brv := 0, isBroken := true }
        else { t with brv := t.brv - d }) := by
  by_cases hb : t.brv - (d : ℚ) ≤ 0
  · rw [(brvTransfer_break a t d hb).1, if_pos hb]
  · rw [(brvTransfer_no_break a t d hb).1, if_neg hb]

theorem brvTransfer_logs (a t : Character) (d : ℤ) :
    (brvTransfer a t d).logs =
      (if t.brv - d ≤ 0 then [⟨breakMessage t.name, "break"⟩] else []) := by
  by_cases hb : t.brv - (d : ℚ) ≤ 0
  · rw [(brvTransfer_break a t d hb).2.2, if_pos hb]
  · rw [(brvTransfer_no_break a t d hb).2.2, if_neg hb]

theorem checkGameOver_log_snoc (g : Game) (l : List LogEntry) (msg : String)
    (h : g.combatLog = l ++ [⟨msg, "damage"⟩]) :
    ∃ entry rest, entry.type = "damage" ∧
      (checkGameOver g).2.combatLog = l ++ entry :: rest := by
  obtain ⟨rest, hrest⟩ := checkGameOver_log g
  refine ⟨⟨msg, "damage"⟩, rest, rfl, ?_⟩
  rw [hrest, h, List.append_assoc, List.singleton_append]

theorem playerBrvAttack_log {g : Game} {rnd : ℚ} {out : BrvOutcome}
    (h : g.player.brvAttack g.enemy rnd = some out) :
    ∃ g', playerBrvAttack rnd g = some g' ∧ ∃ entry rest, entry.type = "damage" ∧
      g'.combatLog = g.combatLog ++ out.logs ++ entry :: rest :=
  ⟨_, playerBrvAttack_eq_of h, checkGameOver_log_snoc _ _ _ rfl⟩

theorem playerHpAttack_log {g : Game} {out : HpOutcome}
    (h : g.player.hpAttack g.enemy = some out) :
    ∃ g', playerHpAttack g = some g' ∧ ∃ entry rest, entry.type = "damage" ∧
      g'.combatLog = g.combatLog ++ entry :: rest :=
  ⟨_, playerHpAttack_eq_of h, checkGameOver_log_snoc _ _ _ rfl⟩

theorem brvTransfer_self_atb (a t : Character) (d : ℤ) :
    (brvTransfer a t d).self.atb = a.atb := by
  unfold brvTransfer
  by_cases h : a.brv + (d : ℚ) > a.maxBrv <;> by_cases h2 : t.brv - (d : ℚ) ≤ 0 <;>
    simp [h, h2]

theorem playerBrvAttack_log_exact {g : Game} {rnd : ℚ} {out : BrvOutcome}
    (h : g.player.brvAttack g.enemy rnd = some out) :
    ∃ g', playerBrvAttack rnd g = some g' ∧ ∃ rest,
      g'.combatLog = g.combatLog ++ out.logs ++
        [⟨"⚔️ " ++ out.self.name ++ "의 BRV 공격! " ++ out.target.name ++ "의 BRV " ++
          toString out.result.brvDamage ++ " 감소, " ++ out.self.name ++ "의 BRV " ++
          toString out.result.brvDamage ++ " 증가", "damage"⟩] ++ rest :=
  ⟨_, playerBrvAttack_eq_of h, checkGameOver_log_of _ _ rfl⟩

theorem playerHpAttack_log_exact {g : Game} {out : HpOutcome}
    (h : g.player.hpAttack g.enemy = some out) :
    ∃ g', playerHpAttack g = some g' ∧ ∃ rest,
      g'.combatLog = g.combatLog ++
        [⟨"💥 " ++ out.self.name ++ "의 HP 공격! " ++ out.target.name ++ "에게 " ++
          toString out.hpDamage ++ " 데미지!", "damage"⟩] ++ rest :=
  ⟨_, playerHpAttack_eq_of h, checkGameOver_log_of _ _ rfl⟩

/-- Claim C9, amended. In every state in which `player.canAct()` is false (and
`enemy.defense > 0`): `playerSkillAttack` with `player.mp < 15` returns the
state as it was, log included; `playerBrvAttack`, `playerHpAttack` and
`playerSkillAttack` with `player.mp ≥ 15` do not decline, each carries out its
attack. `playerBrvAttack` leaves the player as `player.brvAttack(enemy)`
followed by `consumeATB` leaves it and the enemy as that attack leaves it, and
appends the attack's BREAK entries and then its own entry. `playerHpAttack` does
the same with `player.hpAttack(enemy)`, the player's Bravery being reset to 100.
`playerSkillAttack` takes 15 mana, runs the transfer of lines 36 to 50 of
`brvAttack` with the damage `d` of the skill, and appends the BREAK entries and
then its own entry. Each subtracts 1000 from `player.atb`; what may follow the
entries in the log is what `checkGameOver` appends. -/
theorem player_actions_not_gated_by_canAct (g : Game) (rnd : ℚ)
    (_hc : g.player.canAct = false) (hd : 0 < g.enemy.defense) :
    (g.player.mp < 15 → playerSkillAttack rnd g = some g) ∧
    (∃ out g', g.player.brvAttack g.enemy rnd = some out ∧
      playerBrvAttack rnd g = some g' ∧
      g'.player = out.self.consumeATB ∧ g'.enemy = out.target ∧
      g'.player.atb = g.player.atb - 1000 ∧
      ∃ rest, g'.combatLog = g.combatLog ++ out.logs ++
        [⟨"⚔️ " ++ g.player.name ++ "의 BRV 공격! " ++ g.enemy.name ++ "의 BRV " ++
          toString out.result.brvDamage ++ " 감소, " ++ g.player.name ++ "의 BRV " ++
          toString out.result.brvDamage ++ " 증가", "damage"⟩] ++ rest) ∧
    (∃ out g', g.player.hpAttack g.enemy = some out ∧
      playerHpAttack g = some g' ∧
      g'.player = out.self.consumeATB ∧ g'.enemy = out.target ∧
      g'.player.atb = g.player.atb - 1000 ∧ g'.player.brv = 100 ∧
      ∃ rest, g'.combatLog = g.combatLog ++
        [⟨"💥 " ++ g.player.name ++ "의 HP 공격! " ++ g.enemy.name ++ "에게 " ++
          toString out.hpDamage ++ " 데미지!", "damage"⟩] ++ rest) ∧
    (15 ≤ g.player.mp →
      ∃ g' d, playerSkillAttack rnd g = some g' ∧
        d = ⌊fmul (fmul (fmul (fdiv g.player.attack g.enemy.defense) 2.5) 75)
          (fadd (toDouble 0.9) (fmul rnd (toDouble 0.2)))⌋ ∧
        g'.player = { (brvTransfer g.player g.enemy d).self with
          mp := g.player.mp - 15, atb := g.player.atb - 1000 } ∧
        g'.enemy = (brvTransfer g.player g.enemy d).target ∧
        g'.player.atb = g.player.atb - 1000 ∧ g'.player.mp = g.player.mp - 15 ∧
        ∃ rest, g'.combatLog = g.combatLog ++ (brvTransfer g.player g.enemy d).logs ++
          [⟨"🔥 " ++ g.player.name ++ "의 강타! " ++ g.enemy.name ++ "의 BRV " ++
            toString d ++ " 감소!", "damage"⟩] ++ rest) := by
  have hd0 : g.enemy.defense ≠ 0 := ne_of_gt hd
  have hd1 : g.enemy.defense + 1 ≠ 0 := by linarith
  refine ⟨playerSkillAttack_lt g rnd, ?_, ?_, fun hmp => ?_⟩
  · have hout := brvAttack_eq g.player g.enemy rnd hd0
    obtain ⟨g', hg', rest, hlog⟩ := playerBrvAttack_log_exact hout
    obtain ⟨g2, hg2, hp, he, _⟩ := playerBrvAttack_of_brvAttack hout
    have : g2 = g' := Option.some.inj (hg2.symm.trans hg')
    subst this
    rw [brvTransfer_self_name, brvTransfer_target_name] at hlog
    refine ⟨_, g2, hout, hg2, hp, he, ?_, rest, hlog⟩
    rw [hp]
    show (brvTransfer g.player g.enemy _).self.atb - 1000 = g.player.atb - 1000
    rw [brvTransfer_self_atb]
  · have hout := hpAttack_eq g.player g.enemy hd1
    obtain ⟨g', hg', rest, hlog⟩ := playerHpAttack_log_exact hout
    obtain ⟨g2, hg2, hp, he, _⟩ := playerHpAttack_of_hpAttack hout
    have : g2 = g' := Option.some.inj (hg2.symm.trans hg')
    subst this
    exact ⟨_, g2, hout, hg2, hp, he, by rw [hp]; rfl, by rw [hp]; rfl, rest, hlog⟩
  · obtain ⟨g', d, hg', hdmg, hp, he, _, rest, hlog⟩ := playerSkillAttack_ge g rnd hmp hd0
    refine ⟨g', d, hg', by rw [hdmg, damageRoll], ?_, ?_, by rw [hp], by rw [hp], rest, ?_⟩
    · rw [hp, brvTransfer_self_eq]
    · rw [he, brvTransfer_target_eq]
    · rw [hlog, brvTransfer_logs]

/-- In the battle of Scenario C the gauge of the player is empty, and
`playerBrvAttack` runs all the same: it deals 300, takes the player from 1000
to 1300 Bravery, breaks the enemy that held 250, appends the BREAK entry and
its own entry, and leaves `player.atb = -1000`. -/
theorem player_actions_not_gated_by_canAct_witness :
    scenarioCGame.player.canAct = false ∧
    ∃ g', playerBrvAttack (1 / 2) scenarioCGame = some g' ∧ g'.player.atb = -1000 ∧
      g'.player.brv = 1300 ∧ g'.enemy.brv = 0 ∧ g'.enemy.isBroken = true ∧
      ∃ rest, g'.combatLog = [⟨breakMessage "고블린", "break"⟩,
        ⟨"⚔️ 전사의 BRV 공격! 고블린의 BRV 300 감소, 전사의 BRV 300 증가", "damage"⟩] ++ rest := by
  have hc : scenarioCGame.player.canAct = false := by
    simp [scenarioCGame, scenarioPlayer, Character.new, Character.canAct]
  obtain ⟨out, g', hout, h, hp, he, hatb, rest, hlog⟩ :=
    (player_actions_not_gated_by_canAct scenarioCGame (1 / 2) hc
      (by norm_num [scenarioCGame, scenarioEnemy, Character.new])).2.1
  have hd : scenarioCGame.enemy.defense ≠ 0 := by
    norm_num [scenarioCGame, scenarioEnemy, Character.new]
  have hout2 := hout.symm.trans (brvAttack_eq scenarioCGame.player scenarioCGame.enemy (1 / 2) hd)
  rw [Option.some.injEq] at hout2
  have hfl : ⌊fmul (fmul (fmul (fdiv scenarioCGame.player.attack scenarioCGame.enemy.defense)
      2.0) 75) (damageRoll (1 / 2))⌋ = 300 := brvDamage_60_30 _ _ rfl rfl
  rw [hfl] at hout2
  have hb : scenarioCGame.enemy.brv - ((300 : ℤ) : ℚ) ≤ 0 := by
    norm_num [scenarioCGame, scenarioEnemy, Character.new]
  obtain ⟨ht, _, hlogs⟩ := brvTransfer_break scenarioCGame.player scenarioCGame.enemy 300 hb
  refine ⟨hc, g', h, ?_, ?_, ?_, ?_, ?_⟩
  · rw [hatb]
    norm_num [scenarioCGame, scenarioPlayer, Character.new]
  · rw [hp, hout2, consumeATB_brv, brvTransfer_self_brv]
    norm_num [scenarioCGame, scenarioPlayer, Character.new]
  · rw [he, hout2, ht]
  · rw [he, hout2, ht]
  · refine ⟨rest, ?_⟩
    rw [hlog, hout2, hlogs, brvTransfer_damage]
    rfl

theorem initialGame_player : (initialGame 0 0).player = scenarioPlayer := by
  simp [initialGame, startGame, updateUI, log, scenarioPlayer]

theorem initialGame_enemy : (initialGame 0 0).enemy = scenarioEnemy := by
  simp [initialGame, startGame, updateUI, log, scenarioEnemy]

theorem initialGame_combatLog :
    (initialGame 0 0).combatLog = [⟨"⏯️ 게임 시작!", "normal"⟩] := by
  simp [initialGame, startGame, updateUI, log]

/-- Claim C9, as stated, fails. At the start of the battle `player.atb = 0`, so
`player.canAct()` is false, and yet `playerBrvAttack` moves 300 Bravery and
appends to the log, `playerHpAttack` takes the enemy's hit points from 150 to 0
and `playerSkillAttack` takes 15 mana from the player. -/
theorem declined_action_mutates_state :
    (initialGame 0 0).player.canAct = false ∧
    (∃ g', playerBrvAttack (1 / 2) (initialGame 0 0) = some g' ∧
      (initialGame 0 0).player.brv = 1000 ∧ g'.player.brv = 1300 ∧
      (initialGame 0 0).enemy.brv = 800 ∧ g'.enemy.brv = 500 ∧
      (initialGame 0 0).combatLog.length = 1 ∧ 2 ≤ g'.combatLog.length) ∧
    (∃ g', playerHpAttack (initialGame 0 0) = some g' ∧
      g'.player.brv = 100 ∧ (initialGame 0 0).enemy.hp = 150 ∧ g'.enemy.hp = 0) ∧
    (∃ g', playerSkillAttack (1 / 2) (initialGame 0 0) = some g' ∧
      (initialGame 0 0).player.mp = 32 ∧ g'.player.mp = 17) := by
  have hp0 := initialGame_player
  have he0 := initialGame_enemy
  have hl0 := initialGame_combatLog
  have hd : (initialGame 0 0).enemy.defense ≠ 0 := by
    rw [he0]; norm_num [scenarioEnemy, Character.new]
  have hd1 : (initialGame 0 0).enemy.defense + 1 ≠ 0 := by
    rw [he0]; norm_num [scenarioEnemy, Character.new]
  refine ⟨by rw [hp0]; simp [scenarioPlayer, Character.new, Character.canAct], ?_, ?_, ?_⟩
  · have hout := brvAttack_eq (initialGame 0 0).player (initialGame 0 0).enemy (1 / 2) hd
    have hfl : ⌊fmul (fmul (fmul
        (fdiv (initialGame 0 0).player.attack (initialGame 0 0).enemy.defense) 2.0) 75)
        (damageRoll (1 / 2))⌋ = 300 :=
      brvDamage_60_30 _ _ (by rw [hp0]; rfl) (by rw [he0]; rfl)
    rw [hfl] at hout
    obtain ⟨g', hg', entry, rest, _, hlog⟩ := playerBrvAttack_log hout
    obtain ⟨g2, hg2, hp, he, _⟩ := playerBrvAttack_of_brvAttack hout
    have : g2 = g' := Option.some.inj (hg2.symm.trans hg')
    subst this
    refine ⟨g2, hg2, by rw [hp0]; rfl, ?_, by rw [he0]; rfl, ?_, by rw [hl0]; rfl, ?_⟩
    · rw [hp, consumeATB_brv, brvTransfer_self_brv, hp0]
      norm_num [scenarioPlayer, Character.new]
    · rw [he, brvTransfer_target_brv, he0]
      norm_num [scenarioEnemy, Character.new]
    · rw [hlog, hl0]
      simp only [List.length_append, List.length_cons, List.length_nil]
      omega
  · have hout := hpAttack_eq (initialGame 0 0).player (initialGame 0 0).enemy hd1
    have hfl : ⌊fmul (fmul (fmul (initialGame 0 0).player.brv 0.25)
        (fdiv (initialGame 0 0).player.attack (fadd (initialGame 0 0).enemy.defense 1)))
        (if (initialGame 0 0).enemy.isBroken = true then 1.5 else 1.0)⌋ = 483 := by
      rw [hp0, he0]
      exact hpDamage_1000 _ _ _ rfl rfl rfl
    rw [hfl] at hout
    obtain ⟨g', hg', hp, he, _⟩ := playerHpAttack_of_hpAttack hout
    refine ⟨g', hg', by rw [hp]; rfl, by rw [he0]; rfl, ?_⟩
    rw [he]
    show max (0 : ℚ) ((initialGame 0 0).enemy.hp - ((483 : ℤ) : ℚ)) = 0
    rw [he0]
    norm_num [scenarioEnemy, Character.new]
  · have hmp : (15 : ℚ) ≤ (initialGame 0 0).player.mp := by
      rw [hp0]; norm_num [scenarioPlayer, Character.new]
    obtain ⟨g', d, hg', _, hp, _, _, _⟩ :=
      playerSkillAttack_ge (initialGame 0 0) (1 / 2) hmp hd
    refine ⟨g', hg', by rw [hp0]; rfl, ?_⟩
    rw [hp]
    show (initialGame 0 0).player.mp - 15 = 17
    rw [hp0]
    norm_num [scenarioPlayer, Character.new]

/-- Claim C10. For every state with `player.mp < 15`, `playerSkillAttack` returns
the state as it was: no field of either combatant changes and the log is the
same. For every state with `player.mp ≥ 15` (and `enemy.defense` not 0) it
returns a state in which `player.mp` is 15 less, hence `≥ 0`, and `maxMp` is
unchanged, so `mp ≤ maxMp` is kept. -/
theorem skill_mp_gate (g : Game) (rnd : ℚ) :
    (g.player.mp < 15 → playerSkillAttack rnd g = some g) ∧
    (15 ≤ g.player.mp → g.enemy.defense ≠ 0 →
      ∃ g', playerSkillAttack rnd g = some g' ∧ g'.player.mp = g.player.mp - 15 ∧
        0 ≤ g'.player.mp ∧ g'.player.maxMp = g.player.maxMp ∧
        (g.player.mp ≤ g.player.maxMp → g'.player.mp ≤ g'.player.maxMp)) := by
  refine ⟨playerSkillAttack_lt g rnd, fun hmp hd => ?_⟩
  obtain ⟨g', d, hg', _, hp, _, _, _⟩ := playerSkillAttack_ge g rnd hmp hd
  have hmp' : g'.player.mp = g.player.mp - 15 := by rw [hp]
  have hmax : g'.player.maxMp = g.player.maxMp := by rw [hp]
  refine ⟨g', hg', hmp', ?_, hmax, fun hle => ?_⟩
  · rw [hmp']; linarith
  · rw [hmp', hmax]; linarith

/-- With 2 mana the skill attack does nothing; with 32 it leaves 17. -/
theorem skill_mp_gate_witness :
    playerSkillAttack (1 / 2) lowMpGame = some lowMpGame ∧
    ∃ g', playerSkillAttack (1 / 2) scenarioCGame = some g' ∧ g'.player.mp = 17 ∧
      0 ≤ g'.player.mp ∧ g'.player.mp ≤ g'.player.maxMp := by
  have hlow := (skill_mp_gate lowMpGame (1 / 2)).1
    (by norm_num [lowMpGame, scenarioPlayer, Character.new])
  obtain ⟨g', hg', hmp, h0, _, hle⟩ := (skill_mp_gate scenarioCGame (1 / 2)).2
    (by norm_num [scenarioCGame, scenarioPlayer, Character.new])
    (by norm_num [scenarioCGame, scenarioEnemy, Character.new])
  refine ⟨hlow, g', hg', ?_, h0, hle (by norm_num [scenarioCGame, scenarioPlayer, Character.new])⟩
  rw [hmp]
  norm_num [scenarioCGame, scenarioPlayer, Character.new]

/-! ## Skill attack -/

/-- Claim C11. For every state with `player.mp ≥ 15` (and `enemy.defense` not 0)
and every draw, `playerSkillAttack` returns, its damage being
`d = floor((player.attack / enemy.defense) * 2.5 * 75 * U)` with
`U = 0.9 + rnd * 0.2`, the quotient, the products and the sum being those of
double arithmetic, each rounded to the nearest double, as the code computes
them; it leaves `player.brv`, `enemy.brv` and `enemy.isBroken`, indeed the whole
enemy, as lines 36 to 50 of `brvAttack` leave them when run with the damage `d`,
the player differing from the receiver of that transfer only in `mp` and `atb`,
and it emits the same BREAK entries before its own entry. `brvAttack` itself is
that transfer run with the factor 2.0. -/
theorem skill_refines_brvAttack (g : Game) (rnd : ℚ) (hmp : 15 ≤ g.player.mp)
    (hd : g.enemy.defense ≠ 0) :
    ∃ g' d, playerSkillAttack rnd g = some g' ∧
      d = ⌊fmul (fmul (fmul (fdiv g.player.attack g.enemy.defense) 2.5) 75)
        (fadd (toDouble 0.9) (fmul rnd (toDouble 0.2)))⌋ ∧
      g'.player.brv = (brvTransfer g.player g.enemy d).self.brv ∧
      g'.enemy.brv = (brvTransfer g.player g.enemy d).target.brv ∧
      g'.enemy.isBroken = (brvTransfer g.player g.enemy d).target.isBroken ∧
      g'.enemy = (brvTransfer g.player g.enemy d).target ∧
      g'.player = { (brvTransfer g.player g.enemy d).self with
        mp := g.player.mp - 15, atb := g.player.atb - 1000 } ∧
      (∃ rest, g'.combatLog =
        g.combatLog ++ (brvTransfer g.player g.enemy d).logs ++
          [⟨"🔥 " ++ g.player.name ++ "의 강타! " ++ g.enemy.name ++ "의 BRV " ++
            toString d ++ " 감소!", "damage"⟩] ++ rest) ∧
      g.player.brvAttack g.enemy rnd = some (brvTransfer g.player g.enemy
        ⌊fmul (fmul (fmul (fdiv g.player.attack g.enemy.defense) 2.0) 75)
          (fadd (toDouble 0.9) (fmul rnd (toDouble 0.2)))⌋) := by
  obtain ⟨g', d, hg', hdmg, hp, he, _, rest, hlog⟩ := playerSkillAttack_ge g rnd hmp hd
  have he' : g'.enemy = (brvTransfer g.player g.enemy d).target := by
    rw [he, brvTransfer_target_eq]
  have hp' : g'.player = { (brvTransfer g.player g.enemy d).self with
      mp := g.player.mp - 15, atb := g.player.atb - 1000 } := by
    rw [hp, brvTransfer_self_eq]
  refine ⟨g', d, hg', ?_, ?_, ?_, ?_, he', hp', ⟨rest, ?_⟩, ?_⟩
  · rw [hdmg, damageRoll]
  · rw [hp']
  · rw [he']
  · rw [he']
  · rw [hlog, brvTransfer_logs]
  · rw [brvAttack_eq g.player g.enemy rnd hd, damageRoll]

/-- The skill attack at the start of the battle with `U = 1`: the damage is 375,
the player goes from 1000 to 1375 Bravery and the enemy from 800 to 425. With
the draw `7686143364045641 / 2^60` the exact product is below 338 and the double
product is 338: the damage is 338. -/
theorem skill_refines_brvAttack_witness :
    (∃ g', playerSkillAttack (1 / 2) scenarioCGame = some g' ∧
      g'.player.brv = (brvTransfer scenarioCGame.player scenarioCGame.enemy 375).self.brv ∧
      g'.enemy = (brvTransfer scenarioCGame.player scenarioCGame.enemy 375).target) ∧
    (∃ g', playerSkillAttack (7686143364045641 / 1152921504606846976) scenarioCGame =
        some g' ∧
      g'.player.brv = (brvTransfer scenarioCGame.player scenarioCGame.enemy 338).self.brv ∧
      g'.enemy = (brvTransfer scenarioCGame.player scenarioCGame.enemy 338).target) := by
  constructor
  · obtain ⟨g', d, hg', hdmg, hp, _, _, he, _⟩ :=
      skill_refines_brvAttack scenarioCGame (1 / 2)
        (by norm_num [scenarioCGame, scenarioPlayer, Character.new])
        (by norm_num [scenarioCGame, scenarioEnemy, Character.new])
    have h375 : d = 375 := by
      rw [hdmg]
      exact skillDamage_60_30 _ _ rfl rfl
    subst h375
    exact ⟨g', hg', hp, he⟩
  · obtain ⟨g', d, hg', hdmg, hp, _, _, he, _⟩ :=
      skill_refines_brvAttack scenarioCGame (7686143364045641 / 1152921504606846976)
        (by norm_num [scenarioCGame, scenarioPlayer, Character.new])
        (by norm_num [scenarioCGame, scenarioEnemy, Character.new])
    have h338 : d = 338 := by
      rw [hdmg]
      exact (skillDamage_rounded _ _ rfl rfl).1
    subst h338
    exact ⟨g', hg', hp, he⟩

/-! ## The ATB gauge -/

/-- The double sum of a gauge within `[0, 2000]` and a speed of at least 50 is
not below the gauge: the rounding error of the sum is smaller than the speed. -/
theorem le_fadd_atb_speed (atb speed : ℚ) (h0 : 0 ≤ atb) (h1 : atb ≤ 2000)
    (hs : 50 ≤ speed) : atb ≤ fadd atb speed := by
  unfold fadd
  have h := toDouble_sub_le (atb + speed)
  rw [abs_of_nonneg (by linarith : (0 : ℚ) ≤ atb + speed)] at h
  have h2 := (abs_le.mp h).1
  have h3 : (atb + speed) / 2 ^ 53 ≤ speed := by
    rw [div_le_iff₀ (by norm_num)]
    norm_num
    linarith
  linarith

/-- The double sum `937.5 + (62.5 - 2^-47)` is 1000, the exact sum being below
1000. -/
theorem fadd_937_5 : fadd 937.5 (62.5 - 1 / 2 ^ 47) = 1000 := by
  unfold fadd
  have := toDouble_eq_of (937.5 + (62.5 - 1 / 2 ^ 47)) 9 8796093022208000
    (by norm_num [abs_of_pos]) (by norm_num [abs_of_pos]) (by norm_num [abs_lt])
  rw [this]
  norm_num

/-- Claim C12. For every combatant with `0 ≤ atb ≤ 2000` and `speed` in
`[50, 70)`, `updateATB` changes `atb` to `min (atb + speed) 2000`, the sum being
the double sum that `this.atb += this.speed` stores, and no other field; the new
value is within `[0, 2000]` and not below the old one. -/
theorem updateATB_spec (c : Character) (h0 : 0 ≤ c.atb) (h1 : c.atb ≤ 2000)
    (hs0 : 50 ≤ c.speed) (_hs1 : c.speed < 70) :
    c.updateATB = { c with atb := min (fadd c.atb c.speed) 2000 } ∧
      0 ≤ c.updateATB.atb ∧ c.updateATB.atb ≤ 2000 ∧ c.atb ≤ c.updateATB.atb := by
  have hle : c.atb ≤ fadd c.atb c.speed := le_fadd_atb_speed c.atb c.speed h0 h1 hs0
  have heq : c.updateATB = { c with atb := min (fadd c.atb c.speed) 2000 } := by
    rw [updateATB_eq]
    by_cases h : c.atb < 2000
    · rw [if_pos h]
    · rw [if_neg h]
      have h2 : c.atb = 2000 := le_antisymm h1 (not_lt.mp h)
      rw [min_eq_right (by linarith)]
      rw [h2]
  refine ⟨heq, ?_, ?_, ?_⟩
  · rw [heq]
    exact le_min (by linarith) (by norm_num)
  · rw [heq]
    exact min_le_right _ _
  · rw [heq]
    exact le_min hle h1

/-- A gauge at 1960 with speed 60 is filled to 2000, not to 2020. A gauge at
937.5 with speed `62.5 - 2^-47` is filled to 1000, the double nearest to the
exact sum `1000 - 2^-47`, so the combatant can act. -/
theorem updateATB_spec_witness :
    ({ scenarioPlayer with atb := 1960, speed := 60 } : Character).updateATB.atb = 2000 ∧
    ({ scenarioPlayer with atb := 937.5, speed := 62.5 - 1 / 2 ^ 47 } :
      Character).updateATB.atb = 1000 ∧
    ({ scenarioPlayer with atb := 937.5, speed := 62.5 - 1 / 2 ^ 47 } :
      Character).updateATB.canAct = true := by
  have h := (updateATB_spec { scenarioPlayer with atb := 1960, speed := 60 }
    (by norm_num) (by norm_num) (by norm_num) (by norm_num)).1
  have h2 := (updateATB_spec { scenarioPlayer with atb := 937.5, speed := 62.5 - 1 / 2 ^ 47 }
    (by norm_num) (by norm_num) (by norm_num) (by norm_num)).1
  have hsum : fadd 1960 60 = 2020 := by
    have := fadd_natCast 1960 60 (by norm_num)
    norm_num at this
    exact this
  have hatb : ({ scenarioPlayer with atb := 937.5, speed := 62.5 - 1 / 2 ^ 47 } :
      Character).updateATB.atb = 1000 := by
    rw [h2]
    show min (fadd 937.5 (62.5 - 1 / 2 ^ 47)) 2000 = 1000
    rw [fadd_937_5]
    norm_num
  have hhp : ({ scenarioPlayer with atb := 937.5, speed := 62.5 - 1 / 2 ^ 47 } :
      Character).updateATB.hp = 210 := by
    rw [h2]
    rfl
  refine ⟨?_, hatb, ?_⟩
  · rw [h]
    show min (fadd 1960 60) 2000 = 2000
    rw [hsum]
    norm_num
  · unfold Character.canAct
    rw [hatb, hhp]
    norm_num

/-- Claim C13. For every combatant, `consumeATB` changes `atb` to `atb - 1000`
and no other field. A combatant with `atb = 2000` and `hp > 0` is left with
`atb = 1000` and `canAct()` still true. -/
theorem consumeATB_spec (c : Character) :
    c.consumeATB = { c with atb := c.atb - 1000 } ∧
      (c.atb = 2000 → 0 < c.hp → c.consumeATB.atb = 1000 ∧ c.consumeATB.canAct = true) := by
  refine ⟨rfl, fun h2000 hhp => ?_⟩
  have hatb : c.consumeATB.atb = 1000 := by
    show c.atb - 1000 = 1000
    rw [h2000]; norm_num
  refine ⟨hatb, ?_⟩
  unfold Character.canAct
  rw [hatb]
  simpa [Character.consumeATB] using hhp

/-- Scenario D: the player with a full gauge of 2000 keeps 1000 and can act. -/
theorem consumeATB_spec_witness :
    ({ scenarioPlayer with atb := 2000 } : Character).consumeATB.atb = 1000 ∧
      ({ scenarioPlayer with atb := 2000 } : Character).consumeATB.canAct = true :=
  (consumeATB_spec { scenarioPlayer with atb := 2000 }).2 rfl
    (by norm_num [scenarioPlayer, Character.new])

/-- Claim C14. For every combatant, `canAct()` is true exactly when
`atb ≥ 1000` and `hp > 0`; it returns a boolean and nothing else, the combatant
being its argument only. A combatant with `hp = 0` cannot act, whatever its
`atb`. -/
theorem canAct_spec (c : Character) :
    (c.canAct = true ↔ 1000 ≤ c.atb ∧ 0 < c.hp) ∧ (c.hp = 0 → c.canAct = false) := by
  constructor
  · simp [Character.canAct]
  · intro h
    simp [Character.canAct, h]

/-- Claim C15. `checkGameOver` returns true exactly when `player.hp ≤ 0` or
`enemy.hp ≤ 0`. With `player.hp ≤ 0` it appends the defeat entry and nothing
else, also when `enemy.hp ≤ 0`; with `player.hp > 0` and `enemy.hp ≤ 0` it
appends the victory entry and nothing else; in both cases `gameInterval` is
cleared. When it returns false the state is as it was. It never changes a
combatant or `autoMode`. -/
theorem checkGameOver_spec (g : Game) :
    ((checkGameOver g).1 = true ↔ g.player.hp ≤ 0 ∨ g.enemy.hp ≤ 0) ∧
    (g.player.hp ≤ 0 →
      (checkGameOver g).2.combatLog = g.combatLog ++ [⟨defeatMessage, "damage"⟩] ∧
        (checkGameOver g).2.gameInterval = false) ∧
    (0 < g.player.hp → g.enemy.hp ≤ 0 →
      (checkGameOver g).2.combatLog = g.combatLog ++ [⟨victoryMessage, "heal"⟩] ∧
        (checkGameOver g).2.gameInterval = false) ∧
    ((checkGameOver g).1 = false → (checkGameOver g).2 = g) ∧
    (checkGameOver g).2.player = g.player ∧ (checkGameOver g).2.enemy = g.enemy ∧
    (checkGameOver g).2.autoMode = g.autoMode ∧
    defeatMessage ≠ victoryMessage := by
  refine ⟨checkGameOver_fst g, fun hp => ?_, fun hp he => ?_, fun hf => ?_,
    checkGameOver_player g, checkGameOver_enemy g, checkGameOver_autoMode g, by decide⟩
  · unfold checkGameOver
    rw [if_pos hp]
    simp [log, stopGame_eq]
  · unfold checkGameOver
    rw [if_neg (not_le.mpr hp), if_pos he]
    simp [log, stopGame_eq]
  · obtain ⟨hp, he⟩ := checkGameOver_fst_false g hf
    rw [checkGameOver_of_alive g hp he]

/-! ## Bravery as a transfer -/

/-- Claim C18, as stated, fails. When the player holds 1400 of at most 1500
Bravery and takes 300 from the enemy's 800, the player is clamped at 1500 and
the sum falls from 2200 to 2000; when the enemy holds only 100, the player goes
from 1000 to 1300, the enemy is clamped at 0 and the sum rises from 1100 to
1300. -/
theorem brvAttack_not_zero_sum :
    (∃ out, ({ scenarioPlayer with brv := 1400 } : Character).brvAttack scenarioEnemy (1 / 2) =
        some out ∧
      out.result.brvDamage = 300 ∧ out.self.brv = 1500 ∧ out.target.brv = 500 ∧
      out.self.brv + out.target.brv ≠ 1400 + 800) ∧
    (∃ out, scenarioPlayer.brvAttack { scenarioEnemy with brv := 100 } (1 / 2) = some out ∧
      out.result.brvDamage = 300 ∧ out.self.brv = 1300 ∧ out.target.brv = 0 ∧
      out.self.brv + out.target.brv ≠ 1000 + 100) := by
  have hd : scenarioEnemy.defense ≠ 0 := by norm_num [scenarioEnemy, Character.new]
  have hfl : ⌊fmul (fmul (fmul (fdiv scenarioPlayer.attack scenarioEnemy.defense) 2.0) 75)
      (damageRoll (1 / 2))⌋ = 300 := brvDamage_60_30 _ _ rfl rfl
  constructor
  · have hout := brvAttack_eq { scenarioPlayer with brv := 1400 } scenarioEnemy (1 / 2) hd
    have hs : (brvTransfer { scenarioPlayer with brv := 1400 } scenarioEnemy 300).self.brv =
        1500 := by
      rw [brvTransfer_self_brv]
      norm_num [scenarioPlayer, Character.new]
    have ht : (brvTransfer { scenarioPlayer with brv := 1400 } scenarioEnemy 300).target.brv =
        500 := by
      rw [brvTransfer_target_brv]
      norm_num [scenarioEnemy, Character.new]
    refine ⟨_, hout, ?_, ?_, ?_, ?_⟩
    · rw [brvTransfer_damage]; exact hfl
    · show (brvTransfer _ _ ⌊fmul (fmul (fmul
        (fdiv scenarioPlayer.attack scenarioEnemy.defense) 2.0) 75) (damageRoll (1 / 2))⌋).self.brv = 1500
      rw [hfl]; exact hs
    · show (brvTransfer _ _ ⌊fmul (fmul (fmul
        (fdiv scenarioPlayer.attack scenarioEnemy.defense) 2.0) 75) (damageRoll (1 / 2))⌋).target.brv = 500
      rw [hfl]; exact ht
    · show (brvTransfer _ _ ⌊fmul (fmul (fmul
        (fdiv scenarioPlayer.attack scenarioEnemy.defense) 2.0) 75) (damageRoll (1 / 2))⌋).self.brv + (brvTransfer _ _ ⌊fmul (fmul (fmul
        (fdiv scenarioPlayer.attack scenarioEnemy.defense) 2.0) 75) (damageRoll (1 / 2))⌋).target.brv ≠ 1400 + 800
      rw [hfl, hs, ht]; norm_num
  · have hout := brvAttack_eq scenarioPlayer { scenarioEnemy with brv := 100 } (1 / 2) hd
    have hs : (brvTransfer scenarioPlayer { scenarioEnemy with brv := 100 } 300).self.brv =
        1300 := by
      rw [brvTransfer_self_brv]
      norm_num [scenarioPlayer, Character.new]
    have ht : (brvTransfer scenarioPlayer { scenarioEnemy with brv := 100 } 300).target.brv =
        0 := by
      rw [brvTransfer_target_brv]
      norm_num [scenarioEnemy, Character.new]
    refine ⟨_, hout, ?_, ?_, ?_, ?_⟩
    · rw [brvTransfer_damage]; exact hfl
    · show (brvTransfer _ _ ⌊fmul (fmul (fmul
        (fdiv scenarioPlayer.attack scenarioEnemy.defense) 2.0) 75) (damageRoll (1 / 2))⌋).self.brv = 1300
      rw [hfl]; exact hs
    · show (brvTransfer _ _ ⌊fmul (fmul (fmul
        (fdiv scenarioPlayer.attack scenarioEnemy.defense) 2.0) 75) (damageRoll (1 / 2))⌋).target.brv = 0
      rw [hfl]; exact ht
    · show (brvTransfer _ _ ⌊fmul (fmul (fmul
        (fdiv scenarioPlayer.attack scenarioEnemy.defense) 2.0) 75) (damageRoll (1 / 2))⌋).self.brv + (brvTransfer _ _ ⌊fmul (fmul (fmul
        (fdiv scenarioPlayer.attack scenarioEnemy.defense) 2.0) 75) (damageRoll (1 / 2))⌋).target.brv ≠ 1000 + 100
      rw [hfl, hs, ht]; norm_num

/-- Claim C18, amended. For every attacker, target (with `defense` not 0) and
draw, `brvAttack` leaves the attacker with `min maxBrv (brv + brvDamage)` and the
target with `max 0 (brv - brvDamage)`. When neither clamp applies, that is
`brvDamage ≤ target.brv` and `attacker.brv + brvDamage ≤ attacker.maxBrv`, the
attacker is left with `brv + brvDamage`, the target with `brv - brvDamage`, and
the sum of the two Bravery values is the same after `brvAttack` as before. -/
theorem brvAttack_zero_sum_unclamped (a t : Character) (rnd : ℚ) (hd : t.defense ≠ 0) :
    ∃ out, a.brvAttack t rnd = some out ∧
      out.self.brv = min a.maxBrv (a.brv + out.result.brvDamage) ∧
      out.target.brv = max 0 (t.brv - out.result.brvDamage) ∧
      (out.result.brvDamage ≤ t.brv → a.brv + out.result.brvDamage ≤ a.maxBrv →
        out.self.brv = a.brv + out.result.brvDamage ∧
        out.target.brv = t.brv - out.result.brvDamage ∧
        out.self.brv + out.target.brv = a.brv + t.brv) := by
  refine ⟨_, brvAttack_eq a t rnd hd, ?_, ?_, ?_⟩
  · rw [brvTransfer_self_brv, brvTransfer_damage]
  · rw [brvTransfer_target_brv, brvTransfer_damage]
  · rw [brvTransfer_self_brv, brvTransfer_target_brv, brvTransfer_damage]
    intro h1 h2
    rw [min_eq_right h2, max_eq_right (by linarith)]
    exact ⟨rfl, rfl, by ring⟩

/-- Scenario A is such a transfer: the player goes from 1000 to 1300, the enemy
from 800 to 500, and the sum is 1000 + 800 before and after. -/
theorem brvAttack_zero_sum_unclamped_witness :
    ∃ out, scenarioPlayer.brvAttack scenarioEnemy (1 / 2) = some out ∧
      out.self.brv = 1300 ∧ out.target.brv = 500 ∧
      out.self.brv + out.target.brv = 1000 + 800 := by
  have hd : scenarioEnemy.defense ≠ 0 := by norm_num [scenarioEnemy, Character.new]
  obtain ⟨out, h, _, _, hsum⟩ :=
    brvAttack_zero_sum_unclamped scenarioPlayer scenarioEnemy (1 / 2) hd
  have hout := h.symm.trans (brvAttack_eq scenarioPlayer scenarioEnemy (1 / 2) hd)
  rw [Option.some.injEq] at hout
  have hdmg : out.result.brvDamage = 300 := by
    rw [hout, brvTransfer_damage]
    exact brvDamage_60_30 _ _ rfl rfl
  rw [hdmg] at hsum
  obtain ⟨hs, ht, hst⟩ := hsum (by norm_num [scenarioEnemy, Character.new])
    (by norm_num [scenarioPlayer, Character.new])
  refine ⟨out, h, ?_, ?_, hst⟩
  · rw [hs]; norm_num [scenarioPlayer, Character.new]
  · rw [ht]; norm_num [scenarioEnemy, Character.new]
/-! ## One tick -/

theorem enemyTurn_idle {g : Game} (action rnd : ℚ) (h : g.enemy.canAct = false) :
    enemyTurn action rnd g = some g := by
  unfold enemyTurn
  simp [h]

theorem enemyTurn_act {g g1 : Game} {action rnd : ℚ} (hc : g.enemy.canAct = true)
    (hp : 0 < g.player.hp) (he : 0 < g.enemy.hp) (h1 : enemyAI action rnd g = some g1) :
    enemyTurn action rnd g = some { g1 with enemy := g1.enemy.consumeATB } := by
  unfold enemyTurn
  simp [hc, checkGameOver_of_alive g hp he, h1]

theorem autoTurn_idle {g : Game} (rnd : ℚ) (h : (g.autoMode && g.player.canAct) = false) :
    autoTurn rnd g = some g := by
  unfold autoTurn
  simp [h]

theorem autoTurn_act {g g1 : Game} {rnd : ℚ} (ha : g.autoMode = true)
    (hc : g.player.canAct = true) (hp : 0 < g.player.hp) (he : 0 < g.enemy.hp)
    (h1 : playerBrvAttack rnd g = some g1) :
    autoTurn rnd g = some { g1 with player := g1.player.consumeATB } := by
  unfold autoTurn
  simp [ha, hc, checkGameOver_of_alive g hp he, h1]

theorem gameLoop_idle {g : Game} (action rndEnemy rndPlayer : ℚ)
    (hp : g.player.updateATB.canAct = false) (he : g.enemy.updateATB.canAct = false) :
    gameLoop action rndEnemy rndPlayer g =
      some { g with player := g.player.updateATB, enemy := g.enemy.updateATB } :=
  gameLoop_of_turns (enemyTurn_idle action rndEnemy he)
    (autoTurn_idle rndPlayer (by simp [hp]))

theorem fadd_of_eq_nat (a b : ℚ) (n : ℕ) (h : a + b = n) (hn : n < 2 ^ 53) :
    fadd a b = n :=
  toDouble_of_eq_nat (a + b) n h hn

/-- The speed drawn with `Math.random() = 0` is 50. -/
theorem speed_draw_zero : fadd 50 (fmul 0 20) = 50 := by
  have h : fmul 0 20 = 0 := by
    unfold fmul
    rw [zero_mul, toDouble_zero]
  rw [h]
  have := fadd_of_eq_nat 50 0 50 (by norm_num) (by norm_num)
  simpa using this

/-- The speed drawn with `Math.random() = 0.5` is 60. -/
theorem speed_draw_half : fadd 50 (fmul (1 / 2) 20) = 60 := by
  have h : fmul (1 / 2) 20 = 10 := by
    unfold fmul
    have := toDouble_of_eq_nat (1 / 2 * 20) 10 (by norm_num) (by norm_num)
    simpa using this
  rw [h]
  have := fadd_of_eq_nat 50 10 60 (by norm_num) (by norm_num)
  simpa using this

theorem fadd_960_60 : fadd 960 60 = 1020 := by
  have := fadd_of_eq_nat 960 60 1020 (by norm_num) (by norm_num)
  simpa using this

theorem fadd_800_50 : fadd 800 50 = 850 := by
  have := fadd_of_eq_nat 800 50 850 (by norm_num) (by norm_num)
  simpa using this

theorem updateATB_hp (c : Character) : c.updateATB.hp = c.hp := by
  rw [updateATB_eq]

theorem updateATB_defense (c : Character) : c.updateATB.defense = c.defense := by
  rw [updateATB_eq]

theorem updateATB_attack (c : Character) : c.updateATB.attack = c.attack := by
  rw [updateATB_eq]

theorem updateATB_brv (c : Character) : c.updateATB.brv = c.brv := by
  rw [updateATB_eq]

theorem updateATB_maxBrv (c : Character) : c.updateATB.maxBrv = c.maxBrv := by
  rw [updateATB_eq]

theorem brvTransfer_target_atb (a t : Character) (d : ℤ) :
    (brvTransfer a t d).target.atb = t.atb := by
  rw [brvTransfer_target_eq]
  split_ifs <;> rfl

/-- A tick in auto mode in which the enemy is not ready and the player is: the
Bravery attack is performed once and `consumeATB` runs twice on the player. -/
theorem gameLoop_auto_player {g : Game} (action rndEnemy rndPlayer : ℚ)
    (he : g.enemy.updateATB.canAct = false) (ha : g.autoMode = true)
    (hc : g.player.updateATB.canAct = true) (hhp : 0 < g.player.hp) (hhe : 0 < g.enemy.hp)
    (hd : g.enemy.defense ≠ 0) :
    ∃ g' out, gameLoop action rndEnemy rndPlayer g = some g' ∧
      g.player.updateATB.brvAttack g.enemy.updateATB rndPlayer = some out ∧
      g'.player = out.self.consumeATB.consumeATB ∧ g'.enemy = out.target := by
  have hd' : g.enemy.updateATB.defense ≠ 0 := by rw [updateATB_defense]; exact hd
  have hout := brvAttack_eq g.player.updateATB g.enemy.updateATB rndPlayer hd'
  obtain ⟨g1, hg1, hp1, he1, _⟩ := @playerBrvAttack_of_brvAttack
    { g with player := g.player.updateATB, enemy := g.enemy.updateATB } _ _ hout
  have hauto := @autoTurn_act
    { g with player := g.player.updateATB, enemy := g.enemy.updateATB } _ _ ha hc
    (by rw [updateATB_hp]; exact hhp) (by rw [updateATB_hp]; exact hhe) hg1
  refine ⟨_, _, gameLoop_of_turns (enemyTurn_idle action rndEnemy he) hauto, hout, ?_, ?_⟩
  · show g1.player.consumeATB = _
    rw [hp1]
  · exact he1

/-- Claim C19 at a failing input. In auto mode with the player's gauge at 960
and speed 60, the enemy's at 800 and speed 50, one tick fills the gauges to 1020
and 850, the enemy does not act and keeps 850, the player performs one Bravery
attack of 300, and the player's gauge is left at `1020 - 2000 = -980`, not at
`1020 - 1000 = 20`: `consumeATB` has run in `playerBrvAttack` and again in
`gameLoop`. -/
theorem auto_tick_consumes_twice :
    ∃ g', gameLoop 0 (1 / 2) (1 / 2) autoReadyGame = some g' ∧
      autoReadyGame.player.updateATB.atb = 1020 ∧ autoReadyGame.enemy.updateATB.atb = 850 ∧
      g'.enemy.atb = 850 ∧ g'.player.brv = 1300 ∧ g'.enemy.brv = 500 ∧
      g'.player.atb = -980 ∧ g'.player.atb ≠ 1020 - 1000 := by
  have hpa : autoReadyGame.player.updateATB.atb = 1020 := by
    rw [updateATB_eq]
    norm_num [autoReadyGame, scenarioPlayer, Character.new, fadd_960_60]
  have hea : autoReadyGame.enemy.updateATB.atb = 850 := by
    rw [updateATB_eq]
    norm_num [autoReadyGame, scenarioEnemy, Character.new, speed_draw_zero, fadd_800_50]
  obtain ⟨g', out, hg', hout, hp, he⟩ := @gameLoop_auto_player autoReadyGame 0 (1 / 2) (1 / 2)
    (by simp [Character.canAct, hea]; norm_num)
    rfl
    (by simp [Character.canAct, hpa, updateATB_hp]
        norm_num [autoReadyGame, scenarioPlayer, Character.new])
    (by norm_num [autoReadyGame, scenarioPlayer, Character.new])
    (by norm_num [autoReadyGame, scenarioEnemy, Character.new])
    (by norm_num [autoReadyGame, scenarioEnemy, Character.new])
  have hd : autoReadyGame.enemy.updateATB.defense ≠ 0 := by
    rw [updateATB_defense]
    norm_num [autoReadyGame, scenarioEnemy, Character.new]
  have hout2 := hout.symm.trans
    (brvAttack_eq autoReadyGame.player.updateATB autoReadyGame.enemy.updateATB (1 / 2) hd)
  rw [Option.some.injEq] at hout2
  have hfl : ⌊fmul (fmul (fmul (fdiv autoReadyGame.player.updateATB.attack
      autoReadyGame.enemy.updateATB.defense) 2.0) 75) (damageRoll (1 / 2))⌋ = 300 :=
    brvDamage_60_30 _ _ (by rw [updateATB_attack]; rfl) (by rw [updateATB_defense]; rfl)
  rw [hfl] at hout2
  have hatb : g'.player.atb = -980 := by
    rw [hp, hout2]
    show (brvTransfer _ _ 300).self.atb - 1000 - 1000 = -980
    rw [brvTransfer_self_atb, hpa]
    norm_num
  refine ⟨g', hg', hpa, hea, ?_, ?_, ?_, hatb, by rw [hatb]; norm_num⟩
  · rw [he, hout2, brvTransfer_target_atb]
    exact hea
  · rw [hp, hout2, consumeATB_brv, consumeATB_brv, brvTransfer_self_brv, updateATB_brv,
      updateATB_maxBrv]
    norm_num [autoReadyGame, scenarioPlayer, Character.new]
  · rw [he, hout2, brvTransfer_target_brv, updateATB_brv]
    norm_num [autoReadyGame, scenarioEnemy, Character.new]

/-! ## The gauge over a battle -/

theorem autoBattle_player :
    autoBattle.player = Character.new "전사" 210 32 1000 1500 60 60 (1 / 2) := by
  simp [autoBattle, toggleAuto, initialGame, startGame, updateUI, log]

theorem autoBattle_enemy :
    autoBattle.enemy = Character.new "고블린" 150 20 800 1000 40 30 0 := by
  simp [autoBattle, toggleAuto, initialGame, startGame, updateUI, log]

theorem autoBattle_autoMode : autoBattle.autoMode = true := by
  simp [autoBattle, toggleAuto, initialGame, startGame, updateUI, log]

theorem idleBattle_zero : idleBattle 0 = autoBattle := by
  have hp : autoBattle.player.atb = 0 := by rw [autoBattle_player]; rfl
  have he : autoBattle.enemy.atb = 0 := by rw [autoBattle_enemy]; rfl
  have h60 : (60 : ℚ) * ((0 : ℕ) : ℚ) = autoBattle.player.atb := by rw [hp]; norm_num
  have h50 : (50 : ℚ) * ((0 : ℕ) : ℚ) = autoBattle.enemy.atb := by rw [he]; norm_num
  unfold idleBattle
  rw [h60, h50]

theorem idleBattle_step (action rndEnemy rndPlayer : ℚ) (k : ℕ) (hk : k < 16) :
    gameLoop action rndEnemy rndPlayer (idleBattle k) = some (idleBattle (k + 1)) := by
  have hk' : (k : ℚ) + 1 ≤ 16 := by exact_mod_cast hk
  have hp : (idleBattle k).player.updateATB =
      { autoBattle.player with atb := 60 * ((k + 1 : ℕ) : ℚ) } := by
    rw [updateATB_eq]
    have h1 : (idleBattle k).player.atb < 2000 := by
      show (60 : ℚ) * k < 2000
      linarith
    rw [if_pos h1]
    have hsp : autoBattle.player.speed = 60 := by
      rw [autoBattle_player]
      exact speed_draw_half
    have h2 : fadd (idleBattle k).player.atb (idleBattle k).player.speed =
        60 * ((k + 1 : ℕ) : ℚ) := by
      show fadd ((60 : ℚ) * k) autoBattle.player.speed = _
      rw [hsp, fadd_of_eq_nat (60 * k) 60 (60 * (k + 1)) (by push_cast; ring)
        (by norm_num; omega)]
      push_cast
      ring
    rw [h2, min_eq_left (by push_cast; linarith)]
    rfl
  have he : (idleBattle k).enemy.updateATB =
      { autoBattle.enemy with atb := 50 * ((k + 1 : ℕ) : ℚ) } := by
    rw [updateATB_eq]
    have h1 : (idleBattle k).enemy.atb < 2000 := by
      show (50 : ℚ) * k < 2000
      linarith
    rw [if_pos h1]
    have hsp : autoBattle.enemy.speed = 50 := by
      rw [autoBattle_enemy]
      exact speed_draw_zero
    have h2 : fadd (idleBattle k).enemy.atb (idleBattle k).enemy.speed =
        50 * ((k + 1 : ℕ) : ℚ) := by
      show fadd ((50 : ℚ) * k) autoBattle.enemy.speed = _
      rw [hsp, fadd_of_eq_nat (50 * k) 50 (50 * (k + 1)) (by push_cast; ring)
        (by norm_num; omega)]
      push_cast
      ring
    rw [h2, min_eq_left (by push_cast; linarith)]
    rfl
  rw [gameLoop_idle action rndEnemy rndPlayer
    (by rw [hp]; simp [Character.canAct]; intro h; linarith)
    (by rw [he]; simp [Character.canAct]; intro h; linarith), hp, he]
  rfl

theorem ticks_succ_of_step {g g' : Game} (action rndEnemy rndPlayer : ℚ) (n : ℕ)
    (h : gameLoop action rndEnemy rndPlayer g = some g') :
    ticks action rndEnemy rndPlayer (n + 1) g = ticks action rndEnemy rndPlayer n g' := by
  show (gameLoop action rndEnemy rndPlayer g).bind (ticks action rndEnemy rndPlayer n) = _
  rw [h, Option.some_bind]

theorem ticks_idleBattle (action rndEnemy rndPlayer : ℚ) (m : ℕ) :
    ∀ n k, k + n ≤ 16 →
      ticks action rndEnemy rndPlayer (n + m) (idleBattle k) =
        ticks action rndEnemy rndPlayer m (idleBattle (k + n)) := by
  intro n
  induction n with
  | zero =>
    intro k _
    rw [Nat.zero_add, Nat.add_zero]
  | succ n ih =>
    intro k hk
    have hstep := idleBattle_step action rndEnemy rndPlayer k (by omega)
    have h1 : n + 1 + m = (n + m) + 1 := by omega
    have h2 : k + (n + 1) = k + 1 + n := by omega
    rw [h1, ticks_succ_of_step action rndEnemy rndPlayer (n + m) hstep, ih (k + 1) (by omega), h2]

/-- Claim C16 at a failing input. From the start of the battle (speed draws 1/2
and 0, so speeds 60 and 50), after one click on the auto button and 17 ticks,
with no other player action, the player's gauge is at `-980`: the first 16 ticks
fill it to 960, the 17th fills it to 1020, the player acts, and `consumeATB` runs
twice. So `0 ≤ atb` does not hold in that reachable state. -/
theorem auto_battle_gauge_negative :
    ∃ g', ticks 0 (1 / 2) (1 / 2) 17 autoBattle = some g' ∧
      g'.player.atb = -980 ∧ ¬ (0 ≤ g'.player.atb) := by
  have hpl : (idleBattle 16).player = { autoBattle.player with atb := 960 } := by
    show ({ autoBattle.player with atb := 60 * ((16 : ℕ) : ℚ) } : Character) = _
    norm_num
  have hen : (idleBattle 16).enemy = { autoBattle.enemy with atb := 800 } := by
    show ({ autoBattle.enemy with atb := 50 * ((16 : ℕ) : ℚ) } : Character) = _
    norm_num
  have hpa : (idleBattle 16).player.updateATB.atb = 1020 := by
    rw [updateATB_eq, hpl, autoBattle_player]
    norm_num [Character.new, speed_draw_half, fadd_960_60]
  have hea : (idleBattle 16).enemy.updateATB.atb = 850 := by
    rw [updateATB_eq, hen, autoBattle_enemy]
    norm_num [Character.new, speed_draw_zero, fadd_800_50]
  obtain ⟨g', out, hg', hb, hp, _⟩ := @gameLoop_auto_player (idleBattle 16) 0 (1 / 2) (1 / 2)
    (by simp [Character.canAct, hea]; norm_num)
    autoBattle_autoMode
    (by simp [Character.canAct, hpa, updateATB_hp]
        rw [hpl, autoBattle_player]
        norm_num [Character.new])
    (by rw [hpl, autoBattle_player]; norm_num [Character.new])
    (by rw [hen, autoBattle_enemy]; norm_num [Character.new])
    (by rw [hen, autoBattle_enemy]; norm_num [Character.new])
  have hout : out.self.atb = (idleBattle 16).player.updateATB.atb := by
    have hd : (idleBattle 16).enemy.updateATB.defense ≠ 0 := by
      rw [updateATB_defense, hen, autoBattle_enemy]
      norm_num [Character.new]
    have := hb.symm.trans (brvAttack_eq _ _ _ hd)
    rw [Option.some.injEq] at this
    rw [this, brvTransfer_self_atb]
  have hatb : g'.player.atb = -980 := by
    rw [hp]
    show out.self.atb - 1000 - 1000 = -980
    rw [hout, hpa]
    norm_num
  refine ⟨g', ?_, hatb, by rw [hatb]; norm_num⟩
  have h17 := ticks_idleBattle 0 (1 / 2) (1 / 2) 1 16 0 (by norm_num)
  rw [idleBattle_zero] at h17
  rw [h17]
  show (gameLoop 0 (1 / 2) (1 / 2) (idleBattle (0 + 16))).bind (ticks 0 (1 / 2) (1 / 2) 0) = _
  rw [show (0 : ℕ) + 16 = 16 from rfl, hg']
  rfl

/-! ## Resources over a battle -/

theorem fadd_nonneg (a b : ℚ) (ha : 0 ≤ a) (hb : 0 ≤ b) : 0 ≤ fadd a b :=
  toDouble_nonneg _ (add_nonneg ha hb)

theorem fmul_nonneg (a b : ℚ) (ha : 0 ≤ a) (hb : 0 ≤ b) : 0 ≤ fmul a b :=
  toDouble_nonneg _ (mul_nonneg ha hb)

theorem fdiv_nonneg (a b : ℚ) (ha : 0 ≤ a) (hb : 0 ≤ b) : 0 ≤ fdiv a b :=
  toDouble_nonneg _ (div_nonneg ha hb)

theorem damageRoll_nonneg (rnd : ℚ) (hr : 0 ≤ rnd) : 0 ≤ damageRoll rnd :=
  fadd_nonneg _ _ (toDouble_nonneg _ (by norm_num))
    (fmul_nonneg _ _ hr (toDouble_nonneg _ (by norm_num)))

theorem damage_nonneg (a t : Character) (factor rnd : ℚ) (ha : 0 < a.attack)
    (ht : 0 < t.defense) (hf : 0 ≤ factor) (hr : 0 ≤ rnd) :
    0 ≤ ⌊fmul (fmul (fmul (fdiv a.attack t.defense) factor) 75) (damageRoll rnd)⌋ := by
  apply Int.floor_nonneg.mpr
  exact fmul_nonneg _ _ (fmul_nonneg _ _ (fmul_nonneg _ _
    (fdiv_nonneg _ _ (le_of_lt ha) (le_of_lt ht)) hf) (by norm_num)) (damageRoll_nonneg rnd hr)

theorem brvTransfer_sound (a t : Character) (d : ℤ) (hd : 0 ≤ d) (ha : a.Sound)
    (ht : t.Sound) : (brvTransfer a t d).self.Sound ∧ (brvTransfer a t d).target.Sound := by
  have hd' : (0 : ℚ) ≤ d := by exact_mod_cast hd
  obtain ⟨ha1, ha2, ha3, ha4, ha5, ha6, ha7, ha8, ha9⟩ := ha
  obtain ⟨ht1, ht2, ht3, ht4, ht5, ht6, ht7, ht8, ht9⟩ := ht
  constructor
  · rw [brvTransfer_self_eq]
    exact ⟨ha1, ha2, ha3, ha4, ha5, ha6, ha7, le_min (by linarith) (by linarith),
      min_le_left _ _⟩
  · rw [brvTransfer_target_eq]
    split_ifs with h
    · exact ⟨ht1, ht2, ht3, ht4, ht5, ht6, ht7, le_refl _, by
        show (0 : ℚ) ≤ t.maxBrv
        linarith⟩
    · exact ⟨ht1, ht2, ht3, ht4, ht5, ht6, ht7, le_of_lt (not_le.mp h), by
        show t.brv - d ≤ t.maxBrv
        linarith⟩

theorem brvAttack_sound {a t : Character} {rnd : ℚ} {out : BrvOutcome} (hr : 0 ≤ rnd)
    (ha : a.Sound) (ht : t.Sound) (h : a.brvAttack t rnd = some out) :
    out.self.Sound ∧ out.target.Sound := by
  rw [brvAttack_eq a t rnd (ne_of_gt ht.2.1), Option.some.injEq] at h
  subst h
  exact brvTransfer_sound a t _ (damage_nonneg a t 2.0 rnd ha.1 ht.2.1 (by norm_num) hr) ha ht

theorem hpAttack_sound {a t : Character} {out : HpOutcome} (ha : a.Sound) (ht : t.Sound)
    (h : a.hpAttack t = some out) : out.self.Sound ∧ out.target.Sound := by
  have hd1 : t.defense + 1 ≠ 0 := by linarith [ht.2.1]
  rw [hpAttack_eq a t hd1, Option.some.injEq] at h
  subst h
  obtain ⟨ha1, ha2, ha3, ha4, ha5, ha6, ha7, ha8, ha9⟩ := ha
  obtain ⟨ht1, ht2, ht3, ht4, ht5, ht6, ht7, ht8, ht9⟩ := ht
  have hdmg : (0 : ℚ) ≤ ((⌊fmul (fmul (fmul a.brv 0.25)
      (fdiv a.attack (fadd t.defense 1)))
      (if t.isBroken = true then 1.5 else 1.0)⌋ : ℤ) : ℚ) := by
    have : 0 ≤ ⌊fmul (fmul (fmul a.brv 0.25) (fdiv a.attack (fadd t.defense 1)))
        (if t.isBroken = true then 1.5 else 1.0)⌋ := by
      apply Int.floor_nonneg.mpr
      have h1 : 0 ≤ fdiv a.attack (fadd t.defense 1) :=
        fdiv_nonneg _ _ (le_of_lt ha1) (fadd_nonneg _ _ (le_of_lt ht2) (by norm_num))
      have h2 : (0 : ℚ) ≤ (if t.isBroken = true then 1.5 else 1.0) := by
        split_ifs <;> norm_num
      exact fmul_nonneg _ _ (fmul_nonneg _ _ (fmul_nonneg _ _ ha8 (by norm_num)) h1) h2
    exact_mod_cast this
  constructor
  · exact ⟨ha1, ha2, ha3, ha4, ha5, ha6, ha7, by norm_num, ha3⟩
  · refine ⟨ht1, ht2, ht3, le_max_left _ _, max_le (by linarith) (by linarith), ht6, ht7,
      ht8, ht9⟩

theorem updateATB_sound {c : Character} (h : c.Sound) : c.updateATB.Sound := by
  rw [updateATB_eq]
  exact h

theorem consumeATB_sound {c : Character} (h : c.Sound) : c.consumeATB.Sound := h

theorem playerBrvAttack_sound {g g' : Game} {rnd : ℚ} (hr : 0 ≤ rnd) (hs : g.Sound)
    (h : playerBrvAttack rnd g = some g') : g'.Sound := by
  obtain ⟨out, hout, hp, he, _⟩ := playerBrvAttack_inv h
  obtain ⟨h1, h2⟩ := brvAttack_sound hr hs.1 hs.2 hout
  exact ⟨by rw [hp]; exact consumeATB_sound h1, by rw [he]; exact h2⟩

theorem playerHpAttack_sound {g g' : Game} (hs : g.Sound) (h : playerHpAttack g = some g') :
    g'.Sound := by
  obtain ⟨out, hout, hp, he, _⟩ := playerHpAttack_inv h
  obtain ⟨h1, h2⟩ := hpAttack_sound hs.1 hs.2 hout
  exact ⟨by rw [hp]; exact consumeATB_sound h1, by rw [he]; exact h2⟩

theorem playerSkillAttack_sound {g g' : Game} {rnd : ℚ} (hr : 0 ≤ rnd) (hs : g.Sound)
    (h : playerSkillAttack rnd g = some g') : g'.Sound := by
  by_cases hmp : g.player.mp < 15
  · rw [playerSkillAttack_lt g rnd hmp, Option.some.injEq] at h
    subst h
    exact hs
  · have hd : g.enemy.defense ≠ 0 := ne_of_gt hs.2.2.1
    obtain ⟨g2, d, h2, hdmg, hp, he, _, _⟩ := playerSkillAttack_ge g rnd (not_lt.mp hmp) hd
    rw [h2, Option.some.injEq] at h
    subst h
    have hd0 : 0 ≤ d := by
      rw [hdmg]
      exact damage_nonneg g.player g.enemy 2.5 rnd hs.1.1 hs.2.2.1 (by norm_num) hr
    obtain ⟨h1, ht⟩ := brvTransfer_sound g.player g.enemy d hd0 hs.1 hs.2
    rw [brvTransfer_self_eq] at h1
    rw [brvTransfer_target_eq] at ht
    refine ⟨?_, by rw [he]; exact ht⟩
    rw [hp]
    obtain ⟨a1, a2, a3, a4, a5, a6, a7, a8, a9⟩ := h1
    exact ⟨a1, a2, a3, a4, a5, by
      show (0 : ℚ) ≤ g.player.mp - 15
      linarith [not_lt.mp hmp], by
      show g.player.mp - 15 ≤ g.player.maxMp
      linarith [show g.player.mp ≤ g.player.maxMp from a7], a8, a9⟩

theorem enemyAI_sound {g g' : Game} {action rnd : ℚ} (hr : 0 ≤ rnd) (hs : g.Sound)
    (h : enemyAI action rnd g = some g') : g'.Sound := by
  rcases enemyAI_inv h with ⟨_, out, hout, he, hp, _⟩ | ⟨_, out, hout, he, hp, _⟩
  · obtain ⟨h1, h2⟩ := brvAttack_sound hr hs.2 hs.1 hout
    exact ⟨by rw [hp]; exact h2, by rw [he]; exact h1⟩
  · obtain ⟨h1, h2⟩ := hpAttack_sound hs.2 hs.1 hout
    exact ⟨by rw [hp]; exact h2, by rw [he]; exact h1⟩

theorem enemyTurn_sound {g g' : Game} {action rnd : ℚ} (hr : 0 ≤ rnd) (hs : g.Sound)
    (h : enemyTurn action rnd g = some g') : g'.Sound := by
  rcases enemyTurn_inv h with ⟨hp, he, _, _⟩ | ⟨_, _, _, g1, hg1, hp, he, _⟩
  · exact ⟨by rw [hp]; exact hs.1, by rw [he]; exact hs.2⟩
  · have h1 := enemyAI_sound hr hs hg1
    exact ⟨by rw [hp]; exact h1.1, by rw [he]; exact consumeATB_sound h1.2⟩

theorem autoTurn_sound {g g' : Game} {rnd : ℚ} (hr : 0 ≤ rnd) (hs : g.Sound)
    (h : autoTurn rnd g = some g') : g'.Sound := by
  rcases autoTurn_inv h with ⟨hp, he, _, _⟩ | ⟨_, _, _, _, g1, hg1, hp, he, _⟩
  · exact ⟨by rw [hp]; exact hs.1, by rw [he]; exact hs.2⟩
  · have h1 := playerBrvAttack_sound hr hs hg1
    exact ⟨by rw [hp]; exact consumeATB_sound h1.1, by rw [he]; exact h1.2⟩

theorem gameLoop_sound {g g' : Game} {action rndEnemy rndPlayer : ℚ} (he : 0 ≤ rndEnemy)
    (hp : 0 ≤ rndPlayer) (hs : g.Sound)
    (h : gameLoop action rndEnemy rndPlayer g = some g') : g'.Sound := by
  obtain ⟨g1, h1, h2⟩ := gameLoop_inv h
  have h0 : ({ g with player := g.player.updateATB, enemy := g.enemy.updateATB } : Game).Sound :=
    ⟨updateATB_sound hs.1, updateATB_sound hs.2⟩
  exact autoTurn_sound hp (enemyTurn_sound he h0 h1) h2

theorem toggleAuto_sound {g : Game} (hs : g.Sound) : (toggleAuto g).Sound := by
  unfold toggleAuto
  simp only []
  split_ifs <;> exact hs

theorem initialGame_player_eq (rndPlayer rndEnemy : ℚ) :
    (initialGame rndPlayer rndEnemy).player =
      Character.new "전사" 210 32 1000 1500 60 60 rndPlayer := by
  simp [initialGame, startGame, updateUI, log]

theorem initialGame_enemy_eq (rndPlayer rndEnemy : ℚ) :
    (initialGame rndPlayer rndEnemy).enemy =
      Character.new "고블린" 150 20 800 1000 40 30 rndEnemy := by
  simp [initialGame, startGame, updateUI, log]

theorem initialGame_sound (rndPlayer rndEnemy : ℚ) : (initialGame rndPlayer rndEnemy).Sound := by
  constructor
  · rw [initialGame_player_eq]
    norm_num [Character.Sound, Character.inBounds, Character.new]
  · rw [initialGame_enemy_eq]
    norm_num [Character.Sound, Character.inBounds, Character.new]

theorem reachable_sound {g : Game} (h : Reachable g) : g.Sound := by
  induction h with
  | init rp re _ _ => exact initialGame_sound rp re
  | tick action re rp _ he hp _ h ih => exact gameLoop_sound he.1 hp.1 ih h
  | playerBrv rnd hr _ h ih => exact playerBrvAttack_sound hr.1 ih h
  | playerHp _ h ih => exact playerHpAttack_sound ih h
  | playerSkill rnd hr _ h ih => exact playerSkillAttack_sound hr.1 ih h
  | toggle _ ih => exact toggleAuto_sound ih

theorem playerBrvAttack_some {g : Game} (rnd : ℚ) (hs : g.Sound) :
    ∃ g', playerBrvAttack rnd g = some g' := by
  obtain ⟨g', h, _⟩ := playerBrvAttack_of_brvAttack
    (brvAttack_eq g.player g.enemy rnd (ne_of_gt hs.2.2.1))
  exact ⟨g', h⟩

theorem playerHpAttack_some {g : Game} (hs : g.Sound) : ∃ g', playerHpAttack g = some g' := by
  have hd : g.enemy.defense + 1 ≠ 0 := by linarith [hs.2.2.1]
  obtain ⟨g', h, _⟩ := playerHpAttack_of_hpAttack (hpAttack_eq g.player g.enemy hd)
  exact ⟨g', h⟩

theorem playerSkillAttack_some {g : Game} (rnd : ℚ) (hs : g.Sound) :
    ∃ g', playerSkillAttack rnd g = some g' := by
  by_cases hmp : g.player.mp < 15
  · exact ⟨g, playerSkillAttack_lt g rnd hmp⟩
  · obtain ⟨g', _, h, _⟩ := playerSkillAttack_ge g rnd (not_lt.mp hmp) (ne_of_gt hs.2.2.1)
    exact ⟨g', h⟩

theorem enemyAI_some {g : Game} (action rnd : ℚ) (hs : g.Sound) :
    ∃ g', enemyAI action rnd g = some g' := by
  by_cases hc : action < 0.4 ∨ g.enemy.brv < 300
  · obtain ⟨g', h, _⟩ := enemyAI_of_brvAttack hc
      (brvAttack_eq g.enemy g.player rnd (ne_of_gt hs.1.2.1))
    exact ⟨g', h⟩
  · have hd : g.player.defense + 1 ≠ 0 := by linarith [hs.1.2.1]
    obtain ⟨g', h, _⟩ := enemyAI_of_hpAttack hc (hpAttack_eq g.enemy g.player hd)
    exact ⟨g', h⟩

theorem enemyTurn_some {g : Game} (action rnd : ℚ) (hs : g.Sound) :
    ∃ g', enemyTurn action rnd g = some g' := by
  by_cases hc : g.enemy.canAct = true
  · by_cases ho : g.player.hp ≤ 0 ∨ g.enemy.hp ≤ 0
    · obtain ⟨g', h, _⟩ := enemyTurn_terminal g action rnd ho
      exact ⟨g', h⟩
    · rw [not_or, not_le, not_le] at ho
      obtain ⟨g1, h1⟩ := enemyAI_some action rnd hs
      exact ⟨_, enemyTurn_act hc ho.1 ho.2 h1⟩
  · exact ⟨g, enemyTurn_idle action rnd (by simpa using hc)⟩

theorem autoTurn_some {g : Game} (rnd : ℚ) (hs : g.Sound) :
    ∃ g', autoTurn rnd g = some g' := by
  by_cases hc : (g.autoMode && g.player.canAct) = true
  · by_cases ho : g.player.hp ≤ 0 ∨ g.enemy.hp ≤ 0
    · obtain ⟨g', h, _⟩ := autoTurn_terminal g rnd ho
      exact ⟨g', h⟩
    · rw [not_or, not_le, not_le] at ho
      rw [Bool.and_eq_true] at hc
      obtain ⟨g1, h1⟩ := playerBrvAttack_some rnd hs
      exact ⟨_, autoTurn_act hc.1 hc.2 ho.1 ho.2 h1⟩
  · exact ⟨g, autoTurn_idle rnd (by simpa using hc)⟩

theorem gameLoop_some {g : Game} (action rndEnemy rndPlayer : ℚ) (he : 0 ≤ rndEnemy)
    (hs : g.Sound) : ∃ g', gameLoop action rndEnemy rndPlayer g = some g' := by
  have h0 : ({ g with player := g.player.updateATB, enemy := g.enemy.updateATB } : Game).Sound :=
    ⟨updateATB_sound hs.1, updateATB_sound hs.2⟩
  obtain ⟨g1, h1⟩ := enemyTurn_some action rndEnemy h0
  obtain ⟨g2, h2⟩ := autoTurn_some rndPlayer (enemyTurn_sound he h0 h1)
  exact ⟨g2, gameLoop_of_turns h1 h2⟩

/-- Claim C17. In every state reachable from the start of the battle by ticks of
`gameLoop`, by calls of `playerBrvAttack`, `playerHpAttack` and
`playerSkillAttack` at any time and by clicks on the auto button, every draw
being in `[0, 1)` and so every damage multiplier in `[0.9, 1.1)`, both
combatants have `0 ≤ hp ≤ maxHp`, `0 ≤ mp ≤ maxMp` and `0 ≤ brv ≤ maxBrv`.
From such a state every tick and every player action returns a state. -/
theorem resources_in_bounds (g : Game) (h : Reachable g) :
    (0 ≤ g.player.hp ∧ g.player.hp ≤ g.player.maxHp ∧ 0 ≤ g.player.mp ∧
      g.player.mp ≤ g.player.maxMp ∧ 0 ≤ g.player.brv ∧ g.player.brv ≤ g.player.maxBrv) ∧
    (0 ≤ g.enemy.hp ∧ g.enemy.hp ≤ g.enemy.maxHp ∧ 0 ≤ g.enemy.mp ∧
      g.enemy.mp ≤ g.enemy.maxMp ∧ 0 ≤ g.enemy.brv ∧ g.enemy.brv ≤ g.enemy.maxBrv) ∧
    (∀ action rndEnemy rndPlayer, isDraw rndEnemy →
      ∃ g', gameLoop action rndEnemy rndPlayer g = some g') ∧
    (∀ rnd, ∃ g', playerBrvAttack rnd g = some g') ∧
    (∃ g', playerHpAttack g = some g') ∧
    (∀ rnd, ∃ g', playerSkillAttack rnd g = some g') := by
  have hs := reachable_sound h
  exact ⟨hs.1.2.2.2, hs.2.2.2.2,
    fun action re rp hre => gameLoop_some action re rp hre.1 hs,
    fun rnd => playerBrvAttack_some rnd hs, playerHpAttack_some hs,
    fun rnd => playerSkillAttack_some rnd hs⟩

/-- An HP attack by the player at the start of the battle leads to a reachable
state, in which the enemy's hit points are within `[0, maxHp]` and the player's
Bravery within `[0, maxBrv]`. -/
theorem resources_in_bounds_witness :
    ∃ g', playerHpAttack (initialGame 0 0) = some g' ∧ Reachable g' ∧
      0 ≤ g'.enemy.hp ∧ g'.enemy.hp ≤ g'.enemy.maxHp ∧
      0 ≤ g'.player.brv ∧ g'.player.brv ≤ g'.player.maxBrv := by
  have h0 : isDraw 0 := ⟨le_refl _, by norm_num⟩
  obtain ⟨g', hg'⟩ := playerHpAttack_some (initialGame_sound 0 0)
  have hr : Reachable g' := Reachable.playerHp (Reachable.init 0 0 h0 h0) hg'
  obtain ⟨⟨_, _, _, _, hb0, hb1⟩, ⟨hh0, hh1, _⟩, _⟩ := resources_in_bounds g' hr
  exact ⟨g', hg', hr, hh0, hh1, hb0, hb1⟩

/-! ## Consecutive enemy turns -/

theorem run_reachable {g : Game} {last : Option EnemyMove} (h : Run g last) : Reachable g := by
  induction h with
  | init rp re hp he => exact Reachable.init rp re hp he
  | tick action re rp ha he hp _ h ih => exact Reachable.tick action re rp ha he hp ih h
  | playerBrv rnd hr _ h ih => exact Reachable.playerBrv rnd hr ih h
  | playerHp _ h ih => exact Reachable.playerHp ih h
  | playerSkill rnd hr _ h ih => exact Reachable.playerSkill rnd hr ih h
  | toggle _ ih => exact Reachable.toggle ih

theorem enemyMove_of_idle (action : ℚ) (g : Game)
    (h : g.enemy.updateATB.canAct = false ∨ g.player.hp ≤ 0 ∨ g.enemy.hp ≤ 0) :
    enemyMove action g = none := by
  unfold enemyMove
  simp only []
  rcases h with h | h
  · simp [h]
  · have ho : (checkGameOver
        { g with player := g.player.updateATB, enemy := g.enemy.updateATB }).1 = true := by
      rw [checkGameOver_fst]
      simpa [updateATB_hp] using h
    simp [ho]

theorem enemyMove_of_act (action : ℚ) (g : Game) (hc : g.enemy.updateATB.canAct = true)
    (hp : 0 < g.player.hp) (he : 0 < g.enemy.hp) :
    enemyMove action g =
      if action < 0.4 ∨ g.enemy.brv < 300 then some EnemyMove.brvAttack
      else some EnemyMove.hpAttack := by
  unfold enemyMove
  simp only []
  rw [checkGameOver_of_alive _ (by rw [updateATB_hp]; exact hp)
    (by rw [updateATB_hp]; exact he)]
  simp [hc, updateATB_brv]

theorem enemyMove_ne_hpAttack (action : ℚ) (g : Game) (h : g.enemy.brv < 300) :
    enemyMove action g ≠ some EnemyMove.hpAttack := by
  unfold enemyMove
  simp only []
  split_ifs with h1 h2
  · simp
  · exact absurd (Or.inr (by rw [updateATB_brv]; exact h)) h2
  · simp

theorem brvTransfer_target_brv_le (a t : Character) (d : ℤ) (hd : 0 ≤ d) (ht : 0 ≤ t.brv) :
    (brvTransfer a t d).target.brv ≤ t.brv := by
  have hd' : (0 : ℚ) ≤ d := by exact_mod_cast hd
  rw [brvTransfer_target_brv]
  exact max_le ht (by linarith)

theorem playerBrvAttack_enemy_brv {g g' : Game} {rnd : ℚ} (hr : 0 ≤ rnd) (hs : g.Sound)
    (h : playerBrvAttack rnd g = some g') :
    g'.enemy.brv ≤ g.enemy.brv ∧ g'.player.hp = g.player.hp := by
  obtain ⟨out, hout, hp, he, _⟩ := playerBrvAttack_inv h
  rw [brvAttack_eq g.player g.enemy rnd (ne_of_gt hs.2.2.1), Option.some.injEq] at hout
  subst hout
  constructor
  · rw [he]
    exact brvTransfer_target_brv_le _ _ _
      (damage_nonneg g.player g.enemy 2.0 rnd hs.1.1 hs.2.2.1 (by norm_num) hr)
      hs.2.2.2.2.2.2.2.2.1
  · rw [hp]
    show (brvTransfer g.player g.enemy _).self.hp = g.player.hp
    rw [brvTransfer_self_eq]

theorem playerHpAttack_enemy_brv {g g' : Game} (h : playerHpAttack g = some g') :
    g'.enemy.brv = g.enemy.brv := by
  obtain ⟨out, hout, _, he, _⟩ := playerHpAttack_inv h
  by_cases hd : g.enemy.defense + 1 = 0
  · have h0 : fadd g.enemy.defense 1 = 0 := by unfold fadd; rw [hd]; exact toDouble_zero
    simp [Character.hpAttack, h0] at hout
  · rw [hpAttack_eq g.player g.enemy hd, Option.some.injEq] at hout
    subst hout
    rw [he]

theorem playerSkillAttack_enemy_brv {g g' : Game} {rnd : ℚ} (hr : 0 ≤ rnd) (hs : g.Sound)
    (h : playerSkillAttack rnd g = some g') : g'.enemy.brv ≤ g.enemy.brv := by
  by_cases hmp : g.player.mp < 15
  · rw [playerSkillAttack_lt g rnd hmp, Option.some.injEq] at h
    subst h
    exact le_refl _
  · obtain ⟨g2, d, h2, hdmg, _, he, _, _⟩ :=
      playerSkillAttack_ge g rnd (not_lt.mp hmp) (ne_of_gt hs.2.2.1)
    rw [h2, Option.some.injEq] at h
    subst h
    have hd0 : 0 ≤ d := by
      rw [hdmg]
      exact damage_nonneg g.player g.enemy 2.5 rnd hs.1.1 hs.2.2.1 (by norm_num) hr
    rw [he, ← brvTransfer_target_eq g.player g.enemy d]
    exact brvTransfer_target_brv_le _ _ _ hd0 hs.2.2.2.2.2.2.2.2.1

theorem toggleAuto_enemy (g : Game) : (toggleAuto g).enemy = g.enemy := by
  unfold toggleAuto
  simp only []
  split_ifs <;> rfl

theorem toggleAuto_player (g : Game) : (toggleAuto g).player = g.player := by
  unfold toggleAuto
  simp only []
  split_ifs <;> rfl

/-- The effect of one tick on the enemy's Bravery and on the player's hit
points, by what the enemy does in the tick. -/
theorem gameLoop_enemy_brv {g g' : Game} {action rndEnemy rndPlayer : ℚ} (he : 0 ≤ rndEnemy)
    (hp : 0 ≤ rndPlayer) (hs : g.Sound)
    (h : gameLoop action rndEnemy rndPlayer g = some g') :
    (enemyMove action g = some EnemyMove.hpAttack → g'.enemy.brv ≤ 100) ∧
    (enemyMove action g ≠ some EnemyMove.hpAttack → g'.player.hp = g.player.hp) ∧
    (enemyMove action g = none → g'.enemy.brv ≤ g.enemy.brv) := by
  obtain ⟨g1, h1, h2⟩ := gameLoop_inv h
  have h0 : ({ g with player := g.player.updateATB, enemy := g.enemy.updateATB } : Game).Sound :=
    ⟨updateATB_sound hs.1, updateATB_sound hs.2⟩
  have hs1 : g1.Sound := enemyTurn_sound he h0 h1
  have hauto : g'.enemy.brv ≤ g1.enemy.brv ∧ g'.player.hp = g1.player.hp := by
    rcases autoTurn_inv h2 with ⟨hpl, hen, _, _⟩ | ⟨_, _, _, _, g2, hg2, hpl, hen, _⟩
    · exact ⟨by rw [hen], by rw [hpl]⟩
    · obtain ⟨hb, hh⟩ := playerBrvAttack_enemy_brv hp hs1 hg2
      exact ⟨by rw [hen]; exact hb, by rw [hpl]; exact hh⟩
  rcases enemyTurn_inv h1 with ⟨hpl, hen, _, hidle⟩ | ⟨hc, hph, heh, g2, hg2, hpl, hen, _⟩
  · have hmove : enemyMove action g = none :=
      enemyMove_of_idle action g (by simpa [updateATB_hp] using hidle)
    refine ⟨fun hm => ?_, fun _ => ?_, fun _ => ?_⟩
    · rw [hmove] at hm
      exact absurd hm (by simp)
    · rw [hauto.2, hpl]
      exact updateATB_hp _
    · refine le_trans hauto.1 ?_
      rw [hen]
      exact le_of_eq (updateATB_brv _)
  · have hph' : 0 < g.player.hp := by simpa [updateATB_hp] using hph
    have heh' : 0 < g.enemy.hp := by simpa [updateATB_hp] using heh
    have hmove := enemyMove_of_act action g hc hph' heh'
    rcases enemyAI_inv hg2 with ⟨hcond, out, hout, hen2, hpl2, _⟩ | ⟨hcond, out, hout, hen2, hpl2, _⟩
    · have hcond' : action < 0.4 ∨ g.enemy.brv < 300 := by
        simpa [updateATB_brv] using hcond
      rw [if_pos hcond'] at hmove
      refine ⟨fun hm => ?_, fun _ => ?_, fun hm => ?_⟩
      · rw [hmove] at hm
        exact absurd hm (by simp)
      · rw [hauto.2, hpl, hpl2]
        have hd : g.player.updateATB.defense ≠ 0 := ne_of_gt h0.1.2.1
        rw [brvAttack_eq _ _ _ hd, Option.some.injEq] at hout
        subst hout
        show (brvTransfer _ g.player.updateATB _).target.hp = g.player.hp
        rw [brvTransfer_target_hp]
        exact updateATB_hp _
      · rw [hmove] at hm
        exact absurd hm (by simp)
    · have hcond' : ¬ (action < 0.4 ∨ g.enemy.brv < 300) := by
        simpa [updateATB_brv] using hcond
      rw [if_neg hcond'] at hmove
      refine ⟨fun _ => ?_, fun hm => absurd hmove hm, fun hm => ?_⟩
      · refine le_trans hauto.1 ?_
        rw [hen, hen2]
        have hd : g.player.updateATB.defense + 1 ≠ 0 := by linarith [h0.1.2.1]
        rw [hpAttack_eq _ _ hd, Option.some.injEq] at hout
        subst hout
        exact le_refl _
      · rw [hmove] at hm
        exact absurd hm (by simp)

theorem run_enemy_brv {g : Game} {last : Option EnemyMove} (h : Run g last) :
    last = some EnemyMove.hpAttack → g.enemy.brv ≤ 100 := by
  induction h with
  | init rp re _ _ => intro hl; exact absurd hl (by simp)
  | @tick g g' last action re rp _ he hp hg h ih =>
    intro hl
    have hs := reachable_sound (run_reachable hg)
    obtain ⟨h1, _, h3⟩ := gameLoop_enemy_brv he.1 hp.1 hs h
    cases hm : enemyMove action g with
    | none =>
      rw [hm] at hl
      exact le_trans (h3 hm) (ih hl)
    | some m =>
      rw [hm] at hl
      have : m = EnemyMove.hpAttack := by simpa using hl
      subst this
      exact h1 hm
  | playerBrv rnd hr hg h ih =>
    intro hl
    exact le_trans (playerBrvAttack_enemy_brv hr.1 (reachable_sound (run_reachable hg)) h).1
      (ih hl)
  | playerHp hg h ih =>
    intro hl
    rw [playerHpAttack_enemy_brv h]
    exact ih hl
  | playerSkill rnd hr hg h ih =>
    intro hl
    exact le_trans (playerSkillAttack_enemy_brv hr.1 (reachable_sound (run_reachable hg)) h)
      (ih hl)
  | toggle hg ih =>
    intro hl
    rw [toggleAuto_enemy]
    exact ih hl

/-- Claim C20. In every run from the start of the battle, in a state whose latest
enemy turn took the HP branch the enemy holds at most 100 Bravery, so that
`enemyMove` is not the HP branch for any draw: the next enemy turn takes the
Bravery branch. In any state of a run: a tick in which the enemy takes the HP
branch leaves `enemy.brv ≤ 100`, a tick in which it does not leaves the player's
hit points as they were, a tick in which it does nothing does not increase
`enemy.brv`, and no player action increases `enemy.brv`. -/
theorem enemy_hp_never_twice (g : Game) (last : Option EnemyMove) (h : Run g last) :
    (last = some EnemyMove.hpAttack →
      g.enemy.brv ≤ 100 ∧ g.enemy.brv < 300 ∧
        ∀ action, enemyMove action g ≠ some EnemyMove.hpAttack) ∧
    (∀ action rndEnemy rndPlayer g', isDraw rndEnemy → isDraw rndPlayer →
      gameLoop action rndEnemy rndPlayer g = some g' →
        (enemyMove action g = some EnemyMove.hpAttack → g'.enemy.brv ≤ 100) ∧
        (enemyMove action g ≠ some EnemyMove.hpAttack → g'.player.hp = g.player.hp) ∧
        (enemyMove action g = none → g'.enemy.brv ≤ g.enemy.brv)) ∧
    (∀ rnd g', isDraw rnd → playerBrvAttack rnd g = some g' → g'.enemy.brv ≤ g.enemy.brv) ∧
    (∀ g', playerHpAttack g = some g' → g'.enemy.brv = g.enemy.brv) ∧
    (∀ rnd g', isDraw rnd → playerSkillAttack rnd g = some g' →
      g'.enemy.brv ≤ g.enemy.brv) ∧
    (toggleAuto g).enemy.brv = g.enemy.brv := by
  have hs := reachable_sound (run_reachable h)
  refine ⟨fun hl => ?_, fun action re rp g' hre hrp hg' => gameLoop_enemy_brv hre.1 hrp.1 hs hg',
    fun rnd g' hr hg' => (playerBrvAttack_enemy_brv hr.1 hs hg').1,
    fun g' hg' => playerHpAttack_enemy_brv hg',
    fun rnd g' hr hg' => playerSkillAttack_enemy_brv hr.1 hs hg', by rw [toggleAuto_enemy]⟩
  have h100 := run_enemy_brv h hl
  have h300 : g.enemy.brv < 300 := by linarith
  exact ⟨h100, h300, fun action => enemyMove_ne_hpAttack action g h300⟩

theorem enemyFirstBattle_zero : enemyFirstBattle 0 = initialGame 0 (1 / 2) := by
  have hp : (initialGame 0 (1 / 2)).player.atb = 0 := by rw [initialGame_player_eq]; rfl
  have he : (initialGame 0 (1 / 2)).enemy.atb = 0 := by rw [initialGame_enemy_eq]; rfl
  have h50 : (50 : ℚ) * ((0 : ℕ) : ℚ) = (initialGame 0 (1 / 2)).player.atb := by
    rw [hp]; norm_num
  have h60 : (60 : ℚ) * ((0 : ℕ) : ℚ) = (initialGame 0 (1 / 2)).enemy.atb := by
    rw [he]; norm_num
  unfold enemyFirstBattle
  rw [h50, h60]

theorem enemyFirstBattle_update (k : ℕ) (hk : k ≤ 16) :
    (enemyFirstBattle k).player.updateATB =
        { (initialGame 0 (1 / 2)).player with atb := 50 * ((k + 1 : ℕ) : ℚ) } ∧
      (enemyFirstBattle k).enemy.updateATB =
        { (initialGame 0 (1 / 2)).enemy with atb := 60 * ((k + 1 : ℕ) : ℚ) } := by
  have hk' : (k : ℚ) ≤ 16 := by exact_mod_cast hk
  constructor
  · rw [updateATB_eq]
    have h1 : (enemyFirstBattle k).player.atb < 2000 := by
      show (50 : ℚ) * k < 2000
      linarith
    rw [if_pos h1]
    have hsp : (initialGame 0 (1 / 2)).player.speed = 50 := by
      rw [initialGame_player_eq]
      exact speed_draw_zero
    have h2 : fadd (enemyFirstBattle k).player.atb (enemyFirstBattle k).player.speed =
        50 * ((k + 1 : ℕ) : ℚ) := by
      show fadd ((50 : ℚ) * k) (initialGame 0 (1 / 2)).player.speed = _
      rw [hsp, fadd_of_eq_nat (50 * k) 50 (50 * (k + 1)) (by push_cast; ring)
        (by norm_num; omega)]
      push_cast
      ring
    rw [h2, min_eq_left (by push_cast; linarith)]
    rfl
  · rw [updateATB_eq]
    have h1 : (enemyFirstBattle k).enemy.atb < 2000 := by
      show (60 : ℚ) * k < 2000
      linarith
    rw [if_pos h1]
    have hsp : (initialGame 0 (1 / 2)).enemy.speed = 60 := by
      rw [initialGame_enemy_eq]
      exact speed_draw_half
    have h2 : fadd (enemyFirstBattle k).enemy.atb (enemyFirstBattle k).enemy.speed =
        60 * ((k + 1 : ℕ) : ℚ) := by
      show fadd ((60 : ℚ) * k) (initialGame 0 (1 / 2)).enemy.speed = _
      rw [hsp, fadd_of_eq_nat (60 * k) 60 (60 * (k + 1)) (by push_cast; ring)
        (by norm_num; omega)]
      push_cast
      ring
    rw [h2, min_eq_left (by push_cast; linarith)]
    rfl

theorem enemyFirstBattle_run (k : ℕ) (hk : k ≤ 16) : Run (enemyFirstBattle k) none := by
  have h0 : isDraw 0 := ⟨le_refl _, by norm_num⟩
  have h12 : isDraw (1 / 2) := ⟨by norm_num, by norm_num⟩
  induction k with
  | zero =>
    rw [enemyFirstBattle_zero]
    exact Run.init 0 (1 / 2) h0 h12
  | succ k ih =>
    have hrun := ih (by omega)
    obtain ⟨hp, he⟩ := enemyFirstBattle_update k (by omega)
    have hk' : (k : ℚ) + 1 ≤ 16 := by exact_mod_cast hk
    have hpc : (enemyFirstBattle k).player.updateATB.canAct = false := by
      rw [hp]; simp [Character.canAct]; intro h; linarith
    have hec : (enemyFirstBattle k).enemy.updateATB.canAct = false := by
      rw [he]; simp [Character.canAct]; intro h; linarith
    have hstep : gameLoop 0 (1 / 2) (1 / 2) (enemyFirstBattle k) =
        some (enemyFirstBattle (k + 1)) := by
      rw [gameLoop_idle 0 (1 / 2) (1 / 2) hpc hec, hp, he]
      rfl
    have hmove : enemyMove 0 (enemyFirstBattle k) = none :=
      enemyMove_of_idle 0 _ (Or.inl hec)
    have := Run.tick 0 (1 / 2) (1 / 2) h0 h12 h12 hrun hstep
    rw [hmove] at this
    exact this

/-- A run in which the enemy has just taken the HP branch: the enemy fills its
gauge by 60 a tick and the player by 50, nobody acts in the first 16 ticks, and
in the 17th the enemy, holding 800 Bravery, draws 0.9. In the state reached the
enemy holds at most 100 Bravery and the HP branch is excluded for every
draw. -/
theorem enemy_hp_never_twice_witness :
    ∃ g, gameLoop 0.9 (1 / 2) (1 / 2) (enemyFirstBattle 16) = some g ∧
      Run g (some EnemyMove.hpAttack) ∧ g.enemy.brv ≤ 100 ∧
      ∀ action, enemyMove action g ≠ some EnemyMove.hpAttack := by
  have h12 : isDraw (1 / 2) := ⟨by norm_num, by norm_num⟩
  have h09 : isDraw 0.9 := ⟨by norm_num, by norm_num⟩
  have hrun := enemyFirstBattle_run 16 (le_refl _)
  have hs := reachable_sound (run_reachable hrun)
  obtain ⟨g, hg⟩ := gameLoop_some 0.9 (1 / 2) (1 / 2) h12.1 hs
  obtain ⟨_, he⟩ := enemyFirstBattle_update 16 (le_refl _)
  have hpl : (enemyFirstBattle 16).player = { (initialGame 0 (1 / 2)).player with atb := 800 } := by
    show ({ (initialGame 0 (1 / 2)).player with atb := 50 * ((16 : ℕ) : ℚ) } : Character) = _
    norm_num
  have hen : (enemyFirstBattle 16).enemy = { (initialGame 0 (1 / 2)).enemy with atb := 960 } := by
    show ({ (initialGame 0 (1 / 2)).enemy with atb := 60 * ((16 : ℕ) : ℚ) } : Character) = _
    norm_num
  have hmove : enemyMove 0.9 (enemyFirstBattle 16) = some EnemyMove.hpAttack := by
    rw [enemyMove_of_act 0.9 _
      (by rw [he, initialGame_enemy_eq]; simp [Character.canAct, Character.new]; norm_num)
      (by rw [hpl, initialGame_player_eq]; norm_num [Character.new])
      (by rw [hen, initialGame_enemy_eq]; norm_num [Character.new])]
    rw [if_neg]
    rw [hen, initialGame_enemy_eq]
    norm_num [Character.new]
  have hrun' := Run.tick 0.9 (1 / 2) (1 / 2) h09 h12 h12 hrun hg
  rw [hmove] at hrun'
  have hrun'' : Run g (some EnemyMove.hpAttack) := hrun'
  obtain ⟨h100, _, hnext⟩ := (enemy_hp_never_twice g _ hrun'').1 rfl
  exact ⟨g, hg, hrun'', h100, hnext⟩

/-! ## The gauge in a battle played by hand -/

theorem updateATB_gaugeOk {c : Character} (h : c.gaugeOk) : c.updateATB.gaugeOk := by
  obtain ⟨h0, h1, hs⟩ := h
  rw [updateATB_eq]
  refine ⟨?_, ?_, hs⟩
  · show (0 : ℚ) ≤ if c.atb < 2000 then min (fadd c.atb c.speed) 2000 else c.atb
    split_ifs
    · exact le_min (fadd_nonneg _ _ h0 hs) (by norm_num)
    · exact h0
  · show (if c.atb < 2000 then min (fadd c.atb c.speed) 2000 else c.atb) ≤ 2000
    split_ifs
    · exact min_le_right _ _
    · exact h1

theorem consumeATB_gaugeOk {c : Character} (h : c.gaugeOk) (hc : c.canAct = true) :
    c.consumeATB.gaugeOk := by
  obtain ⟨_, h1, hs⟩ := h
  have hc' : 1000 ≤ c.atb := by
    simp [Character.canAct] at hc
    exact hc.1
  exact ⟨by show (0 : ℚ) ≤ c.atb - 1000; linarith, by show c.atb - 1000 ≤ 2000; linarith, hs⟩

theorem brvAttack_gauge {a t : Character} {rnd : ℚ} {out : BrvOutcome}
    (h : a.brvAttack t rnd = some out) :
    out.self.atb = a.atb ∧ out.self.speed = a.speed ∧ out.self.hp = a.hp ∧
      out.target.atb = t.atb ∧ out.target.speed = t.speed := by
  by_cases hd : t.defense = 0
  · simp [Character.brvAttack, hd] at h
  · rw [brvAttack_eq a t rnd hd, Option.some.injEq] at h
    subst h
    rw [brvTransfer_self_eq, brvTransfer_target_eq]
    refine ⟨rfl, rfl, rfl, ?_, ?_⟩ <;> split_ifs <;> rfl

theorem hpAttack_gauge {a t : Character} {out : HpOutcome} (h : a.hpAttack t = some out) :
    out.self.atb = a.atb ∧ out.self.speed = a.speed ∧ out.self.hp = a.hp ∧
      out.target.atb = t.atb ∧ out.target.speed = t.speed := by
  by_cases hd : t.defense + 1 = 0
  · have h0 : fadd t.defense 1 = 0 := by unfold fadd; rw [hd]; exact toDouble_zero
    simp [Character.hpAttack, h0] at h
  · rw [hpAttack_eq a t hd, Option.some.injEq] at h
    subst h
    exact ⟨rfl, rfl, rfl, rfl, rfl⟩

theorem gaugeOk_of_eq {c c' : Character} (h : c.gaugeOk) (ha : c'.atb = c.atb)
    (hs : c'.speed = c.speed) : c'.gaugeOk := by
  unfold Character.gaugeOk
  rw [ha, hs]
  exact h

theorem canAct_of_eq {c c' : Character} (h : c.canAct = true) (ha : c'.atb = c.atb)
    (hh : c'.hp = c.hp) : c'.canAct = true := by
  unfold Character.canAct at h ⊢
  rw [ha, hh]
  exact h

theorem playerBrvAttack_gauge {g g' : Game} {rnd : ℚ} (hp : g.player.gaugeOk)
    (he : g.enemy.gaugeOk) (hc : g.player.canAct = true)
    (h : playerBrvAttack rnd g = some g') :
    g'.player.gaugeOk ∧ g'.enemy.gaugeOk ∧ g'.autoMode = g.autoMode := by
  obtain ⟨out, hout, hpl, hen, ha⟩ := playerBrvAttack_inv h
  obtain ⟨h1, h2, h3, h4, h5⟩ := brvAttack_gauge hout
  refine ⟨?_, ?_, ha⟩
  · rw [hpl]
    exact consumeATB_gaugeOk (gaugeOk_of_eq hp h1 h2) (canAct_of_eq hc h1 h3)
  · rw [hen]
    exact gaugeOk_of_eq he h4 h5

theorem playerHpAttack_gauge {g g' : Game} (hp : g.player.gaugeOk) (he : g.enemy.gaugeOk)
    (hc : g.player.canAct = true) (h : playerHpAttack g = some g') :
    g'.player.gaugeOk ∧ g'.enemy.gaugeOk ∧ g'.autoMode = g.autoMode := by
  obtain ⟨out, hout, hpl, hen, ha⟩ := playerHpAttack_inv h
  obtain ⟨h1, h2, h3, h4, h5⟩ := hpAttack_gauge hout
  refine ⟨?_, ?_, ha⟩
  · rw [hpl]
    exact consumeATB_gaugeOk (gaugeOk_of_eq hp h1 h2) (canAct_of_eq hc h1 h3)
  · rw [hen]
    exact gaugeOk_of_eq he h4 h5

theorem playerSkillAttack_gauge {g g' : Game} {rnd : ℚ} (hp : g.player.gaugeOk)
    (he : g.enemy.gaugeOk) (hc : g.player.canAct = true)
    (h : playerSkillAttack rnd g = some g') :
    g'.player.gaugeOk ∧ g'.enemy.gaugeOk ∧ g'.autoMode = g.autoMode := by
  by_cases hmp : g.player.mp < 15
  · rw [playerSkillAttack_lt g rnd hmp, Option.some.injEq] at h
    subst h
    exact ⟨hp, he, rfl⟩
  · by_cases hd : g.enemy.defense = 0
    · simp [playerSkillAttack, hmp, hd] at h
    · obtain ⟨g2, d, h2, _, hpl, hen, ha, _⟩ := playerSkillAttack_ge g rnd (not_lt.mp hmp) hd
      rw [h2, Option.some.injEq] at h
      subst h
      have hc' : 1000 ≤ g.player.atb := by
        simp [Character.canAct] at hc
        exact hc.1
      refine ⟨?_, ?_, ha⟩
      · rw [hpl]
        exact ⟨by show (0 : ℚ) ≤ g.player.atb - 1000; linarith,
          by show g.player.atb - 1000 ≤ 2000; linarith [hp.2.1], hp.2.2⟩
      · rw [hen]
        split_ifs <;> exact he

theorem gameLoop_gauge_manual {g g' : Game} {action rndEnemy rndPlayer : ℚ}
    (hp : g.player.gaugeOk) (he : g.enemy.gaugeOk) (hauto : g.autoMode = false)
    (h : gameLoop action rndEnemy rndPlayer g = some g') :
    g'.player.gaugeOk ∧ g'.enemy.gaugeOk ∧ g'.autoMode = false := by
  obtain ⟨g1, h1, h2⟩ := gameLoop_inv h
  have hp0 := updateATB_gaugeOk hp
  have he0 := updateATB_gaugeOk he
  have hg1 : g1.player.gaugeOk ∧ g1.enemy.gaugeOk ∧ g1.autoMode = false := by
    rcases enemyTurn_inv h1 with ⟨hpl, hen, ha, _⟩ | ⟨hc, _, _, g2, hg2, hpl, hen, ha⟩
    · exact ⟨by rw [hpl]; exact hp0, by rw [hen]; exact he0, by rw [ha]; exact hauto⟩
    · rcases enemyAI_inv hg2 with ⟨_, out, hout, hen2, hpl2, ha2⟩ | ⟨_, out, hout, hen2, hpl2, ha2⟩
      · obtain ⟨a1, a2, a3, a4, a5⟩ := brvAttack_gauge hout
        refine ⟨?_, ?_, by rw [ha, ha2]; exact hauto⟩
        · rw [hpl, hpl2]
          exact gaugeOk_of_eq hp0 a4 a5
        · rw [hen, hen2]
          exact consumeATB_gaugeOk (gaugeOk_of_eq he0 a1 a2) (canAct_of_eq hc a1 a3)
      · obtain ⟨a1, a2, a3, a4, a5⟩ := hpAttack_gauge hout
        refine ⟨?_, ?_, by rw [ha, ha2]; exact hauto⟩
        · rw [hpl, hpl2]
          exact gaugeOk_of_eq hp0 a4 a5
        · rw [hen, hen2]
          exact consumeATB_gaugeOk (gaugeOk_of_eq he0 a1 a2) (canAct_of_eq hc a1 a3)
  rcases autoTurn_inv h2 with ⟨hpl, hen, ha, _⟩ | ⟨hon, _⟩
  · exact ⟨by rw [hpl]; exact hg1.1, by rw [hen]; exact hg1.2.1, by rw [ha]; exact hg1.2.2⟩
  · rw [hg1.2.2] at hon
    exact absurd hon (by decide)

/-- With the auto button never clicked and the player actions invoked only while
`player.canAct()` is true, both gauges stay within `[0, 2000]`. -/
theorem manual_gauge_in_bounds {g : Game} (h : ManualReachable g) :
    g.player.gaugeOk ∧ g.enemy.gaugeOk ∧ g.autoMode = false := by
  induction h with
  | init rp re hp he =>
    refine ⟨?_, ?_, ?_⟩
    · rw [initialGame_player_eq]
      exact ⟨le_refl _, by norm_num [Character.new], by
        show (0 : ℚ) ≤ fadd 50 (fmul rp 20)
        exact fadd_nonneg _ _ (by norm_num) (fmul_nonneg _ _ hp.1 (by norm_num))⟩
    · rw [initialGame_enemy_eq]
      exact ⟨le_refl _, by norm_num [Character.new], by
        show (0 : ℚ) ≤ fadd 50 (fmul re 20)
        exact fadd_nonneg _ _ (by norm_num) (fmul_nonneg _ _ he.1 (by norm_num))⟩
    · simp [initialGame, startGame, updateUI, log]
  | tick action re rp _ h ih => exact gameLoop_gauge_manual ih.1 ih.2.1 ih.2.2 h
  | playerBrv rnd _ hc h ih =>
    obtain ⟨h1, h2, h3⟩ := playerBrvAttack_gauge ih.1 ih.2.1 hc h
    exact ⟨h1, h2, by rw [h3]; exact ih.2.2⟩
  | playerHp _ hc h ih =>
    obtain ⟨h1, h2, h3⟩ := playerHpAttack_gauge ih.1 ih.2.1 hc h
    exact ⟨h1, h2, by rw [h3]; exact ih.2.2⟩
  | playerSkill rnd _ hc h ih =>
    obtain ⟨h1, h2, h3⟩ := playerSkillAttack_gauge ih.1 ih.2.1 hc h
    exact ⟨h1, h2, by rw [h3]; exact ih.2.2⟩

end DawnOfStellar
